import Mathlib

/-!
# libipvs: attribute codec and command dispatcher

A shallow embedding of `ipvs.go`, `ipvsConst.go` and `handler.go`.

* Go `string` and `[]byte` values are sequences of bytes; a byte is a `Nat`
  (below 256 wherever the Go value is a byte).
* Go `int` is `Int`; the conversions `uint16(x)` and `uint32(x)` are the
  explicit remainders modulo `2^16` and `2^32`.
* A Go function returning `(T, error)` returns `Except Err T`; a run-time
  panic (index or slice bound out of range) is the error value `Err.panic`.
* The host byte order `native` is a parameter of every function reading or
  writing host-order integers.
* The library functions the code calls (`net.ParseIP`, `net.IP.To4`,
  `net.IP.String`, `nl.ParseRouteAttr`, `nl.ZeroTerminated`, ...) are embedded
  from their Go sources under their own names.
-/

namespace Libipvs

/-! ## Strings, bytes and errors -/

/-- Go `string`: an immutable sequence of bytes. -/
abbrev GoString := List Nat

/-- The bytes of an ASCII string literal. -/
def str (s : String) : GoString := s.toList.map Char.toNat

/-- Error values returned by the package, one constructor per message format,
plus `EINVAL` of `nl.ParseRouteAttr`, the uninterpreted transport errors, and `panic`
for a Go run-time panic. -/
inductive Err where
  /-- `fmt.Errorf("invalid IP address %s", s.Address)` (encode). -/
  | invalidIPAddress (address : GoString)
  /-- `fmt.Errorf("not support protocol %s", s.Protocol)` (encode). -/
  | notSupportProtocol (protocol : GoString)
  /-- `fmt.Errorf("not support scheduler %s", s.SchedName)`. -/
  | notSupportScheduler (name : GoString)
  /-- `errors.New("not support method " + d.Method)`; decode uses the empty method. -/
  | notSupportMethod (method : GoString)
  /-- `fmt.Errorf("not support protocol %v", native.Uint16(attr.Value))` (decode). -/
  | notSupportProtocolValue (value : Nat)
  /-- `fmt.Errorf("invalid IP address %v", addr)` (decode). -/
  | invalidIPAddressBytes (addr : List Nat)
  /-- `unix.EINVAL` from `nl.ParseRouteAttr`. -/
  | EINVAL
  /-- `fmt.Errorf("invalid netlink message")`. -/
  | invalidNetlinkMessage
  /-- `fmt.Errorf("not found entry %v", services)`. -/
  | notFoundEntry
  /-- `fmt.Errorf("found duplicate entry %v", services)`. -/
  | foundDuplicateEntry
  /-- `fmt.Errorf("Not found destination")`. -/
  | notFoundDestination
  /-- `fmt.Errorf("found duplication destination")`. -/
  | foundDuplicationDestination
  /-- An error of the transport (`req.Execute`), passed through. -/
  | transport (code : Nat)
  /-- A Go run-time panic. -/
  | panic
  deriving DecidableEq, Repr

deriving instance DecidableEq for Except

/-- Go `[]byte` with its capacity: `elems` are the `len` visible bytes, `spare`
the bytes of the backing array between `len` and `cap`. -/
structure ByteSlice where
  elems : List Nat
  spare : List Nat
  deriving DecidableEq, Repr

/-- The nil slice (`var addr []byte`). -/
def ByteSlice.nil : ByteSlice := ⟨[], []⟩

/-- A slice whose capacity equals its length. -/
def ByteSlice.ofList (l : List Nat) : ByteSlice := ⟨l, []⟩

/-- Go `len(b)`. -/
def ByteSlice.len (b : ByteSlice) : Nat := b.elems.length

/-- Go `cap(b)`. -/
def ByteSlice.cap (b : ByteSlice) : Nat := b.elems.length + b.spare.length

/-- Go `b[:n]`: the bound is checked against the capacity. -/
def ByteSlice.sliceTo (b : ByteSlice) (n : Nat) : Except Err ByteSlice :=
  if n ≤ b.cap then .ok ⟨(b.elems ++ b.spare).take n, (b.elems ++ b.spare).drop n⟩
  else .error .panic

/-- Go `b[n:]`: the bound is checked against the length. -/
def ByteSlice.sliceFrom (b : ByteSlice) (n : Nat) : Except Err ByteSlice :=
  if n ≤ b.len then .ok ⟨b.elems.drop n, b.spare⟩ else .error .panic

/-! ## Byte order (`encoding/binary`, `nl.NativeEndian`) -/

/-- The two byte orders of `encoding/binary`. -/
inductive ByteOrder where
  | LittleEndian
  | BigEndian
  deriving DecidableEq, Repr

/-- Go `order.PutUint16`: the two bytes of `v mod 2^16`. -/
def ByteOrder.PutUint16 (o : ByteOrder) (v : Nat) : List Nat :=
  match o with
  | .LittleEndian => [v % 256, v / 256 % 256]
  | .BigEndian => [v / 256 % 256, v % 256]

/-- Go `order.PutUint32`: the four bytes of `v mod 2^32`. -/
def ByteOrder.PutUint32 (o : ByteOrder) (v : Nat) : List Nat :=
  match o with
  | .LittleEndian => [v % 256, v / 256 % 256, v / 65536 % 256, v / 16777216 % 256]
  | .BigEndian => [v / 16777216 % 256, v / 65536 % 256, v / 256 % 256, v % 256]

/-- Go `order.Uint16(b)`: panics when `len(b) < 2`. -/
def ByteOrder.Uint16 (o : ByteOrder) (b : List Nat) : Except Err Nat :=
  match b with
  | b0 :: b1 :: _ =>
    match o with
    | .LittleEndian => .ok (b0 % 256 + 256 * (b1 % 256))
    | .BigEndian => .ok (b1 % 256 + 256 * (b0 % 256))
  | _ => .error .panic

/-- Go `order.Uint32(b)`: panics when `len(b) < 4`. -/
def ByteOrder.Uint32 (o : ByteOrder) (b : List Nat) : Except Err Nat :=
  match b with
  | b0 :: b1 :: b2 :: b3 :: _ =>
    match o with
    | .LittleEndian =>
      .ok (b0 % 256 + 256 * (b1 % 256) + 65536 * (b2 % 256) + 16777216 * (b3 % 256))
    | .BigEndian =>
      .ok (b3 % 256 + 256 * (b2 % 256) + 65536 * (b1 % 256) + 16777216 * (b0 % 256))
  | _ => .error .panic

/-- Go `order.Uint64(b)`: panics when `len(b) < 8`. -/
def ByteOrder.Uint64 (o : ByteOrder) (b : List Nat) : Except Err Nat :=
  match b with
  | b0 :: b1 :: b2 :: b3 :: b4 :: b5 :: b6 :: b7 :: _ =>
    match o with
    | .LittleEndian =>
      .ok (b0 % 256 + 256 * (b1 % 256) + 256 ^ 2 * (b2 % 256) + 256 ^ 3 * (b3 % 256)
        + 256 ^ 4 * (b4 % 256) + 256 ^ 5 * (b5 % 256) + 256 ^ 6 * (b6 % 256)
        + 256 ^ 7 * (b7 % 256))
    | .BigEndian =>
      .ok (b7 % 256 + 256 * (b6 % 256) + 256 ^ 2 * (b5 % 256) + 256 ^ 3 * (b4 % 256)
        + 256 ^ 4 * (b3 % 256) + 256 ^ 5 * (b2 % 256) + 256 ^ 6 * (b1 % 256)
        + 256 ^ 7 * (b0 % 256))
  | _ => .error .panic

/-- Go `nl.Uint16Attr(v)`: two bytes in host order. -/
def Uint16Attr (native : ByteOrder) (v : Nat) : List Nat := native.PutUint16 v

/-- Go `nl.Uint32Attr(v)`: four bytes in host order. -/
def Uint32Attr (native : ByteOrder) (v : Nat) : List Nat := native.PutUint32 v

/-- Go `nl.ZeroTerminated(s)`: the bytes of `s` followed by a NUL byte. -/
def ZeroTerminated (s : GoString) : List Nat := s ++ [0]

/-- Go `bytes.Index(b, []byte{0})`: position of the first NUL byte, if any. -/
def indexNul : List Nat → Option Nat
  | [] => none
  | c :: rest => if c = 0 then some 0 else (indexNul rest).map (· + 1)

/-- Go `nl.BytesToString(b)`: `string(b[:n])` with `n` the index of the first
NUL byte; with no NUL byte `n = -1` and the slice expression panics. -/
def BytesToString (b : List Nat) : Except Err GoString :=
  match indexNul b with
  | some n => .ok (b.take n)
  | none => .error .panic

/-! ## Package `net`: `ParseIP`, `IP.To4`, `IP.String` -/

/-- Go `parseIPv4Fields` (Go 1.17 and later, where an octet with a leading
zero is refused), the loop over the bytes of a dotted-quad text: `prev` is the
byte before the current one (`none` at index 0), `val` the value of the
current octet, `pos` the index of the current field, `digLen` its number of
digits. Returns the four fields. -/
def parseIPv4Loop : List Nat → Option Nat → Nat → Nat → Nat → List Nat → Option (List Nat)
  | [], _, val, pos, _, fields => if pos < 3 then none else some (fields.set 3 val)
  | c :: rest, prev, val, pos, digLen, fields =>
    if 48 ≤ c ∧ c ≤ 57 then
      if digLen = 1 ∧ val = 0 then none
      else if val * 10 + (c - 48) > 255 then none
      else parseIPv4Loop rest (some c) (val * 10 + (c - 48)) pos (digLen + 1) fields
    else if c = 46 then
      if prev = none ∨ rest = [] ∨ prev = some 46 then none
      else if pos = 3 then none
      else parseIPv4Loop rest (some c) 0 (pos + 1) 0 (fields.set pos val)
    else none

/-- Go `parseIPv4Fields(in, off, end, fields)` on the text `in[off:end]`. -/
def parseIPv4Fields (s : List Nat) : Option (List Nat) :=
  parseIPv4Loop s none 0 0 0 [0, 0, 0, 0]

/-- Value of a hexadecimal digit byte. -/
def hexVal (c : Nat) : Option Nat :=
  if 48 ≤ c ∧ c ≤ 57 then some (c - 48)
  else if 97 ≤ c ∧ c ≤ 102 then some (c - 97 + 10)
  else if 65 ≤ c ∧ c ≤ 70 then some (c - 65 + 10)
  else none

/-- The inner loop of `parseIPv6` reading one hexadecimal group: returns the
number of digits read, their value and the unread text; fails on a fifth digit
or a value above `0xFFFF`. -/
def parseHexGroup : List Nat → Nat → Nat → Option (Nat × Nat × List Nat)
  | [], off, acc => some (off, acc, [])
  | c :: rest, off, acc =>
    match hexVal c with
    | none => some (off, acc, c :: rest)
    | some d =>
      if off > 3 then none
      else if acc * 16 + d > 65535 then none
      else parseHexGroup rest (off + 1) (acc * 16 + d)

/-- The main loop of `parseIPv6` (`for i < 16`). `ip` holds the bytes written
so far, so the loop index `i` is `ip.length`; `ellipsis` is the position of
`::` (`none` for `-1`). Each round writes at least two bytes, so eight rounds
of `fuel` reach `i = 16`. Returns the bytes written, the ellipsis and the
unread text. -/
def parseIPv6Loop : Nat → List Nat → List Nat → Option Nat →
    Option (List Nat × Option Nat × List Nat)
  | 0, s, ip, ellipsis => some (ip, ellipsis, s)
  | fuel + 1, s, ip, ellipsis =>
    if ip.length < 16 then
      match parseHexGroup s 0 0 with
      | none => none
      | some (off, acc, rest) =>
        if off = 0 then none
        else if rest.head? = some 46 then
          if ellipsis = none ∧ ip.length ≠ 12 then none
          else if ip.length + 4 > 16 then none
          else
            match parseIPv4Fields s with
            | none => none
            | some fields => some (ip ++ fields, ellipsis, [])
        else
          match rest with
          | [] => some (ip ++ [acc / 256, acc % 256], ellipsis, [])
          | c :: rest1 =>
            if c ≠ 58 then none
            else
              match rest1 with
              | [] => none
              | c1 :: rest2 =>
                if c1 = 58 then
                  if ellipsis ≠ none then none
                  else if rest2 = [] then
                    some (ip ++ [acc / 256, acc % 256], some (ip.length + 2), [])
                  else
                    parseIPv6Loop fuel rest2 (ip ++ [acc / 256, acc % 256])
                      (some (ip.length + 2))
                else
                  parseIPv6Loop fuel (c1 :: rest2) (ip ++ [acc / 256, acc % 256]) ellipsis
    else some (ip, ellipsis, s)

/-- The part of Go `parseIPv6` from the main loop on: after the loop the whole
text must be used; an address shorter than 16 bytes is expanded with zeros at
the ellipsis, and a full one must have no ellipsis. -/
def parseIPv6Groups (s : List Nat) (ellipsis : Option Nat) : Option (List Nat) :=
  match parseIPv6Loop 8 s [] ellipsis with
  | none => none
  | some (ip, ell, rest) =>
    if rest ≠ [] then none
    else if ip.length < 16 then
      match ell with
      | none => none
      | some e => some (ip.take e ++ List.replicate (16 - ip.length) 0 ++ ip.drop e)
    else if ell ≠ none then none
    else some ip

/-- Go `parseIPv6` as `net.ParseIP` uses it: a text with a zone (`%`) is
rejected (an empty zone is a parse error and `parseIP` refuses a non-empty
one). A leading `::` sets the ellipsis at 0 and may be the whole text. -/
def parseIPv6 (s0 : List Nat) : Option (List Nat) :=
  if 37 ∈ s0 then none
  else
    match s0 with
    | 58 :: 58 :: s => if s = [] then some (List.replicate 16 0) else parseIPv6Groups s (some 0)
    | s => parseIPv6Groups s none

/-- Go `netip.ParseAddr`, the scan for the first `.`, `:` or `%`, on the
remaining text `s` of `all`; an IPv4 result is returned in its 16-byte
IPv4-mapped form (`Addr.As16`). -/
def parseAddrScan (all : List Nat) : List Nat → Option (List Nat)
  | [] => none
  | c :: rest =>
    if c = 46 then
      (parseIPv4Fields all).map (fun f => [0, 0, 0, 0, 0, 0, 0, 0, 0, 0, 255, 255] ++ f)
    else if c = 58 then parseIPv6 all
    else if c = 37 then none
    else parseAddrScan all rest

/-- Go `net.ParseIP(s)`: the 16-byte form of the address, or `none` for `nil`. -/
def ParseIP (s : GoString) : Option (List Nat) := parseAddrScan s s

/-- Go `ip.To4()`: the 4-byte form of an IPv4 address, `none` for `nil`. -/
def To4 (ip : List Nat) : Option (List Nat) :=
  if ip.length = 4 then some ip
  else if ip.length = 16 ∧ ip.take 10 = List.replicate 10 0 ∧ ip.get? 10 = some 255
      ∧ ip.get? 11 = some 255 then some (ip.drop 12)
  else none

/-- Go `strconv.AppendUint(_, v, 10)` for a byte. -/
def decimalByte (v : Nat) : List Nat :=
  if v ≥ 100 then [48 + v / 100, 48 + v / 10 % 10, 48 + v % 10]
  else if v ≥ 10 then [48 + v / 10, 48 + v % 10]
  else [48 + v]

/-- The lower-case hexadecimal digit of a value below 16. -/
def hexDigit (d : Nat) : Nat := if d < 10 then 48 + d else 87 + d

/-- Go `appendHex`: a 16-bit group in lower-case hexadecimal, no leading zeros. -/
def appendHex (x : Nat) : List Nat :=
  (if x ≥ 4096 then [hexDigit (x / 4096 % 16)] else [])
    ++ (if x ≥ 256 then [hexDigit (x / 256 % 16)] else [])
    ++ (if x ≥ 16 then [hexDigit (x / 16 % 16)] else [])
    ++ [hexDigit (x % 16)]

/-- The eight 16-bit groups of a 16-byte address. -/
def v6groups : List Nat → List Nat
  | hi :: lo :: rest => (hi % 256 * 256 + lo % 256) :: v6groups rest
  | _ => []

/-- Length of the run of zero groups at the head of a list. -/
def zeroRun : List Nat → Nat
  | 0 :: rest => zeroRun rest + 1
  | _ => 0

/-- First loop of Go `appendTo6`: the first longest run of at least two zero
groups, as `(start, end)`; `i` is the index of the head of the list. -/
def longestZeroRun : List Nat → Nat → Option (Nat × Nat) → Option (Nat × Nat)
  | [], _, best => best
  | g :: rest, i, best =>
    let l := zeroRun (g :: rest)
    let cur := match best with
      | none => 0
      | some (a, b) => b - a
    longestZeroRun rest (i + 1) (if l ≥ 2 ∧ l > cur then some (i, i + l) else best)

/-- Second loop of Go `appendTo6`, over the group indices from `i` with `fuel`
rounds left: `::` replaces the chosen run of zero groups. -/
def appendGroups (groups : List Nat) (zero : Option (Nat × Nat)) : Nat → Nat → List Nat
  | 0, _ => []
  | fuel + 1, i =>
    if i ≥ 8 then []
    else
      match zero with
      | some (a, b) =>
        if i = a then
          [58, 58] ++ (if b ≥ 8 then []
            else appendHex (groups.getD b 0) ++ appendGroups groups zero fuel (b + 1))
        else
          (if i > 0 then [58] else []) ++ appendHex (groups.getD i 0)
            ++ appendGroups groups zero fuel (i + 1)
      | none =>
        (if i > 0 then [58] else []) ++ appendHex (groups.getD i 0)
          ++ appendGroups groups zero fuel (i + 1)

/-- Go `hexString`: two lower-case hexadecimal digits per byte. -/
def hexString (b : List Nat) : List Nat :=
  b.flatMap (fun v => [hexDigit (v / 16 % 16), hexDigit (v % 16)])

/-- Go `net.IP.String()`: dotted decimal for an address with a 4-byte form,
the compressed colon-hexadecimal text for another 16-byte address. -/
def IPString (ip : List Nat) : GoString :=
  if ip.length = 0 then str "<nil>"
  else if ip.length ≠ 4 ∧ ip.length ≠ 16 then str "?" ++ hexString ip
  else
    match To4 ip with
    | some [a, b, c, d] =>
      decimalByte (a % 256) ++ [46] ++ decimalByte (b % 256) ++ [46]
        ++ decimalByte (c % 256) ++ [46] ++ decimalByte (d % 256)
    | _ =>
      appendGroups (v6groups ip) (longestZeroRun (v6groups ip) 0 none) 8 0

/-! ## Package `nl`: route attributes -/

/-- A child attribute added by `nl.NewRtAttrChild`: a leaf with a type and its data. -/
structure RtAttrChild where
  Typ : Nat
  Data : List Nat
  deriving DecidableEq, Repr

/-- Go `nl.RtAttr` as this package builds it (`nl.NetlinkRequestData`): a node
made by `nl.NewRtAttr` and the leaves added to it, in order. -/
structure RtAttr where
  Typ : Nat
  Data : List Nat
  children : List RtAttrChild
  deriving DecidableEq, Repr

/-- Go `nl.NewRtAttr(attrType, data)`. -/
def NewRtAttr (attrType : Nat) (data : List Nat) : RtAttr := ⟨attrType, data, []⟩

/-- Go `nl.NewRtAttrChild(parent, attrType, data)`: appends a leaf to `parent`. -/
def NewRtAttrChild (parent : RtAttr) (attrType : Nat) (data : List Nat) : RtAttr :=
  { parent with children := parent.children ++ [⟨attrType, data⟩] }

/-- Go `syscall.NetlinkRouteAttr`: the type of a decoded record (`Attr.Type`)
and its value; `Attr.Len`, which the package never reads, is left out. -/
structure NetlinkRouteAttr where
  Typ : Nat
  Value : ByteSlice
  deriving DecidableEq, Repr

/-- Go `unix.SizeofRtAttr`. -/
abbrev SizeofRtAttr : Nat := 4

/-- Go `nl.SizeofGenlmsg`. -/
abbrev SizeofGenlmsg : Nat := 4

/-- Go `rtaAlignOf`: `(attrlen + 3) &^ 3`. -/
def rtaAlignOf (attrlen : Nat) : Nat := (attrlen + 3) / 4 * 4

/-- The loop of Go `nl.ParseRouteAttr` (`for len(b) >= unix.SizeofRtAttr`).
One round reads the header (`Len`, `Type`, host order), fails with `EINVAL`
when `Len < 4` or `Len > len(b)`, appends the record with value
`b[4:Len]` and goes on with `b[rtaAlignOf(Len):]`, which panics past `len(b)`.
A round consumes at least four bytes, so `fuel = len(b)` rounds always
suffice: with no fuel left, `len(b) = 0` and the loop has ended. -/
def parseRouteAttrLoop (native : ByteOrder) :
    Nat → ByteSlice → List NetlinkRouteAttr → Except Err (List NetlinkRouteAttr)
  | 0, _, attrs => .ok attrs
  | fuel + 1, b, attrs =>
    if b.len ≥ SizeofRtAttr then
      match native.Uint16 b.elems, native.Uint16 (b.elems.drop 2) with
      | .ok aLen, .ok aType =>
        if aLen < SizeofRtAttr ∨ aLen > b.len then .error .EINVAL
        else
          match b.sliceFrom (rtaAlignOf aLen) with
          | .error e => .error e
          | .ok b1 =>
            parseRouteAttrLoop native fuel b1
              (attrs ++ [⟨aType, ⟨(b.elems.drop SizeofRtAttr).take (aLen - SizeofRtAttr),
                b.elems.drop aLen ++ b.spare⟩⟩])
      | _, _ => .error .panic
    else .ok attrs

/-- Go `nl.ParseRouteAttr(b)`: one level of attribute records. -/
def ParseRouteAttr (native : ByteOrder) (b : ByteSlice) : Except Err (List NetlinkRouteAttr) :=
  parseRouteAttrLoop native b.len b []

/-! ## Constants (`ipvsConst.go`, `syscall`) -/

abbrev IPVS_CMD_UNSPEC : Nat := 0
abbrev IPVS_CMD_NEW_SERVICE : Nat := 1
abbrev IPVS_CMD_SET_SERVICE : Nat := 2
abbrev IPVS_CMD_DEL_SERVICE : Nat := 3
abbrev IPVS_CMD_GET_SERVICE : Nat := 4
abbrev IPVS_CMD_NEW_DEST : Nat := 5
abbrev IPVS_CMD_SET_DEST : Nat := 6
abbrev IPVS_CMD_DEL_DEST : Nat := 7
abbrev IPVS_CMD_GET_DEST : Nat := 8
abbrev IPVS_CMD_NEW_DAEMON : Nat := 9
abbrev IPVS_CMD_DEL_DAEMON : Nat := 10
abbrev IPVS_CMD_GET_DAEMON : Nat := 11
abbrev IPVS_CMD_SET_TIMEOUT : Nat := 12
abbrev IPVS_CMD_GET_TIMEOUT : Nat := 13
abbrev IPVS_CMD_SET_INFO : Nat := 14
abbrev IPVS_CMD_GET_INFO : Nat := 15
abbrev IPVS_CMD_ZERO : Nat := 16
abbrev IPVS_CMD_FLUSH : Nat := 17

abbrev IPVS_CMD_ATTR_UNSPEC : Nat := 0
abbrev IPVS_CMD_ATTR_SERVICE : Nat := 1
abbrev IPVS_CMD_ATTR_DEST : Nat := 2

abbrev IPVS_SVC_ATTR_UNSPEC : Nat := 0
abbrev IPVS_SVC_ATTR_AF : Nat := 1
abbrev IPVS_SVC_ATTR_PROTOCOL : Nat := 2
abbrev IPVS_SVC_ATTR_ADDR : Nat := 3
abbrev IPVS_SVC_ATTR_PORT : Nat := 4
abbrev IPVS_SVC_ATTR_FWMARK : Nat := 5
abbrev IPVS_SVC_ATTR_SCHED_NAME : Nat := 6
abbrev IPVS_SVC_ATTR_FLAGS : Nat := 7
abbrev IPVS_SVC_ATTR_TIMEOUT : Nat := 8
abbrev IPVS_SVC_ATTR_NETMASK : Nat := 9
abbrev IPVS_SVC_ATTR_STATS : Nat := 10
abbrev IPVS_SVC_ATTR_PE_NAME : Nat := 11
abbrev IPVS_SVC_ATTR_STATS64 : Nat := 12

abbrev IPVS_DEST_ATTR_UNSPEC : Nat := 0
abbrev IPVS_DEST_ATTR_ADDR : Nat := 1
abbrev IPVS_DEST_ATTR_PORT : Nat := 2
abbrev IPVS_DEST_ATTR_FWD_METHOD : Nat := 3
abbrev IPVS_DEST_ATTR_WEIGHT : Nat := 4
abbrev IPVS_DEST_ATTR_U_THRESH : Nat := 5
abbrev IPVS_DEST_ATTR_L_THRESH : Nat := 6
abbrev IPVS_DEST_ATTR_ACTIVE_CONNS : Nat := 7
abbrev IPVS_DEST_ATTR_INACT_CONNS : Nat := 8
abbrev IPVS_DEST_ATTR_PERSIST_CONNS : Nat := 9
abbrev IPVS_DEST_ATTR_STATS : Nat := 10
abbrev IPVS_DEST_ATTR_ADDR_FAMILY : Nat := 11
abbrev IPVS_DEST_ATTR_STATS64 : Nat := 12

abbrev IPVS_STATS_ATTR_UNSPEC : Nat := 0
abbrev IPVS_STATS_ATTR_CONNS : Nat := 1
abbrev IPVS_STATS_ATTR_INPKTS : Nat := 2
abbrev IPVS_STATS_ATTR_OUTPKTS : Nat := 3
abbrev IPVS_STATS_ATTR_INBYTES : Nat := 4
abbrev IPVS_STATS_ATTR_OUTBYTES : Nat := 5
abbrev IPVS_STATS_ATTR_CPS : Nat := 6
abbrev IPVS_STATS_ATTR_INPPS : Nat := 7
abbrev IPVS_STATS_ATTR_OUTPPS : Nat := 8
abbrev IPVS_STATS_ATTR_INBPS : Nat := 9
abbrev IPVS_STATS_ATTR_OUTBPS : Nat := 10
abbrev IPVS_STATS_ATTR_PAD : Nat := 11

abbrev IP_VS_CONN_F_FWD_MASK : Nat := 7
abbrev IP_VS_CONN_F_MASQ : Nat := 0
abbrev IP_VS_CONN_F_LOCALNODE : Nat := 1
abbrev IP_VS_CONN_F_TUNNEL : Nat := 2
abbrev IP_VS_CONN_F_DROUTE : Nat := 3
abbrev IP_VS_CONN_F_BYPASS : Nat := 4

/-- Go `syscall.AF_INET`. -/
abbrev AF_INET : Nat := 2
/-- Go `syscall.AF_INET6` (Linux). -/
abbrev AF_INET6 : Nat := 10
/-- Go `syscall.IPPROTO_TCP`. -/
abbrev IPPROTO_TCP : Nat := 6
/-- Go `syscall.IPPROTO_UDP`. -/
abbrev IPPROTO_UDP : Nat := 17
/-- Go `syscall.IPPROTO_SCTP`. -/
abbrev IPPROTO_SCTP : Nat := 132
/-- Go `syscall.NLM_F_ACK`. -/
abbrev NLM_F_ACK : Nat := 4
/-- Go `syscall.NLM_F_DUMP` (`NLM_F_ROOT | NLM_F_MATCH`). -/
abbrev NLM_F_DUMP : Nat := 768

/-! ## Entities (`ipvs.go`) -/

/-- Go `Stats`: the statistics of a service or destination. -/
structure Stats where
  Connections : Nat := 0
  PacketsIn : Nat := 0
  PacketsOut : Nat := 0
  BytesIn : Nat := 0
  BytesOut : Nat := 0
  CPS : Nat := 0
  PPSIn : Nat := 0
  PPSOut : Nat := 0
  BPSIn : Nat := 0
  BPSOut : Nat := 0
  deriving DecidableEq, Repr

/-- Go `ServiceEntry`; the defaults are the zero values. -/
structure ServiceEntry where
  Address : GoString := []
  Protocol : GoString := []
  Port : Int := 0
  FWMark : Int := 0
  SchedName : GoString := []
  Flags : Int := 0
  Timeout : Int := 0
  Netmask : Int := 0
  AddressFamily : GoString := []
  PEName : GoString := []
  Stats : Stats := {}
  deriving DecidableEq, Repr

/-- Go `DestinationEntry`; the defaults are the zero values. -/
structure DestinationEntry where
  Address : GoString := []
  Port : Int := 0
  Weight : Int := 0
  Method : GoString := []
  AddressFamily : GoString := []
  UpperThreshold : Int := 0
  LowerThreshold : Int := 0
  ActiveConnections : Nat := 0
  InActiveConnections : Nat := 0
  PersistConnections : Nat := 0
  Stats : Stats := {}
  deriving DecidableEq, Repr

/-- Go `uint16(x)` of an `int`. -/
def uint16 (x : Int) : Nat := (x % 65536).toNat

/-- Go `uint32(x)` of an `int`. -/
def uint32 (x : Int) : Nat := (x % 4294967296).toNat

/-- Go `ipvsFlags.Serialize`: the eight bytes of the struct in memory, `flags`
then `mask`, each a host-order `uint32`. -/
def ipvsFlags.Serialize (native : ByteOrder) (flags mask : Nat) : List Nat :=
  native.PutUint32 flags ++ native.PutUint32 mask

/-- Go `ServiceEntry.Serialize`. -/
def ServiceEntry.Serialize (native : ByteOrder) (s : ServiceEntry) : Except Err RtAttr :=
  match ParseIP s.Address with
  | none => .error (.invalidIPAddress s.Address)
  | some ip =>
    match (if s.Protocol = str "TCP" ∨ s.Protocol = str "tcp" ∨ s.Protocol = str "Tcp" then
        some IPPROTO_TCP
      else if s.Protocol = str "UDP" ∨ s.Protocol = str "udp" ∨ s.Protocol = str "Udp" then
        some IPPROTO_UDP
      else if s.Protocol = str "SCTP" ∨ s.Protocol = str "sctp" ∨ s.Protocol = str "Sctp" then
        some IPPROTO_SCTP
      else none) with
    | none => .error (.notSupportProtocol s.Protocol)
    | some protocol =>
      let addressFamily := if To4 ip = none then AF_INET6 else AF_INET
      if s.SchedName ∈ [str "", str "rr", str "wrr", str "lc", str "wlc", str "lblc",
          str "able", str "lblcr", str "dh", str "sh", str "sed", str "nq"] then
        let cmdAttrService := NewRtAttr IPVS_CMD_ATTR_SERVICE []
        let cmdAttrService :=
          NewRtAttrChild cmdAttrService IPVS_SVC_ATTR_AF (Uint16Attr native addressFamily)
        let cmdAttrService :=
          if s.FWMark = 0 then
            let cmdAttrService := NewRtAttrChild cmdAttrService IPVS_SVC_ATTR_PORT
              (ByteOrder.BigEndian.PutUint16 (uint16 s.Port))
            let cmdAttrService := NewRtAttrChild cmdAttrService IPVS_SVC_ATTR_PROTOCOL
              (Uint16Attr native protocol)
            if addressFamily = AF_INET then
              NewRtAttrChild cmdAttrService IPVS_SVC_ATTR_ADDR ((To4 ip).getD [])
            else if addressFamily = AF_INET6 then
              NewRtAttrChild cmdAttrService IPVS_SVC_ATTR_ADDR ip
            else cmdAttrService
          else
            NewRtAttrChild cmdAttrService IPVS_SVC_ATTR_FWMARK
              (Uint32Attr native (uint32 s.FWMark))
        let cmdAttrService :=
          NewRtAttrChild cmdAttrService IPVS_SVC_ATTR_SCHED_NAME (ZeroTerminated s.SchedName)
        let cmdAttrService :=
          if s.PEName ≠ str "" then
            NewRtAttrChild cmdAttrService IPVS_SVC_ATTR_PE_NAME (ZeroTerminated s.PEName)
          else cmdAttrService
        let cmdAttrService := NewRtAttrChild cmdAttrService IPVS_SVC_ATTR_FLAGS
          (ipvsFlags.Serialize native (uint32 s.Flags) 4294967295)
        let cmdAttrService := NewRtAttrChild cmdAttrService IPVS_SVC_ATTR_TIMEOUT
          (Uint32Attr native (uint32 s.Timeout))
        let cmdAttrService := NewRtAttrChild cmdAttrService IPVS_SVC_ATTR_NETMASK
          (Uint32Attr native (uint32 s.Netmask))
        .ok cmdAttrService
      else .error (.notSupportScheduler s.SchedName)

/-- Go `DestinationEntry.Serialize`. -/
def DestinationEntry.Serialize (native : ByteOrder) (d : DestinationEntry) :
    Except Err RtAttr :=
  match ParseIP d.Address with
  | none => .error (.invalidIPAddress d.Address)
  | some ip =>
    match (if d.Method = str "NAT" then some IP_VS_CONN_F_MASQ
      else if d.Method = str "DR" then some IP_VS_CONN_F_DROUTE
      else if d.Method = str "TUN" then some IP_VS_CONN_F_TUNNEL
      else none) with
    | none => .error (.notSupportMethod d.Method)
    | some method =>
      let addressFamily := if To4 ip = none then AF_INET6 else AF_INET
      let cmdAttrDest := NewRtAttr IPVS_CMD_ATTR_DEST []
      let cmdAttrDest :=
        if addressFamily = AF_INET then
          NewRtAttrChild cmdAttrDest IPVS_DEST_ATTR_ADDR ((To4 ip).getD [])
        else if addressFamily = AF_INET6 then
          NewRtAttrChild cmdAttrDest IPVS_DEST_ATTR_ADDR ip
        else cmdAttrDest
      let cmdAttrDest := NewRtAttrChild cmdAttrDest IPVS_DEST_ATTR_PORT
        (ByteOrder.BigEndian.PutUint16 (uint16 d.Port))
      let cmdAttrDest := NewRtAttrChild cmdAttrDest IPVS_DEST_ATTR_FWD_METHOD
        (Uint32Attr native (method &&& IP_VS_CONN_F_FWD_MASK))
      let cmdAttrDest := NewRtAttrChild cmdAttrDest IPVS_DEST_ATTR_WEIGHT
        (Uint32Attr native (uint32 d.Weight))
      let cmdAttrDest := NewRtAttrChild cmdAttrDest IPVS_DEST_ATTR_U_THRESH
        (Uint32Attr native (uint32 d.UpperThreshold))
      let cmdAttrDest := NewRtAttrChild cmdAttrDest IPVS_DEST_ATTR_L_THRESH
        (Uint32Attr native (uint32 d.LowerThreshold))
      .ok cmdAttrDest

/-- One round of the loop of Go `assembleStats`: the `switch` on the record type. -/
def statsStep (native : ByteOrder) (s : Stats) (attr : NetlinkRouteAttr) : Except Err Stats :=
  if attr.Typ = IPVS_STATS_ATTR_CONNS then do
    let v ← native.Uint32 attr.Value.elems
    pure { s with Connections := v }
  else if attr.Typ = IPVS_STATS_ATTR_INPKTS then do
    let v ← native.Uint32 attr.Value.elems
    pure { s with PacketsIn := v }
  else if attr.Typ = IPVS_STATS_ATTR_OUTPKTS then do
    let v ← native.Uint32 attr.Value.elems
    pure { s with PacketsOut := v }
  else if attr.Typ = IPVS_STATS_ATTR_INBYTES then do
    let v ← native.Uint64 attr.Value.elems
    pure { s with BytesIn := v }
  else if attr.Typ = IPVS_STATS_ATTR_OUTBYTES then do
    let v ← native.Uint64 attr.Value.elems
    pure { s with BytesOut := v }
  else if attr.Typ = IPVS_STATS_ATTR_CPS then do
    let v ← native.Uint32 attr.Value.elems
    pure { s with CPS := v }
  else if attr.Typ = IPVS_STATS_ATTR_INPPS then do
    let v ← native.Uint32 attr.Value.elems
    pure { s with PPSIn := v }
  else if attr.Typ = IPVS_STATS_ATTR_OUTPPS then do
    let v ← native.Uint32 attr.Value.elems
    pure { s with PPSOut := v }
  else if attr.Typ = IPVS_STATS_ATTR_INBPS then do
    let v ← native.Uint32 attr.Value.elems
    pure { s with BPSIn := v }
  else if attr.Typ = IPVS_STATS_ATTR_OUTBPS then do
    let v ← native.Uint32 attr.Value.elems
    pure { s with BPSOut := v }
  else pure s

/-- Go `assembleStats`. -/
def assembleStats (native : ByteOrder) (msg : ByteSlice) : Except Err Stats := do
  let attrs ← ParseRouteAttr native msg
  attrs.foldlM (statsStep native) {}

/-- One round of the loop of Go `assembleServiceInterface`: the `switch` on
the record type, on the entry `s` and the address bytes `addr` built so far. -/
def serviceStep (native : ByteOrder) (acc : ServiceEntry × ByteSlice)
    (attr : NetlinkRouteAttr) : Except Err (ServiceEntry × ByteSlice) :=
  let s := acc.1
  let addr := acc.2
  if attr.Typ = IPVS_SVC_ATTR_AF then do
    let v ← native.Uint16 attr.Value.elems
    if v = AF_INET then pure ({ s with AddressFamily := str "IPv4" }, addr)
    else if v = AF_INET6 then pure ({ s with AddressFamily := str "IPv6" }, addr)
    else pure (s, addr)
  else if attr.Typ = IPVS_SVC_ATTR_PROTOCOL then do
    let v ← native.Uint16 attr.Value.elems
    if v = IPPROTO_TCP then pure ({ s with Protocol := str "TCP" }, addr)
    else if v = IPPROTO_UDP then pure ({ s with Protocol := str "UDP" }, addr)
    else if v = IPPROTO_SCTP then pure ({ s with Protocol := str "SCTP" }, addr)
    else throw (.notSupportProtocolValue v)
  else if attr.Typ = IPVS_SVC_ATTR_ADDR then pure (s, attr.Value)
  else if attr.Typ = IPVS_SVC_ATTR_PORT then do
    let v ← ByteOrder.BigEndian.Uint16 attr.Value.elems
    pure ({ s with Port := (v : Int) }, addr)
  else if attr.Typ = IPVS_SVC_ATTR_FWMARK then do
    let v ← native.Uint32 attr.Value.elems
    pure ({ s with FWMark := (v : Int) }, addr)
  else if attr.Typ = IPVS_SVC_ATTR_SCHED_NAME then do
    let v ← BytesToString attr.Value.elems
    pure ({ s with SchedName := v }, addr)
  else if attr.Typ = IPVS_SVC_ATTR_FLAGS then do
    let v ← native.Uint32 attr.Value.elems
    pure ({ s with Flags := (v : Int) }, addr)
  else if attr.Typ = IPVS_SVC_ATTR_TIMEOUT then do
    let v ← native.Uint32 attr.Value.elems
    pure ({ s with Timeout := (v : Int) }, addr)
  else if attr.Typ = IPVS_SVC_ATTR_NETMASK then do
    let v ← native.Uint32 attr.Value.elems
    pure ({ s with Netmask := (v : Int) }, addr)
  else if attr.Typ = IPVS_SVC_ATTR_STATS then do
    let stats ← assembleStats native attr.Value
    pure ({ s with Stats := stats }, addr)
  else pure (s, addr)

/-- Go `assembleServiceInterface`: the loop over the records, then the address
text from the first 4 or 16 bytes of `addr` according to the family. -/
def assembleServiceInterface (native : ByteOrder) (attrs : List NetlinkRouteAttr) :
    Except Err ServiceEntry := do
  let (s, addr) ← attrs.foldlM (serviceStep native) ({}, ByteSlice.nil)
  if s.AddressFamily = str "IPv4" then do
    let a ← addr.sliceTo 4
    pure { s with Address := IPString a.elems }
  else if s.AddressFamily = str "IPv6" then do
    let a ← addr.sliceTo 16
    pure { s with Address := IPString a.elems }
  else throw (.invalidIPAddressBytes addr.elems)

/-- One round of the loop of Go `assembleDestinationInterface`. -/
def destinationStep (native : ByteOrder) (acc : DestinationEntry × ByteSlice)
    (attr : NetlinkRouteAttr) : Except Err (DestinationEntry × ByteSlice) :=
  let d := acc.1
  let addr := acc.2
  if attr.Typ = IPVS_DEST_ATTR_PORT then do
    let v ← ByteOrder.BigEndian.Uint16 attr.Value.elems
    pure ({ d with Port := (v : Int) }, addr)
  else if attr.Typ = IPVS_DEST_ATTR_FWD_METHOD then do
    let v ← native.Uint32 attr.Value.elems
    if v = IP_VS_CONN_F_MASQ then pure ({ d with Method := str "NAT" }, addr)
    else if v = IP_VS_CONN_F_DROUTE then pure ({ d with Method := str "DR" }, addr)
    else if v = IP_VS_CONN_F_TUNNEL then pure ({ d with Method := str "TUN" }, addr)
    else throw (.notSupportMethod (str ""))
  else if attr.Typ = IPVS_DEST_ATTR_WEIGHT then do
    let v ← native.Uint16 attr.Value.elems
    pure ({ d with Weight := (v : Int) }, addr)
  else if attr.Typ = IPVS_DEST_ATTR_U_THRESH then do
    let v ← native.Uint32 attr.Value.elems
    pure ({ d with UpperThreshold := (v : Int) }, addr)
  else if attr.Typ = IPVS_DEST_ATTR_L_THRESH then do
    let v ← native.Uint32 attr.Value.elems
    pure ({ d with LowerThreshold := (v : Int) }, addr)
  else if attr.Typ = IPVS_DEST_ATTR_ACTIVE_CONNS then do
    let v ← native.Uint32 attr.Value.elems
    pure ({ d with ActiveConnections := v }, addr)
  else if attr.Typ = IPVS_DEST_ATTR_INACT_CONNS then do
    let v ← native.Uint32 attr.Value.elems
    pure ({ d with InActiveConnections := v }, addr)
  else if attr.Typ = IPVS_DEST_ATTR_PERSIST_CONNS then do
    let v ← native.Uint32 attr.Value.elems
    pure ({ d with PersistConnections := v }, addr)
  else if attr.Typ = IPVS_DEST_ATTR_ADDR_FAMILY then do
    let v ← native.Uint16 attr.Value.elems
    if v = AF_INET then pure ({ d with AddressFamily := str "IPv4" }, addr)
    else if v = AF_INET6 then pure ({ d with AddressFamily := str "IPv6" }, addr)
    else pure (d, addr)
  else if attr.Typ = IPVS_DEST_ATTR_ADDR then pure (d, attr.Value)
  else if attr.Typ = IPVS_SVC_ATTR_STATS then do
    let stats ← assembleStats native attr.Value
    pure ({ d with Stats := stats }, addr)
  else pure (d, addr)

/-- Go `assembleDestinationInterface`: the loop over the records, then the
address text from the first 16 bytes of `addr` for family `"IPv6"` and from the
first 4 bytes otherwise. -/
def assembleDestinationInterface (native : ByteOrder) (attrs : List NetlinkRouteAttr) :
    Except Err DestinationEntry := do
  let (d, addr) ← attrs.foldlM (destinationStep native) ({}, ByteSlice.nil)
  if d.AddressFamily = str "IPv6" then do
    let a ← addr.sliceTo 16
    pure { d with Address := IPString a.elems }
  else do
    let a ← addr.sliceTo 4
    pure { d with Address := IPString a.elems }

/-- The child leaves of a serialized node as decoded records: the record of a
leaf has its type and its data; `spare i` is the spare capacity of the backing
array of the `i`-th leaf, which the node does not fix. -/
def childRecords (spare : Nat → List Nat) (node : RtAttr) : List NetlinkRouteAttr :=
  (node.children.enum).map (fun p => ⟨p.2.Typ, ⟨p.2.Data, spare p.1⟩⟩)

/-! ## Requests and the transport (`handler.go`) -/

/-- Go `nl.NetlinkRequestData`, the items of a request: the generic netlink
header `nl.Genlmsg`, an attribute node, or a nil interface value. -/
inductive NetlinkRequestData where
  | genlmsg (Command Version : Nat)
  | rtattr (a : RtAttr)
  | nil
  deriving DecidableEq, Repr

/-- Go `nl.NetlinkRequest`: message type (the family id), flags and data items;
sequence number and pid, set by the library, are left out. -/
structure NetlinkRequest where
  Typ : Nat
  Flags : Nat
  Data : List NetlinkRequestData
  deriving DecidableEq, Repr

/-- Go `syscall.NLM_F_REQUEST`. -/
abbrev NLM_F_REQUEST : Nat := 1

/-- Go `nl.NewNetlinkRequest(proto, flags)`. -/
def NewNetlinkRequest (proto : Int) (flags : Nat) : NetlinkRequest :=
  ⟨uint16 proto, NLM_F_REQUEST ||| flags, []⟩

/-- Go `req.AddData(data)`. -/
def NetlinkRequest.AddData (req : NetlinkRequest) (data : NetlinkRequestData) :
    NetlinkRequest :=
  { req with Data := req.Data ++ [data] }

/-- The transport collaborator: `req.Execute(syscall.NETLINK_GENERIC, 0)` maps a
request and the state of the world to the reply messages, or an error, and the
next state. -/
structure Transport (σ : Type) where
  Execute : NetlinkRequest → σ → Except Err (List ByteSlice) × σ

/-- Go `IPVSHandler`. -/
structure IPVSHandler where
  familyID : Int
  deriving DecidableEq, Repr

/-- Go `IPVSHandler.sendRequest`; `si` and `di` are pointers, `none` for `nil`. -/
def IPVSHandler.sendRequest {σ : Type} (t : Transport σ) (native : ByteOrder)
    (h : IPVSHandler) (cmd : Nat) (si : Option ServiceEntry) (di : Option DestinationEntry)
    (w : σ) : Except Err (List ByteSlice) × σ :=
  let req := NewNetlinkRequest h.familyID NLM_F_ACK
  let req := req.AddData (.genlmsg cmd 1)
  match (match si with
    | some si => (si.Serialize native).map NetlinkRequestData.rtattr
    | none => .ok NetlinkRequestData.nil) with
  | .error err => (.error err, w)
  | .ok serviceAttr =>
    match (match di with
      | some di => (di.Serialize native).map NetlinkRequestData.rtattr
      | none => .ok NetlinkRequestData.nil) with
    | .error err => (.error err, w)
    | .ok destinationAttr =>
      let req :=
        if cmd = IPVS_CMD_FLUSH then req
        else if cmd = IPVS_CMD_GET_SERVICE then { req with Flags := req.Flags ||| NLM_F_DUMP }
        else if cmd = IPVS_CMD_GET_DEST then
          ({ req with Flags := req.Flags ||| NLM_F_DUMP }).AddData serviceAttr
        else if cmd = IPVS_CMD_NEW_SERVICE then req.AddData serviceAttr
        else if cmd = IPVS_CMD_SET_SERVICE then req.AddData serviceAttr
        else if cmd = IPVS_CMD_DEL_SERVICE then req.AddData serviceAttr
        else if cmd = IPVS_CMD_NEW_DEST then
          (req.AddData serviceAttr).AddData destinationAttr
        else if cmd = IPVS_CMD_SET_DEST then
          (req.AddData serviceAttr).AddData destinationAttr
        else if cmd = IPVS_CMD_DEL_DEST then
          (req.AddData serviceAttr).AddData destinationAttr
        else req
      t.Execute req w

/-- Go `IPVSHandler.parseIPVSServiceMessage`. -/
def parseIPVSServiceMessage (native : ByteOrder) (attrs : List (List NetlinkRouteAttr)) :
    Except Err (List ServiceEntry) :=
  attrs.foldlM (fun services ipvsAttrs => do
    let s ← assembleServiceInterface native ipvsAttrs
    pure (services ++ [s])) []

/-- Go `IPVSHandler.parseIPVSDestinationMessage`. -/
def parseIPVSDestinationMessage (native : ByteOrder) (attrs : List (List NetlinkRouteAttr)) :
    Except Err (List DestinationEntry) :=
  attrs.foldlM (fun destinations ipvsAttrs => do
    let d ← assembleDestinationInterface native ipvsAttrs
    pure (destinations ++ [d])) []

/-- Go `IPVSHandler.parseGenlHeaders`: per message, the records after the
generic netlink header, then the records nested in the first of them. -/
def parseGenlHeaders (native : ByteOrder) (msgs : List ByteSlice) :
    Except Err (List (List NetlinkRouteAttr)) :=
  msgs.foldlM (fun ipvsAttrsList msg => do
    let body ← msg.sliceFrom SizeofGenlmsg
    let NetLinkAttrs ← ParseRouteAttr native body
    match NetLinkAttrs with
    | [] => throw .invalidNetlinkMessage
    | first :: _ => do
      let ipvsAttrs ← ParseRouteAttr native first.Value
      pure (ipvsAttrsList ++ [ipvsAttrs])) []

/-- Go `IPVSHandler.GetService`. -/
def IPVSHandler.GetService {σ : Type} (t : Transport σ) (native : ByteOrder)
    (h : IPVSHandler) (vip : GoString) (port : Int) (protocol : GoString) (w : σ) :
    Except Err ServiceEntry × σ :=
  let cmd := IPVS_CMD_GET_SERVICE
  let si : ServiceEntry := { Address := vip, Protocol := protocol, Port := port }
  match h.sendRequest t native cmd (some si) none w with
  | (.error err, w1) => (.error err, w1)
  | (.ok msgs, w1) =>
    match parseGenlHeaders native msgs with
    | .error err => (.error err, w1)
    | .ok ipvsAttrs =>
      match parseIPVSServiceMessage native ipvsAttrs with
      | .error err => (.error err, w1)
      | .ok services =>
        if services.length < 1 then (.error .notFoundEntry, w1)
        else if services.length > 1 then (.error .foundDuplicateEntry, w1)
        else
          match services with
          | s :: _ => (.ok s, w1)
          | [] => (.error .panic, w1)

/-- Go `IPVSHandler.GetServices`. The error of `parseIPVSServiceMessage` is
dropped: the function returns `services, nil`, and `services` is nil when the
parse failed. A panic is not an error value and is not dropped. -/
def IPVSHandler.GetServices {σ : Type} (t : Transport σ) (native : ByteOrder)
    (h : IPVSHandler) (w : σ) : Except Err (List ServiceEntry) × σ :=
  let cmd := IPVS_CMD_GET_SERVICE
  match h.sendRequest t native cmd none none w with
  | (.error err, w1) => (.error err, w1)
  | (.ok msgs, w1) =>
    match parseGenlHeaders native msgs with
    | .error err => (.error err, w1)
    | .ok ipvsAttrs =>
      match parseIPVSServiceMessage native ipvsAttrs with
      | .error .panic => (.error .panic, w1)
      | .error _ => (.ok [], w1)
      | .ok services => (.ok services, w1)

/-- Go `IPVSHandler.GetDestination`. -/
def IPVSHandler.GetDestination {σ : Type} (t : Transport σ) (native : ByteOrder)
    (h : IPVSHandler) (si : Option ServiceEntry) (rip : GoString) (rport : Int) (w : σ) :
    Except Err DestinationEntry × σ :=
  let cmd := IPVS_CMD_GET_DEST
  let di : DestinationEntry := { Address := rip, Port := rport }
  match h.sendRequest t native cmd si (some di) w with
  | (.error err, w1) => (.error err, w1)
  | (.ok msgs, w1) =>
    match parseGenlHeaders native msgs with
    | .error err => (.error err, w1)
    | .ok ipvsAttrs =>
      match parseIPVSDestinationMessage native ipvsAttrs with
      | .error err => (.error err, w1)
      | .ok destinations =>
        if destinations.length < 1 then (.error .notFoundDestination, w1)
        else if destinations.length > 1 then (.error .foundDuplicationDestination, w1)
        else
          match destinations with
          | d :: _ => (.ok d, w1)
          | [] => (.error .panic, w1)

/-- Go `IPVSHandler.GetDestinations`. -/
def IPVSHandler.GetDestinations {σ : Type} (t : Transport σ) (native : ByteOrder)
    (h : IPVSHandler) (si : Option ServiceEntry) (w : σ) :
    Except Err (List DestinationEntry) × σ :=
  let cmd := IPVS_CMD_GET_DEST
  match h.sendRequest t native cmd si none w with
  | (.error err, w1) => (.error err, w1)
  | (.ok msgs, w1) =>
    match parseGenlHeaders native msgs with
    | .error err => (.error err, w1)
    | .ok ipvsAttrs =>
      match parseIPVSDestinationMessage native ipvsAttrs with
      | .error err => (.error err, w1)
      | .ok destinations => (.ok destinations, w1)

/-! ## Vocabulary of the statements -/

/-- The data of the leaves of type `typ` of a node, in order. -/
def leavesOf (node : RtAttr) (typ : Nat) : List (List Nat) :=
  (node.children.filter (fun c => c.Typ = typ)).map (fun c => c.Data)

/-- The protocol spellings `ServiceEntry.Serialize` accepts. -/
def acceptedProtocols : List GoString :=
  [str "TCP", str "tcp", str "Tcp", str "UDP", str "udp", str "Udp",
    str "SCTP", str "sctp", str "Sctp"]

/-- The scheduler names `ServiceEntry.Serialize` accepts. -/
def acceptedSchedulers : List GoString :=
  [str "", str "rr", str "wrr", str "lc", str "wlc", str "lblc",
    str "able", str "lblcr", str "dh", str "sh", str "sed", str "nq"]

/-- The protocol number `ServiceEntry.Serialize` writes for an accepted spelling. -/
def protocolNumber (p : GoString) : Nat :=
  if p = str "TCP" ∨ p = str "tcp" ∨ p = str "Tcp" then IPPROTO_TCP
  else if p = str "UDP" ∨ p = str "udp" ∨ p = str "Udp" then IPPROTO_UDP
  else IPPROTO_SCTP

/-- The name `assembleServiceInterface` gives to a protocol number. -/
def protocolName (v : Nat) : GoString :=
  if v = IPPROTO_TCP then str "TCP" else if v = IPPROTO_UDP then str "UDP" else str "SCTP"

/-- The bytes of the address leaf: the 4-byte form when there is one, the 16
bytes otherwise. -/
def addressBytes (ip : List Nat) : List Nat :=
  match To4 ip with
  | some ip4 => ip4
  | none => ip

/-- The leaves of a serialized service, in the order `ServiceEntry.Serialize`
adds them, for the parsed address `ip`. -/
def serviceLeaves (native : ByteOrder) (s : ServiceEntry) (ip : List Nat) : List RtAttrChild :=
  [⟨IPVS_SVC_ATTR_AF, Uint16Attr native (if To4 ip = none then AF_INET6 else AF_INET)⟩]
    ++ (if s.FWMark = 0 then
        [⟨IPVS_SVC_ATTR_PORT, ByteOrder.BigEndian.PutUint16 (uint16 s.Port)⟩,
          ⟨IPVS_SVC_ATTR_PROTOCOL, Uint16Attr native (protocolNumber s.Protocol)⟩,
          ⟨IPVS_SVC_ATTR_ADDR, addressBytes ip⟩]
      else [⟨IPVS_SVC_ATTR_FWMARK, Uint32Attr native (uint32 s.FWMark)⟩])
    ++ [⟨IPVS_SVC_ATTR_SCHED_NAME, ZeroTerminated s.SchedName⟩]
    ++ (if s.PEName ≠ str "" then [⟨IPVS_SVC_ATTR_PE_NAME, ZeroTerminated s.PEName⟩] else [])
    ++ [⟨IPVS_SVC_ATTR_FLAGS, ipvsFlags.Serialize native (uint32 s.Flags) 4294967295⟩,
      ⟨IPVS_SVC_ATTR_TIMEOUT, Uint32Attr native (uint32 s.Timeout)⟩,
      ⟨IPVS_SVC_ATTR_NETMASK, Uint32Attr native (uint32 s.Netmask)⟩]

/-- The forwarding-method number `DestinationEntry.Serialize` maps a name to. -/
def methodNumber (m : GoString) : Nat :=
  if m = str "NAT" then IP_VS_CONN_F_MASQ
  else if m = str "DR" then IP_VS_CONN_F_DROUTE
  else IP_VS_CONN_F_TUNNEL

/-- The leaves of a serialized destination, in the order
`DestinationEntry.Serialize` adds them, for the parsed address `ip`. -/
def destinationLeaves (native : ByteOrder) (d : DestinationEntry) (ip : List Nat) :
    List RtAttrChild :=
  [⟨IPVS_DEST_ATTR_ADDR, addressBytes ip⟩,
    ⟨IPVS_DEST_ATTR_PORT, ByteOrder.BigEndian.PutUint16 (uint16 d.Port)⟩,
    ⟨IPVS_DEST_ATTR_FWD_METHOD, Uint32Attr native (methodNumber d.Method)⟩,
    ⟨IPVS_DEST_ATTR_WEIGHT, Uint32Attr native (uint32 d.Weight)⟩,
    ⟨IPVS_DEST_ATTR_U_THRESH, Uint32Attr native (uint32 d.UpperThreshold)⟩,
    ⟨IPVS_DEST_ATTR_L_THRESH, Uint32Attr native (uint32 d.LowerThreshold)⟩]

/-- The dotted-decimal text of the fields of `f` from index `pos` on. -/
def dottedFrom (f : List Nat) (pos : Nat) : List Nat :=
  if pos ≥ 3 then decimalByte (f.getD 3 0)
  else if pos = 2 then decimalByte (f.getD 2 0) ++ 46 :: decimalByte (f.getD 3 0)
  else if pos = 1 then
    decimalByte (f.getD 1 0) ++ 46 :: (decimalByte (f.getD 2 0) ++ 46 :: decimalByte (f.getD 3 0))
  else
    decimalByte (f.getD 0 0) ++ 46 :: (decimalByte (f.getD 1 0) ++ 46
      :: (decimalByte (f.getD 2 0) ++ 46 :: decimalByte (f.getD 3 0)))

/-- The digits read so far for the current octet. -/
def octetText (val digLen : Nat) : List Nat := if digLen = 0 then [] else decimalByte val

/-! ## Entities, messages and transports of the examples -/

/-- A service with the lower-case protocol spelling `tcp`. -/
def lowerCaseProtocolService : ServiceEntry :=
  { Address := str "10.0.0.1", Protocol := str "tcp" }

/-- A service with an unknown protocol and an address that does not parse. -/
def unknownProtocolBadAddressService : ServiceEntry :=
  { Address := str "example", Protocol := str "ICMP" }

/-- A service with an unknown protocol and a valid address. -/
def unknownProtocolService : ServiceEntry :=
  { Address := str "10.0.0.1", Protocol := str "ICMP" }

/-- A destination with method `DR` and a valid address. -/
def directRouteDestination : DestinationEntry :=
  { Address := str "127.2.1.1", Port := 8888, Weight := 100, Method := str "DR" }

/-- A service identified by a firewall mark. -/
def firewallMarkService : ServiceEntry :=
  { Address := str "10.0.0.1", Protocol := str "TCP", Port := 80, FWMark := 7,
    SchedName := str "wrr", PEName := str "sip" }

/-- The node `Serialize` returns for `firewallMarkService` on a little-endian host. -/
def firewallMarkNode : RtAttr :=
  ⟨IPVS_CMD_ATTR_SERVICE, [],
    [⟨IPVS_SVC_ATTR_AF, [2, 0]⟩, ⟨IPVS_SVC_ATTR_FWMARK, [7, 0, 0, 0]⟩,
      ⟨IPVS_SVC_ATTR_SCHED_NAME, [119, 114, 114, 0]⟩, ⟨IPVS_SVC_ATTR_PE_NAME, [115, 105, 112, 0]⟩,
      ⟨IPVS_SVC_ATTR_FLAGS, [0, 0, 0, 0, 255, 255, 255, 255]⟩,
      ⟨IPVS_SVC_ATTR_TIMEOUT, [0, 0, 0, 0]⟩, ⟨IPVS_SVC_ATTR_NETMASK, [0, 0, 0, 0]⟩]⟩

/-- A service whose address is an IPv4-mapped IPv6 literal. -/
def mappedAddressService : ServiceEntry :=
  { Address := str "::ffff:1.2.3.4", Protocol := str "TCP" }

/-- A service with the IPv6 address `2001:db8::1`. -/
def ipv6Service : ServiceEntry :=
  { Address := str "2001:db8::1", Protocol := str "UDP", Port := 53, SchedName := str "rr" }

/-- The node `Serialize` returns for `ipv6Service` on a little-endian host. -/
def ipv6ServiceNode : RtAttr :=
  ⟨IPVS_CMD_ATTR_SERVICE, [],
    [⟨IPVS_SVC_ATTR_AF, [10, 0]⟩, ⟨IPVS_SVC_ATTR_PORT, [0, 53]⟩,
      ⟨IPVS_SVC_ATTR_PROTOCOL, [17, 0]⟩,
      ⟨IPVS_SVC_ATTR_ADDR, [32, 1, 13, 184, 0, 0, 0, 0, 0, 0, 0, 0, 0, 0, 0, 1]⟩,
      ⟨IPVS_SVC_ATTR_SCHED_NAME, [114, 114, 0]⟩,
      ⟨IPVS_SVC_ATTR_FLAGS, [0, 0, 0, 0, 255, 255, 255, 255]⟩,
      ⟨IPVS_SVC_ATTR_TIMEOUT, [0, 0, 0, 0]⟩, ⟨IPVS_SVC_ATTR_NETMASK, [0, 0, 0, 0]⟩]⟩

/-- The node `Serialize` returns for `directRouteDestination` on a little-endian host. -/
def directRouteNode : RtAttr :=
  ⟨IPVS_CMD_ATTR_DEST, [],
    [⟨IPVS_DEST_ATTR_ADDR, [127, 2, 1, 1]⟩, ⟨IPVS_DEST_ATTR_PORT, [34, 184]⟩,
      ⟨IPVS_DEST_ATTR_FWD_METHOD, [3, 0, 0, 0]⟩, ⟨IPVS_DEST_ATTR_WEIGHT, [100, 0, 0, 0]⟩,
      ⟨IPVS_DEST_ATTR_U_THRESH, [0, 0, 0, 0]⟩, ⟨IPVS_DEST_ATTR_L_THRESH, [0, 0, 0, 0]⟩]⟩

/-- A service with FWMark = 0 and a persistence-engine name. -/
def persistenceEngineService : ServiceEntry :=
  { Address := str "10.0.0.1", Protocol := str "TCP", Port := 80, SchedName := str "wrr",
    PEName := str "sip" }

/-- The service of the package test: `127.1.1.1:8888`, `TCP`, scheduler `wlc`. -/
def testService : ServiceEntry :=
  { Address := str "127.1.1.1", Protocol := str "TCP", Port := 8888, SchedName := str "wlc" }

/-- The node `Serialize` returns for `testService` on a little-endian host. -/
def testServiceNode : RtAttr :=
  ⟨IPVS_CMD_ATTR_SERVICE, [],
    [⟨IPVS_SVC_ATTR_AF, [2, 0]⟩, ⟨IPVS_SVC_ATTR_PORT, [34, 184]⟩,
      ⟨IPVS_SVC_ATTR_PROTOCOL, [6, 0]⟩, ⟨IPVS_SVC_ATTR_ADDR, [127, 1, 1, 1]⟩,
      ⟨IPVS_SVC_ATTR_SCHED_NAME, [119, 108, 99, 0]⟩,
      ⟨IPVS_SVC_ATTR_FLAGS, [0, 0, 0, 0, 255, 255, 255, 255]⟩,
      ⟨IPVS_SVC_ATTR_TIMEOUT, [0, 0, 0, 0]⟩, ⟨IPVS_SVC_ATTR_NETMASK, [0, 0, 0, 0]⟩]⟩

/-- The leaves of the node a serializer returned, decoded by `decode`, with no
spare capacity behind the leaves; the error of the serializer otherwise. -/
def roundTrip {α : Type} (serialized : Except Err RtAttr)
    (decode : List NetlinkRouteAttr → Except Err α) : Except Err α :=
  match serialized with
  | .ok node => decode (childRecords (fun _ => []) node)
  | .error err => .error err

/-- A destination whose address is an IPv4-mapped IPv6 literal. -/
def mappedAddressDestination : DestinationEntry :=
  { Address := str "::ffff:1.2.3.4", Port := 80, Weight := 1, Method := str "TUN" }

/-- A destination with the IPv6 address `2001:db8::1`. -/
def ipv6Destination : DestinationEntry :=
  { Address := str "2001:db8::1", Port := 80, Weight := 100, Method := str "NAT" }

/-- The request `GetService` and `GetServices` send: the command header alone,
with the dump flag; it carries no attribute of the key. -/
def getServiceRequest (h : IPVSHandler) : NetlinkRequest :=
  { Typ := uint16 h.familyID, Flags := NLM_F_REQUEST ||| NLM_F_ACK ||| NLM_F_DUMP,
    Data := [.genlmsg IPVS_CMD_GET_SERVICE 1] }

/-- A reply message (little-endian host) carrying the service `10.0.0.2:81`,
`UDP`, scheduler `rr`: the generic netlink header, then one SERVICE record
nesting the family, protocol, address, port and scheduler leaves. -/
def otherServiceMessage : ByteSlice :=
  ByteSlice.ofList
    ([1, 1, 0, 0] ++ [44, 0, 1, 0]
      ++ [6, 0, 1, 0, 2, 0, 0, 0] ++ [6, 0, 2, 0, 17, 0, 0, 0]
      ++ [8, 0, 3, 0, 10, 0, 0, 2] ++ [6, 0, 4, 0, 0, 81, 0, 0]
      ++ [7, 0, 6, 0, 114, 114, 0, 0])

/-- The service `otherServiceMessage` carries. -/
def otherService : ServiceEntry :=
  { Address := str "10.0.0.2", Protocol := str "UDP", Port := 81, SchedName := str "rr",
    AddressFamily := str "IPv4" }

/-- A transport whose reply to every request is the one message
`otherServiceMessage`: a kernel with the single service `10.0.0.2:81`. -/
def oneServiceTransport : Transport Unit :=
  { Execute := fun _ w => (.ok [otherServiceMessage], w) }

/-- A reply message (little-endian host) carrying the destination
`127.2.1.1:8888`, method `DR`, weight 100. -/
def oneDestinationMessage : ByteSlice :=
  ByteSlice.ofList
    ([5, 1, 0, 0] ++ [36, 0, 2, 0]
      ++ [8, 0, 1, 0, 127, 2, 1, 1] ++ [6, 0, 2, 0, 34, 184, 0, 0]
      ++ [8, 0, 3, 0, 3, 0, 0, 0] ++ [8, 0, 4, 0, 100, 0, 0, 0])

/-- A transport that counts the requests it receives and replies to each with
the one message `oneDestinationMessage`. -/
def oneDestinationTransport : Transport Nat :=
  { Execute := fun _ w => (.ok [oneDestinationMessage], w + 1) }

/-! ## Wire form of a node (`nl.RtAttr.Serialize`) -/

/-- Go `RtAttr.Len` of a leaf: header and data. -/
def RtAttrChild.Len (c : RtAttrChild) : Nat := SizeofRtAttr + c.Data.length

/-- The four header bytes `RtAttr.Serialize` writes: the length as a host-order
`uint16` (left zero when `uint16(length)` is 0), then the type. -/
def rtAttrHeader (native : ByteOrder) (length typ : Nat) : List Nat :=
  (if length % 65536 ≠ 0 then native.PutUint16 (length % 65536) else [0, 0])
    ++ native.PutUint16 typ

/-- Go `RtAttr.Serialize` of a leaf: a buffer of `rtaAlignOf(length)` bytes
holding the header, the data and zero padding. -/
def RtAttrChild.Serialize (native : ByteOrder) (c : RtAttrChild) : List Nat :=
  rtAttrHeader native c.Len c.Typ ++ c.Data ++ List.replicate (rtaAlignOf c.Len - c.Len) 0

/-- Go `RtAttr.Len` of a node. -/
def RtAttr.Len (a : RtAttr) : Nat :=
  if a.children.length = 0 then SizeofRtAttr + a.Data.length
  else rtaAlignOf ((a.children.map (fun c => rtaAlignOf c.Len)).sum + SizeofRtAttr
    + a.Data.length)

/-- Go `RtAttr.Serialize` of a node: a buffer of `rtaAlignOf(length)` bytes
holding the header, then the data padded to the alignment (when there is
data), then the serialized children one after the other. The nodes of this
package have no data of their own. -/
def RtAttr.Serialize (native : ByteOrder) (a : RtAttr) : List Nat :=
  rtAttrHeader native a.Len a.Typ
    ++ (((if a.Data = [] then []
          else a.Data ++ List.replicate (rtaAlignOf a.Data.length - a.Data.length) 0)
        ++ a.children.flatMap (RtAttrChild.Serialize native)
        ++ List.replicate (rtaAlignOf a.Len) 0).take (rtaAlignOf a.Len - SizeofRtAttr))

/-- The service of the encoding scenario: `TCP`, `10.0.0.1`, port 80, scheduler `wrr`. -/
def scenarioService : ServiceEntry :=
  { Protocol := str "TCP", Address := str "10.0.0.1", Port := 80, SchedName := str "wrr" }

/-- The node `Serialize` returns for `scenarioService` on a little-endian host. -/
def scenarioNode : RtAttr :=
  ⟨IPVS_CMD_ATTR_SERVICE, [],
    [⟨IPVS_SVC_ATTR_AF, [2, 0]⟩, ⟨IPVS_SVC_ATTR_PORT, [0, 80]⟩,
      ⟨IPVS_SVC_ATTR_PROTOCOL, [6, 0]⟩, ⟨IPVS_SVC_ATTR_ADDR, [10, 0, 0, 1]⟩,
      ⟨IPVS_SVC_ATTR_SCHED_NAME, [119, 114, 114, 0]⟩,
      ⟨IPVS_SVC_ATTR_FLAGS, [0, 0, 0, 0, 255, 255, 255, 255]⟩,
      ⟨IPVS_SVC_ATTR_TIMEOUT, [0, 0, 0, 0]⟩, ⟨IPVS_SVC_ATTR_NETMASK, [0, 0, 0, 0]⟩]⟩

/-! ## Requests of the command table -/

/-- The request of command `cmd`: the command header (version 1) followed by
the attribute nodes `attrs`, with the request and acknowledge flags and, when
`dump` is set, the dump flag. -/
def commandRequest (h : IPVSHandler) (cmd : Nat) (dump : Bool) (attrs : List RtAttr) :
    NetlinkRequest :=
  { Typ := uint16 h.familyID,
    Flags := if dump then NLM_F_REQUEST ||| NLM_F_ACK ||| NLM_F_DUMP
      else NLM_F_REQUEST ||| NLM_F_ACK,
    Data := NetlinkRequestData.genlmsg cmd 1 :: attrs.map NetlinkRequestData.rtattr }

/-- The data item `sendRequest` holds for a service or destination argument:
the node the entity serialized to, or the nil value its variable keeps when no
entity is supplied. -/
def requestItem : Option RtAttr → NetlinkRequestData
  | some node => .rtattr node
  | none => .nil

/-- The request of command `cmd` with the data items `items` after the command
header (version 1), with the request and acknowledge flags and, when `dump` is
set, the dump flag. -/
def requestWith (h : IPVSHandler) (cmd : Nat) (dump : Bool) (items : List NetlinkRequestData) :
    NetlinkRequest :=
  { Typ := uint16 h.familyID,
    Flags := if dump then NLM_F_REQUEST ||| NLM_F_ACK ||| NLM_F_DUMP
      else NLM_F_REQUEST ||| NLM_F_ACK,
    Data := NetlinkRequestData.genlmsg cmd 1 :: items }

/-- A service whose scheduler is not in the allow-list. -/
def unknownSchedulerService : ServiceEntry :=
  { Address := str "10.0.0.1", Protocol := str "TCP", Port := 80, SchedName := str "fifo" }

/-- A destination without forwarding method. -/
def noMethodDestination : DestinationEntry :=
  { Address := str "127.2.1.1", Port := 8888 }

/-- A reply message (little-endian host) carrying a service record whose
protocol leaf holds 1 (ICMP), which `assembleServiceInterface` rejects. -/
def unsupportedProtocolMessage : ByteSlice :=
  ByteSlice.ofList
    ([1, 1, 0, 0] ++ [28, 0, 1, 0]
      ++ [6, 0, 1, 0, 2, 0, 0, 0] ++ [6, 0, 2, 0, 1, 0, 0, 0]
      ++ [8, 0, 3, 0, 10, 0, 0, 2])

/-- A transport whose reply to every request is `otherServiceMessage` followed
by `unsupportedProtocolMessage`. -/
def unsupportedProtocolTransport : Transport Unit :=
  { Execute := fun _ w => (.ok [otherServiceMessage, unsupportedProtocolMessage], w) }

/-! ## Vocabulary of the decoders -/

/-- The record types `assembleServiceInterface` has a case for. -/
def serviceTags : List Nat :=
  [IPVS_SVC_ATTR_AF, IPVS_SVC_ATTR_PROTOCOL, IPVS_SVC_ATTR_ADDR, IPVS_SVC_ATTR_PORT,
    IPVS_SVC_ATTR_FWMARK, IPVS_SVC_ATTR_SCHED_NAME, IPVS_SVC_ATTR_FLAGS,
    IPVS_SVC_ATTR_TIMEOUT, IPVS_SVC_ATTR_NETMASK, IPVS_SVC_ATTR_STATS]

/-- The record types `assembleDestinationInterface` has a case for. -/
def destinationTags : List Nat :=
  [IPVS_DEST_ATTR_PORT, IPVS_DEST_ATTR_FWD_METHOD, IPVS_DEST_ATTR_WEIGHT,
    IPVS_DEST_ATTR_U_THRESH, IPVS_DEST_ATTR_L_THRESH, IPVS_DEST_ATTR_ACTIVE_CONNS,
    IPVS_DEST_ATTR_INACT_CONNS, IPVS_DEST_ATTR_PERSIST_CONNS, IPVS_DEST_ATTR_ADDR_FAMILY,
    IPVS_DEST_ATTR_ADDR, IPVS_SVC_ATTR_STATS]

/-- The top-level records of a reply message: the records after the generic
netlink header. -/
def topLevelRecords (native : ByteOrder) (msg : ByteSlice) :
    Except Err (List NetlinkRouteAttr) :=
  (msg.sliceFrom SizeofGenlmsg).bind (ParseRouteAttr native)

/-- The leaf records of a reply message: the records nested in its first
top-level record; a message without top-level record is an error. -/
def nestedRecords (native : ByteOrder) (msg : ByteSlice) :
    Except Err (List NetlinkRouteAttr) :=
  (topLevelRecords native msg).bind (fun NetLinkAttrs =>
    match NetLinkAttrs with
    | [] => .error .invalidNetlinkMessage
    | first :: _ => ParseRouteAttr native first.Value)

/-- A record with a type neither decoder has a case for. -/
def unknownRecord : NetlinkRouteAttr := ⟨IPVS_SVC_ATTR_STATS64, ⟨[1, 2, 3], []⟩⟩

/-- The leaf records of `otherServiceMessage`. -/
def otherServiceRecords : List NetlinkRouteAttr :=
  [⟨IPVS_SVC_ATTR_AF, ⟨[2, 0], []⟩⟩, ⟨IPVS_SVC_ATTR_PROTOCOL, ⟨[17, 0], []⟩⟩,
    ⟨IPVS_SVC_ATTR_ADDR, ⟨[10, 0, 0, 2], []⟩⟩, ⟨IPVS_SVC_ATTR_PORT, ⟨[0, 81], []⟩⟩,
    ⟨IPVS_SVC_ATTR_SCHED_NAME, ⟨[114, 114, 0], []⟩⟩]

/-- The leaf records of `oneDestinationMessage`. -/
def oneDestinationRecords : List NetlinkRouteAttr :=
  [⟨IPVS_DEST_ATTR_ADDR, ⟨[127, 2, 1, 1], []⟩⟩, ⟨IPVS_DEST_ATTR_PORT, ⟨[34, 184], []⟩⟩,
    ⟨IPVS_DEST_ATTR_FWD_METHOD, ⟨[3, 0, 0, 0], []⟩⟩,
    ⟨IPVS_DEST_ATTR_WEIGHT, ⟨[100, 0, 0, 0], []⟩⟩]

/-- A reply message (little-endian host) carrying the service of the package
test, `127.1.1.1:8888`, `TCP`, scheduler `wlc`. -/
def testServiceMessage : ByteSlice :=
  ByteSlice.ofList
    ([1, 1, 0, 0] ++ [44, 0, 1, 0]
      ++ [6, 0, 1, 0, 2, 0, 0, 0] ++ [6, 0, 2, 0, 6, 0, 0, 0]
      ++ [8, 0, 3, 0, 127, 1, 1, 1] ++ [6, 0, 4, 0, 34, 184, 0, 0]
      ++ [8, 0, 6, 0, 119, 108, 99, 0])

/-- The service `testServiceMessage` decodes to. -/
def decodedTestService : ServiceEntry :=
  { Address := str "127.1.1.1", Protocol := str "TCP", Port := 8888, SchedName := str "wlc",
    AddressFamily := str "IPv4" }

/-- The destination `oneDestinationMessage` decodes to. -/
def decodedDestination : DestinationEntry :=
  { Address := str "127.2.1.1", Port := 8888, Weight := 100, Method := str "DR" }

/-- A reply message (little-endian host) carrying the destination
`127.2.1.2:8888`, method `DR`, weight 200. -/
def secondDestinationMessage : ByteSlice :=
  ByteSlice.ofList
    ([5, 1, 0, 0] ++ [36, 0, 2, 0]
      ++ [8, 0, 1, 0, 127, 2, 1, 2] ++ [6, 0, 2, 0, 34, 184, 0, 0]
      ++ [8, 0, 3, 0, 3, 0, 0, 0] ++ [8, 0, 4, 0, 200, 0, 0, 0])

/-- The destination `secondDestinationMessage` decodes to. -/
def secondDestination : DestinationEntry :=
  { Address := str "127.2.1.2", Port := 8888, Weight := 200, Method := str "DR" }

/-- A reply message made of the generic netlink header alone: it has no
top-level record. -/
def headerOnlyMessage : ByteSlice := ByteSlice.ofList [1, 1, 0, 0]

/-! ## Well-formed records -/

/-- A stats leaf holds at least the width its type is read with: 8 bytes for
the two byte counters, 4 bytes for the other eight counters. -/
abbrev statsLeafOk (a : NetlinkRouteAttr) : Prop :=
  (a.Typ ∈ [IPVS_STATS_ATTR_CONNS, IPVS_STATS_ATTR_INPKTS, IPVS_STATS_ATTR_OUTPKTS,
      IPVS_STATS_ATTR_CPS, IPVS_STATS_ATTR_INPPS, IPVS_STATS_ATTR_OUTPPS,
      IPVS_STATS_ATTR_INBPS, IPVS_STATS_ATTR_OUTBPS] → 4 ≤ a.Value.len)
    ∧ (a.Typ ∈ [IPVS_STATS_ATTR_INBYTES, IPVS_STATS_ATTR_OUTBYTES] → 8 ≤ a.Value.len)

/-- The outcome of parsing a stats blob is acceptable: a list of well-formed
leaves, or an error value. -/
def statsRecordsOk : Except Err (List NetlinkRouteAttr) → Prop
  | .ok leaves => ∀ b ∈ leaves, statsLeafOk b
  | .error e => e ≠ .panic

instance statsRecordsOkDecidable : (r : Except Err (List NetlinkRouteAttr)) →
    Decidable (statsRecordsOk r)
  | .ok leaves => inferInstanceAs (Decidable (∀ b ∈ leaves, statsLeafOk b))
  | .error e => inferInstanceAs (Decidable (e ≠ .panic))

/-- A stats blob `nl.ParseRouteAttr` does not panic on and whose leaves are
well formed. -/
abbrev statsBlobOk (native : ByteOrder) (v : ByteSlice) : Prop :=
  statsRecordsOk (ParseRouteAttr native v)

/-- A service record is well formed for `assembleServiceInterface`: a family,
protocol or port leaf holds at least 2 bytes; a firewall-mark, flags, timeout
or netmask leaf at least 4; a scheduler-name leaf contains a NUL byte; a
stats leaf is a well-formed blob. Other records are not constrained. -/
abbrev serviceLeafOk (native : ByteOrder) (a : NetlinkRouteAttr) : Prop :=
  (a.Typ ∈ [IPVS_SVC_ATTR_AF, IPVS_SVC_ATTR_PROTOCOL, IPVS_SVC_ATTR_PORT] → 2 ≤ a.Value.len)
    ∧ (a.Typ ∈ [IPVS_SVC_ATTR_FWMARK, IPVS_SVC_ATTR_FLAGS, IPVS_SVC_ATTR_TIMEOUT,
        IPVS_SVC_ATTR_NETMASK] → 4 ≤ a.Value.len)
    ∧ (a.Typ = IPVS_SVC_ATTR_SCHED_NAME → 0 ∈ a.Value.elems)
    ∧ (a.Typ = IPVS_SVC_ATTR_STATS → statsBlobOk native a.Value)

/-- A destination record is well formed for `assembleDestinationInterface`: a
port, weight or family leaf holds at least 2 bytes; a forwarding-method,
threshold or connection-count leaf at least 4; a stats leaf is a well-formed
blob. Other records are not constrained. -/
abbrev destinationLeafOk (native : ByteOrder) (a : NetlinkRouteAttr) : Prop :=
  (a.Typ ∈ [IPVS_DEST_ATTR_PORT, IPVS_DEST_ATTR_WEIGHT, IPVS_DEST_ATTR_ADDR_FAMILY] →
      2 ≤ a.Value.len)
    ∧ (a.Typ ∈ [IPVS_DEST_ATTR_FWD_METHOD, IPVS_DEST_ATTR_U_THRESH, IPVS_DEST_ATTR_L_THRESH,
        IPVS_DEST_ATTR_ACTIVE_CONNS, IPVS_DEST_ATTR_INACT_CONNS,
        IPVS_DEST_ATTR_PERSIST_CONNS] → 4 ≤ a.Value.len)
    ∧ (a.Typ = IPVS_SVC_ATTR_STATS → statsBlobOk native a.Value)

/-- Service records with a family leaf (AF_INET) and no address leaf, as for a
service identified by a firewall mark. -/
def firewallMarkRecords : List NetlinkRouteAttr :=
  [⟨IPVS_SVC_ATTR_AF, ⟨[2, 0], []⟩⟩, ⟨IPVS_SVC_ATTR_FWMARK, ⟨[7, 0, 0, 0], []⟩⟩,
    ⟨IPVS_SVC_ATTR_SCHED_NAME, ⟨[119, 114, 114, 0], []⟩⟩]

/-- Service records whose port leaf holds one byte only; there is no family leaf. -/
def shortPortRecords : List NetlinkRouteAttr :=
  [⟨IPVS_SVC_ATTR_PORT, ⟨[0], []⟩⟩]

/-- Service records with family AF_INET6 and a 4-byte address leaf with no
spare capacity. -/
def shortAddressRecords : List NetlinkRouteAttr :=
  [⟨IPVS_SVC_ATTR_AF, ⟨[10, 0], []⟩⟩, ⟨IPVS_SVC_ATTR_ADDR, ⟨[10, 0, 0, 2], []⟩⟩]

/-- Service records with family AF_INET and a 1-byte address leaf followed, in
its backing array, by three more bytes. -/
def spareAddressRecords : List NetlinkRouteAttr :=
  [⟨IPVS_SVC_ATTR_AF, ⟨[2, 0], []⟩⟩, ⟨IPVS_SVC_ATTR_ADDR, ⟨[10], [9, 9, 9]⟩⟩]

/-- Service records without family leaf: protocol, address and port. -/
def noFamilyRecords : List NetlinkRouteAttr :=
  [⟨IPVS_SVC_ATTR_PROTOCOL, ⟨[6, 0], []⟩⟩, ⟨IPVS_SVC_ATTR_ADDR, ⟨[10, 0, 0, 2], []⟩⟩,
    ⟨IPVS_SVC_ATTR_PORT, ⟨[0, 80], []⟩⟩]

/-- Service records without family leaf whose protocol leaf holds one byte
only. -/
def shortProtocolRecords : List NetlinkRouteAttr :=
  [⟨IPVS_SVC_ATTR_PROTOCOL, ⟨[6], []⟩⟩, ⟨IPVS_SVC_ATTR_ADDR, ⟨[10, 0, 0, 2], []⟩⟩,
    ⟨IPVS_SVC_ATTR_PORT, ⟨[0, 80], []⟩⟩]

/-! ## Examples for the weight and for the failure condition -/

/-- A destination whose weight, `65536 + 100`, does not fit 16 bits. -/
def heavyDestination : DestinationEntry :=
  { Address := str "127.2.1.1", Port := 8888, Weight := 65636, Method := str "DR" }

/-- The node `Serialize` returns for `heavyDestination` on a little-endian host. -/
def heavyNode : RtAttr :=
  ⟨IPVS_CMD_ATTR_DEST, [],
    [⟨IPVS_DEST_ATTR_ADDR, [127, 2, 1, 1]⟩, ⟨IPVS_DEST_ATTR_PORT, [34, 184]⟩,
      ⟨IPVS_DEST_ATTR_FWD_METHOD, [3, 0, 0, 0]⟩, ⟨IPVS_DEST_ATTR_WEIGHT, [100, 0, 1, 0]⟩,
      ⟨IPVS_DEST_ATTR_U_THRESH, [0, 0, 0, 0]⟩, ⟨IPVS_DEST_ATTR_L_THRESH, [0, 0, 0, 0]⟩]⟩

/-- A service identified by a firewall mark, with no address and no protocol. -/
def markOnlyService : ServiceEntry :=
  { FWMark := 7, SchedName := str "rr" }

/-- The service `firewallMarkService` with other values in every field that is
neither the address, the protocol nor the scheduler. -/
def otherFieldsService : ServiceEntry :=
  { firewallMarkService with
    Port := 70000, FWMark := -1, Flags := 5, Timeout := 300, Netmask := -1,
    AddressFamily := str "IPv6", PEName := str "sip", Stats := { Connections := 9 } }

/-! ## Records for the order of decoding -/

/-- Two service records of different types that both make the decoder fail:
a protocol leaf with the value 1, and a stats leaf whose blob starts with a
record header of length 2. -/
def twoFailingRecords : List NetlinkRouteAttr :=
  [⟨IPVS_SVC_ATTR_PROTOCOL, ⟨[1, 0], []⟩⟩, ⟨IPVS_SVC_ATTR_STATS, ⟨[2, 0, 1, 0], []⟩⟩]

/-- The records of `twoFailingRecords` in the other order. -/
def twoFailingRecordsSwapped : List NetlinkRouteAttr :=
  [⟨IPVS_SVC_ATTR_STATS, ⟨[2, 0, 1, 0], []⟩⟩, ⟨IPVS_SVC_ATTR_PROTOCOL, ⟨[1, 0], []⟩⟩]

/-- Two destination records of different types that both make the decoder
fail: a forwarding method with the value 5, and a 1-byte port. -/
def twoFailingDestinationRecords : List NetlinkRouteAttr :=
  [⟨IPVS_DEST_ATTR_FWD_METHOD, ⟨[5, 0, 0, 0], []⟩⟩, ⟨IPVS_DEST_ATTR_PORT, ⟨[0], []⟩⟩]

/-- The records of `twoFailingDestinationRecords` in the other order. -/
def twoFailingDestinationRecordsSwapped : List NetlinkRouteAttr :=
  [⟨IPVS_DEST_ATTR_PORT, ⟨[0], []⟩⟩, ⟨IPVS_DEST_ATTR_FWD_METHOD, ⟨[5, 0, 0, 0], []⟩⟩]

/-- The error of the round of the loop of `assembleServiceInterface` on the
record `a`, when that round fails; the round is run on the initial state, and
its error does not depend on the state. -/
def serviceRecordError (native : ByteOrder) (a : NetlinkRouteAttr) : Option Err :=
  match serviceStep native ({}, ByteSlice.nil) a with
  | .error e => some e
  | .ok _ => none

/-- The error of the round of the loop of `assembleDestinationInterface` on the
record `a`, when that round fails. -/
def destinationRecordError (native : ByteOrder) (a : NetlinkRouteAttr) : Option Err :=
  match destinationStep native ({}, ByteSlice.nil) a with
  | .error e => some e
  | .ok _ => none

/-! ## Vocabulary of the stats -/

/-- The leaf types `assembleStats` has a case for. -/
def statsTags : List Nat :=
  [IPVS_STATS_ATTR_CONNS, IPVS_STATS_ATTR_INPKTS, IPVS_STATS_ATTR_OUTPKTS,
    IPVS_STATS_ATTR_INBYTES, IPVS_STATS_ATTR_OUTBYTES, IPVS_STATS_ATTR_CPS,
    IPVS_STATS_ATTR_INPPS, IPVS_STATS_ATTR_OUTPPS, IPVS_STATS_ATTR_INBPS,
    IPVS_STATS_ATTR_OUTBPS]

/-- The last record of type `tag` in a list of records, if there is one. -/
def lastWith (tag : Nat) (leaves : List NetlinkRouteAttr) : Option NetlinkRouteAttr :=
  (leaves.filter (fun a => a.Typ = tag)).getLast?

/-- The value of the stats field of type `tag` in a list of leaves: what `read`
gives on the value of the last leaf of that type, and zero when no leaf has
that type. -/
def statsField (read : List Nat → Except Err Nat) (tag : Nat)
    (leaves : List NetlinkRouteAttr) : Except Err Nat :=
  match lastWith tag leaves with
  | none => .ok 0
  | some a => read a.Value.elems

/-- The records `nl.ParseRouteAttr` reads from the wire form of a list of
leaves: the record of a leaf has its type and its data, and behind its value
lie the padding and the wire form of the leaves that follow. -/
def recordsOf (native : ByteOrder) : List RtAttrChild → List NetlinkRouteAttr
  | [] => []
  | c :: cs =>
    ⟨c.Typ, ⟨c.Data, List.replicate (rtaAlignOf c.Len - c.Len) 0
      ++ cs.flatMap (RtAttrChild.Serialize native)⟩⟩ :: recordsOf native cs

/-! ## A stats blob -/

/-- Four stats leaves (little-endian host): 5 connections, 2^32 + 1 incoming
bytes, a padding leaf, which `assembleStats` has no case for, and 7
connections. -/
def statsLeaves : List RtAttrChild :=
  [⟨IPVS_STATS_ATTR_CONNS, [5, 0, 0, 0]⟩, ⟨IPVS_STATS_ATTR_INBYTES, [1, 0, 0, 0, 1, 0, 0, 0]⟩,
    ⟨IPVS_STATS_ATTR_PAD, [9, 9, 9, 9]⟩, ⟨IPVS_STATS_ATTR_CONNS, [7, 0, 0, 0]⟩]

/-- The blob made of the wire forms of `statsLeaves`. -/
def statsBlob : ByteSlice :=
  ByteSlice.ofList (statsLeaves.flatMap (RtAttrChild.Serialize .LittleEndian))

/-- The stats `statsBlob` decodes to. -/
def decodedStats : Stats := { Connections := 7, BytesIn := 4294967297 }

/-- The records of a destination `127.2.1.1:8888` with the stats `statsBlob`,
followed by its weight. -/
def destinationWithStatsRecords : List NetlinkRouteAttr :=
  [⟨IPVS_DEST_ATTR_ADDR, ⟨[127, 2, 1, 1], []⟩⟩, ⟨IPVS_DEST_ATTR_PORT, ⟨[34, 184], []⟩⟩,
    ⟨IPVS_DEST_ATTR_STATS, statsBlob⟩, ⟨IPVS_DEST_ATTR_WEIGHT, ⟨[100, 0, 0, 0], []⟩⟩]

/-- The destination `destinationWithStatsRecords` decodes to. -/
def decodedDestinationWithStats : DestinationEntry :=
  { Address := str "127.2.1.1", Port := 8888, Weight := 100, Stats := decodedStats }

/-! ## Lemmas on `net.ParseIP` -/

theorem parseIPv4Loop_length : ∀ (s : List Nat) (prev : Option Nat) (val pos digLen : Nat)
    (fields f : List Nat), fields.length = 4 →
    parseIPv4Loop s prev val pos digLen fields = some f → f.length = 4 := by
  intro s
  induction s with
  | nil =>
    intro prev val pos digLen fields f hl h
    simp only [parseIPv4Loop] at h
    split_ifs at h
    cases h
    simp [hl]
  | cons c rest ih =>
    intro prev val pos digLen fields f hl h
    simp only [parseIPv4Loop] at h
    split_ifs at h
    · exact ih _ _ _ _ _ _ hl h
    · exact ih _ _ _ _ _ _ (by simp [hl]) h

theorem parseIPv4Fields_length (s f : List Nat) (h : parseIPv4Fields s = some f) :
    f.length = 4 :=
  parseIPv4Loop_length s none 0 0 0 [0, 0, 0, 0] f rfl h

theorem parseIPv6Loop_length : ∀ (fuel : Nat) (s ip : List Nat) (ellipsis : Option Nat)
    (ip1 : List Nat) (ell1 : Option Nat) (rest : List Nat),
    ip.length % 2 = 0 → ip.length ≤ 16 →
    parseIPv6Loop fuel s ip ellipsis = some (ip1, ell1, rest) →
    ip1.length % 2 = 0 ∧ ip1.length ≤ 16 := by
  intro fuel
  induction fuel with
  | zero =>
    intro s ip ellipsis ip1 ell1 rest h2 h16 h
    simp only [parseIPv6Loop] at h
    cases h
    exact ⟨h2, h16⟩
  | succ fuel ih =>
    intro s ip ellipsis ip1 ell1 rest h2 h16 h
    simp only [parseIPv6Loop] at h
    split at h
    · split at h
      · cases h
      · rename_i off acc rest0 hg
        split at h
        · cases h
        · split at h
          · split at h
            · cases h
            · split at h
              · cases h
              · split at h
                · cases h
                · rename_i fields hf
                  cases h
                  have := parseIPv4Fields_length _ _ hf
                  simp only [List.length_append, this]
                  omega
          · split at h
            · cases h
              simp only [List.length_append, List.length_cons, List.length_nil]
              omega
            · split at h
              · cases h
              · split at h
                · cases h
                · split at h
                  · split at h
                    · cases h
                    · split at h
                      · cases h
                        simp only [List.length_append, List.length_cons, List.length_nil]
                        omega
                      · refine ih _ _ _ _ _ _ ?_ ?_ h <;>
                          simp only [List.length_append, List.length_cons, List.length_nil] <;>
                          omega
                  · refine ih _ _ _ _ _ _ ?_ ?_ h <;>
                      simp only [List.length_append, List.length_cons, List.length_nil] <;>
                      omega
    · cases h
      exact ⟨h2, h16⟩

theorem parseIPv6Groups_length (s : List Nat) (ellipsis : Option Nat) (ip : List Nat)
    (h : parseIPv6Groups s ellipsis = some ip) : ip.length = 16 := by
  unfold parseIPv6Groups at h
  split at h
  · cases h
  · rename_i ip0 ell rest hl
    have hinv := parseIPv6Loop_length _ _ _ _ _ _ _ (by simp) (by simp) hl
    split at h
    · cases h
    · split at h
      · split at h
        · cases h
        · cases h
          simp only [List.length_append, List.length_take, List.length_replicate,
            List.length_drop]
          omega
      · split at h
        · cases h
        · cases h; omega

theorem parseIPv6_length (s ip : List Nat) (h : parseIPv6 s = some ip) : ip.length = 16 := by
  unfold parseIPv6 at h
  split at h
  · cases h
  · split at h
    · split at h
      · cases h; simp
      · exact parseIPv6Groups_length _ _ _ h
    · exact parseIPv6Groups_length _ _ _ h

theorem parseAddrScan_length (all : List Nat) : ∀ (s ip : List Nat),
    parseAddrScan all s = some ip → ip.length = 16 := by
  intro s
  induction s with
  | nil => intro ip h; simp [parseAddrScan] at h
  | cons c rest ih =>
    intro ip h
    simp only [parseAddrScan] at h
    split_ifs at h
    · simp only [Option.map_eq_some'] at h
      obtain ⟨f, hf, rfl⟩ := h
      have := parseIPv4Fields_length _ _ hf
      simp [this]
    · exact parseIPv6_length _ _ h
    · exact ih _ h

theorem ParseIP_length (s : GoString) (ip : List Nat) (h : ParseIP s = some ip) :
    ip.length = 16 :=
  parseAddrScan_length s s ip h

theorem To4_length (ip ip4 : List Nat) (hl : ip.length = 16) (h : To4 ip = some ip4) :
    ip4.length = 4 := by
  unfold To4 at h
  split_ifs at h
  · omega
  · cases h; simp [hl]

theorem parseIPv4Loop_chars : ∀ (s : List Nat) (prev : Option Nat) (val pos digLen : Nat)
    (fields f : List Nat), parseIPv4Loop s prev val pos digLen fields = some f →
    ∀ c ∈ s, (48 ≤ c ∧ c ≤ 57) ∨ c = 46 := by
  intro s
  induction s with
  | nil => intro _ _ _ _ _ _ _ c hc; cases hc
  | cons c rest ih =>
    intro prev val pos digLen fields f h x hx
    simp only [parseIPv4Loop] at h
    rcases List.mem_cons.mp hx with rfl | hx
    · split_ifs at h <;> tauto
    · split_ifs at h
      · exact ih _ _ _ _ _ _ h x hx
      · exact ih _ _ _ _ _ _ h x hx

theorem parseIPv4Loop_dot : ∀ (s : List Nat) (prev : Option Nat) (val pos digLen : Nat)
    (fields f : List Nat), pos < 3 → parseIPv4Loop s prev val pos digLen fields = some f →
    46 ∈ s := by
  intro s
  induction s with
  | nil =>
    intro _ _ _ _ _ _ hpos h
    simp only [parseIPv4Loop] at h
    rw [if_pos hpos] at h
    cases h
  | cons c rest ih =>
    intro prev val pos digLen fields f hpos h
    simp only [parseIPv4Loop] at h
    split_ifs at h with h1 h2 h3 h4
    · exact List.mem_cons_of_mem _ (ih _ _ _ _ _ _ hpos h)
    · subst h4; exact List.mem_cons_self _ _

theorem parseAddrScan_dotted (all : List Nat) : ∀ (s : List Nat),
    (∀ c ∈ s, (48 ≤ c ∧ c ≤ 57) ∨ c = 46) → 46 ∈ s →
    parseAddrScan all s =
      (parseIPv4Fields all).map (fun f => [0, 0, 0, 0, 0, 0, 0, 0, 0, 0, 255, 255] ++ f) := by
  intro s
  induction s with
  | nil => intro _ h; cases h
  | cons c rest ih =>
    intro hall hdot
    simp only [parseAddrScan]
    by_cases hc : c = 46
    · rw [if_pos hc]
    · rw [if_neg hc]
      have hd : 48 ≤ c ∧ c ≤ 57 := by
        rcases hall c (List.mem_cons_self _ _) with h | h
        · exact h
        · exact absurd h hc
      rw [if_neg (by omega), if_neg (by omega)]
      apply ih
      · intro x hx; exact hall x (List.mem_cons_of_mem _ hx)
      · rcases List.mem_cons.mp hdot with h | h
        · exact absurd h.symm hc
        · exact h

theorem ParseIP_dotted (s : GoString) (octets : List Nat)
    (h : parseIPv4Fields s = some octets) :
    ParseIP s = some ([0, 0, 0, 0, 0, 0, 0, 0, 0, 0, 255, 255] ++ octets) := by
  unfold ParseIP
  rw [parseAddrScan_dotted s s (parseIPv4Loop_chars _ _ _ _ _ _ _ h)
    (parseIPv4Loop_dot _ _ _ _ _ _ _ (by decide) h), h]
  rfl

theorem To4_mapped (octets : List Nat) (h : octets.length = 4) :
    To4 ([0, 0, 0, 0, 0, 0, 0, 0, 0, 0, 255, 255] ++ octets) = some octets := by
  match octets, h with
  | [a, b, c, d], _ => simp [To4]

/-! ## The text of a dotted quad -/

theorem dottedFrom_step (f : List Nat) (pos : Nat) (h : pos < 3) :
    dottedFrom f pos = decimalByte (f.getD pos 0) ++ 46 :: dottedFrom f (pos + 1) := by
  have : pos = 0 ∨ pos = 1 ∨ pos = 2 := by omega
  rcases this with rfl | rfl | rfl <;> simp [dottedFrom]

theorem decimalByte_snoc : ∀ val < 26, ∀ d < 10, 1 ≤ val → val * 10 + d ≤ 255 →
    decimalByte (val * 10 + d) = decimalByte val ++ [48 + d] := by
  decide

theorem decimalByte_length_range (v : Nat) :
    ((decimalByte v).length = 1 ↔ v < 10) ∧ ((decimalByte v).length = 2 ↔ 10 ≤ v ∧ v < 100)
      ∧ ((decimalByte v).length = 3 ↔ 100 ≤ v) := by
  unfold decimalByte
  split_ifs <;> simp <;> omega

theorem getD_set_four (fields : List Nat) (hl : fields.length = 4) (pos val i : Nat)
    (hpos : pos ≤ 3) :
    (fields.set pos val).getD i 0 = if i = pos then val else fields.getD i 0 := by
  match fields, hl with
  | [a, b, c, d], _ =>
    have : pos = 0 ∨ pos = 1 ∨ pos = 2 ∨ pos = 3 := by omega
    rcases this with rfl | rfl | rfl | rfl <;>
      rcases i with _ | _ | _ | _ | i <;> simp [List.set, List.getD]

theorem parseIPv4Loop_text : ∀ (s : List Nat) (prev : Option Nat) (val pos digLen : Nat)
    (fields f : List Nat), fields.length = 4 → pos ≤ 3 →
    (digLen = 0 → val = 0 ∧ ((prev = none ∧ pos = 0) ∨ (prev = some 46 ∧ s ≠ []))) →
    (digLen ≠ 0 → prev ≠ none ∧ prev ≠ some 46 ∧ val ≤ 255
      ∧ (decimalByte val).length = digLen) →
    parseIPv4Loop s prev val pos digLen fields = some f →
    octetText val digLen ++ s = dottedFrom f pos
      ∧ (∀ i, i < pos → f.getD i 0 = fields.getD i 0)
      ∧ (∀ i, pos ≤ i → i < 4 → f.getD i 0 ≤ 255) := by
  intro s
  induction s with
  | nil =>
    intro prev val pos digLen fields f hl hpos h0 h1 h
    simp only [parseIPv4Loop] at h
    split_ifs at h with hp
    cases h
    have hp3 : pos = 3 := by omega
    subst hp3
    have hd : digLen ≠ 0 := by
      intro hd
      rcases (h0 hd).2 with ⟨-, h⟩ | ⟨-, h⟩
      · omega
      · exact h rfl
    obtain ⟨-, -, hv, -⟩ := h1 hd
    refine ⟨?_, ?_, ?_⟩
    · have hg := getD_set_four fields hl 3 val 3 (le_refl 3)
      rw [if_pos rfl] at hg
      simp only [octetText, if_neg hd, dottedFrom, ge_iff_le, le_refl, if_true, hg,
        List.append_nil]
    · intro i hi
      rw [getD_set_four fields hl 3 val i (le_refl 3), if_neg (by omega)]
    · intro i hi hi4
      rw [getD_set_four fields hl 3 val i (le_refl 3), if_pos (by omega)]
      exact hv
  | cons c rest ih =>
    intro prev val pos digLen fields f hl hpos h0 h1 h
    simp only [parseIPv4Loop] at h
    split_ifs at h with hdig hlead hbig hdot hchk hp3
    · -- a digit
      have hc : c = 48 + (c - 48) := by omega
      have hinv : (decimalByte (val * 10 + (c - 48))).length = digLen + 1
          ∧ octetText (val * 10 + (c - 48)) (digLen + 1) = octetText val digLen ++ [c] := by
        by_cases hd : digLen = 0
        · obtain ⟨hv, -⟩ := h0 hd
          subst hd hv
          have hlt : c - 48 < 10 := by omega
          have := (decimalByte_length_range (c - 48)).1.2 hlt
          refine ⟨by simpa using this, ?_⟩
          simp only [octetText, zero_mul, zero_add, if_true, List.nil_append]
          rw [if_neg (by omega)]
          unfold decimalByte
          rw [if_neg (by omega), if_neg (by omega)]
          rw [← hc]
        · obtain ⟨-, -, hv, hlen⟩ := h1 hd
          have hr := decimalByte_length_range val
          have hr2 := decimalByte_length_range (val * 10 + (c - 48))
          have hvlen : (decimalByte val).length = 1 ∨ (decimalByte val).length = 2
              ∨ (decimalByte val).length = 3 := by
            unfold decimalByte
            split_ifs <;> simp
          have hv1 : 1 ≤ val := by
            by_contra hv0
            have hv0 : val = 0 := by omega
            apply hlead
            refine ⟨?_, hv0⟩
            rw [← hlen, hv0]
            rfl
          have hv26 : val < 26 := by omega
          have hsn := decimalByte_snoc val hv26 (c - 48) (by omega) hv1 (by omega)
          refine ⟨?_, ?_⟩
          · rw [hsn, List.length_append, hlen]
            rfl
          · simp only [octetText, hd, if_false]
            rw [if_neg (by omega), hsn, ← hc]
      have key := ih (some c) (val * 10 + (c - 48)) pos (digLen + 1) fields f hl hpos
        (by intro h; omega)
        (by
          intro _
          refine ⟨by simp, ?_, by omega, hinv.1⟩
          intro hc46
          cases hc46
          omega)
        h
      refine ⟨?_, key.2.1, key.2.2⟩
      rw [← key.1, hinv.2, List.append_assoc]
      rfl
    · -- a dot
      subst hdot
      have hchk1 : prev ≠ none ∧ rest ≠ [] ∧ prev ≠ some 46 := by
        refine ⟨?_, ?_, ?_⟩ <;> intro hx <;> apply hchk <;> simp [hx]
      have hd : digLen ≠ 0 := by
        intro hd
        rcases (h0 hd).2 with ⟨h, -⟩ | ⟨h, -⟩
        · exact hchk1.1 h
        · exact hchk1.2.2 h
      obtain ⟨-, -, hv, hlen⟩ := h1 hd
      have hpos2 : pos < 3 := by omega
      have key := ih (some 46) 0 (pos + 1) 0 (fields.set pos val) f (by simp [hl]) (by omega)
        (by intro _; exact ⟨rfl, Or.inr ⟨rfl, hchk1.2.1⟩⟩)
        (by intro h; exact absurd rfl h)
        h
      have hfpos : f.getD pos 0 = val := by
        rw [key.2.1 pos (by omega), getD_set_four fields hl pos val pos hpos, if_pos rfl]
      refine ⟨?_, ?_, ?_⟩
      · rw [dottedFrom_step f pos hpos2, hfpos, ← key.1]
        simp [octetText, hd]
      · intro i hi
        rw [key.2.1 i (by omega), getD_set_four fields hl pos val i hpos, if_neg (by omega)]
      · intro i hi hi4
        by_cases hip : i = pos
        · rw [hip, hfpos]; exact hv
        · exact key.2.2 i (by omega) hi4

theorem parseIPv4Fields_text (s octets : List Nat) (h : parseIPv4Fields s = some octets) :
    IPString octets = s := by
  have hlen := parseIPv4Fields_length s octets h
  have key := parseIPv4Loop_text s none 0 0 0 [0, 0, 0, 0] octets rfl (by omega)
    (by intro _; exact ⟨rfl, Or.inl ⟨rfl, rfl⟩⟩) (by intro h; exact absurd rfl h) h
  match octets, hlen with
  | [a, b, c, d], _ =>
    have ha := key.2.2 0 (by omega) (by omega)
    have hb := key.2.2 1 (by omega) (by omega)
    have hc := key.2.2 2 (by omega) (by omega)
    have hd := key.2.2 3 (by omega) (by omega)
    simp only [List.getD_cons_zero, List.getD_cons_succ] at ha hb hc hd
    have h1 := key.1
    simp only [octetText, if_true, List.nil_append, dottedFrom] at h1
    rw [h1]
    simp [IPString, To4, Nat.mod_eq_of_lt (show a < 256 by omega),
      Nat.mod_eq_of_lt (show b < 256 by omega), Nat.mod_eq_of_lt (show c < 256 by omega),
      Nat.mod_eq_of_lt (show d < 256 by omega)]

/-! ## The result of the serializers -/

theorem serviceSerialize_ok (native : ByteOrder) (s : ServiceEntry) (node : RtAttr)
    (h : s.Serialize native = .ok node) :
    ∃ ip, ParseIP s.Address = some ip ∧ s.Protocol ∈ acceptedProtocols ∧
      s.SchedName ∈ acceptedSchedulers ∧
      node = ⟨IPVS_CMD_ATTR_SERVICE, [], serviceLeaves native s ip⟩ := by
  unfold ServiceEntry.Serialize at h
  split at h
  · cases h
  · rename_i ip hip
    refine ⟨ip, hip, ?_⟩
    split at h
    · cases h
    · rename_i protocol hp
      have hpp : s.Protocol ∈ acceptedProtocols ∧ protocol = protocolNumber s.Protocol := by
        unfold protocolNumber acceptedProtocols
        split_ifs at hp with h1 h2 h3
        · cases hp
          rw [if_pos h1]
          refine ⟨?_, rfl⟩
          simp only [List.mem_cons]
          tauto
        · cases hp
          rw [if_neg h1, if_pos h2]
          refine ⟨?_, rfl⟩
          simp only [List.mem_cons]
          tauto
        · cases hp
          rw [if_neg h1, if_neg h2]
          refine ⟨?_, rfl⟩
          simp only [List.mem_cons]
          tauto
      obtain ⟨hmem, rfl⟩ := hpp
      simp only at h
      by_cases hs : s.SchedName ∈ acceptedSchedulers
      · refine ⟨hmem, hs, ?_⟩
        unfold acceptedSchedulers at hs
        rw [if_pos hs] at h
        injection h with h
        subst h
        unfold serviceLeaves addressBytes
        cases h4 : To4 ip <;> by_cases hf : s.FWMark = 0 <;> by_cases hpe : s.PEName = str "" <;>
          simp [hf, hpe, NewRtAttr, NewRtAttrChild]
      · unfold acceptedSchedulers at hs
        rw [if_neg hs] at h
        cases h

theorem serviceSerialize_eq (native : ByteOrder) (s : ServiceEntry) (ip : List Nat)
    (hip : ParseIP s.Address = some ip) (hp : s.Protocol ∈ acceptedProtocols)
    (hs : s.SchedName ∈ acceptedSchedulers) :
    s.Serialize native = .ok ⟨IPVS_CMD_ATTR_SERVICE, [], serviceLeaves native s ip⟩ := by
  cases hres : s.Serialize native with
  | ok node =>
    obtain ⟨ip1, hip1, -, -, rfl⟩ := serviceSerialize_ok native s node hres
    rw [hip] at hip1
    cases hip1
    rfl
  | error err =>
    exfalso
    unfold ServiceEntry.Serialize at hres
    rw [hip] at hres
    simp only at hres
    unfold acceptedSchedulers at hs
    unfold acceptedProtocols at hp
    simp only [List.mem_cons, List.mem_singleton, List.not_mem_nil, or_false] at hp
    split at hres
    · rename_i hnone
      split_ifs at hnone
      tauto
    · rw [if_pos hs] at hres
      cases hres

theorem destinationSerialize_ok (native : ByteOrder) (d : DestinationEntry) (node : RtAttr)
    (h : d.Serialize native = .ok node) :
    ∃ ip, ParseIP d.Address = some ip ∧
      (d.Method = str "NAT" ∨ d.Method = str "DR" ∨ d.Method = str "TUN") ∧
      node = ⟨IPVS_CMD_ATTR_DEST, [], destinationLeaves native d ip⟩ := by
  unfold DestinationEntry.Serialize at h
  split at h
  · cases h
  · rename_i ip hip
    refine ⟨ip, hip, ?_⟩
    split at h
    · cases h
    · rename_i method hm
      have hmm : (d.Method = str "NAT" ∨ d.Method = str "DR" ∨ d.Method = str "TUN") ∧
          method &&& IP_VS_CONN_F_FWD_MASK = methodNumber d.Method := by
        unfold methodNumber
        split_ifs at hm with h1 h2 h3
        · cases hm; rw [if_pos h1]; exact ⟨Or.inl h1, by decide⟩
        · cases hm; rw [if_neg h1, if_pos h2]; exact ⟨Or.inr (Or.inl h2), by decide⟩
        · cases hm; rw [if_neg h1, if_neg h2]; exact ⟨Or.inr (Or.inr h3), by decide⟩
      obtain ⟨hmem, hmask⟩ := hmm
      refine ⟨hmem, ?_⟩
      simp only at h
      injection h with h
      subst h
      rw [hmask]
      unfold destinationLeaves addressBytes
      cases h4 : To4 ip <;> simp [NewRtAttr, NewRtAttrChild]

theorem destinationSerialize_eq (native : ByteOrder) (d : DestinationEntry) (ip : List Nat)
    (hip : ParseIP d.Address = some ip)
    (hm : d.Method = str "NAT" ∨ d.Method = str "DR" ∨ d.Method = str "TUN") :
    d.Serialize native = .ok ⟨IPVS_CMD_ATTR_DEST, [], destinationLeaves native d ip⟩ := by
  cases hres : d.Serialize native with
  | ok node =>
    obtain ⟨ip1, hip1, -, rfl⟩ := destinationSerialize_ok native d node hres
    rw [hip] at hip1
    cases hip1
    rfl
  | error err =>
    exfalso
    unfold DestinationEntry.Serialize at hres
    rw [hip] at hres
    simp only at hres
    split at hres
    · rename_i hnone
      split_ifs at hnone
      tauto
    · cases hres

/-! ## Reading back what was written -/

theorem Uint16_PutUint16 (o : ByteOrder) (v : Nat) (rest : List Nat) :
    o.Uint16 (o.PutUint16 v ++ rest) = .ok (v % 65536) := by
  cases o <;> simp only [ByteOrder.Uint16, ByteOrder.PutUint16, List.cons_append,
    List.nil_append, Except.ok.injEq] <;> omega

theorem Uint32_PutUint32 (o : ByteOrder) (v : Nat) (rest : List Nat) :
    o.Uint32 (o.PutUint32 v ++ rest) = .ok (v % 4294967296) := by
  cases o <;> simp only [ByteOrder.Uint32, ByteOrder.PutUint32, List.cons_append,
    List.nil_append, Except.ok.injEq] <;> omega

theorem Uint16_PutUint32 (o : ByteOrder) (v : Nat) :
    o.Uint16 (o.PutUint32 v) =
      .ok (match o with
        | .LittleEndian => v % 65536
        | .BigEndian => v / 65536 % 65536) := by
  cases o <;> simp only [ByteOrder.Uint16, ByteOrder.PutUint32, Except.ok.injEq] <;> omega

theorem uint16_cast (x : Int) (h0 : 0 ≤ x) (h1 : x ≤ 65535) : ((uint16 x % 65536 : Nat) : Int) = x := by
  unfold uint16
  omega

theorem uint32_cast (x : Int) (h0 : 0 ≤ x) (h1 : x < 4294967296) :
    ((uint32 x % 4294967296 : Nat) : Int) = x := by
  unfold uint32
  omega

theorem indexNul_append (s : List Nat) (h : 0 ∉ s) (rest : List Nat) :
    indexNul (s ++ 0 :: rest) = some s.length := by
  induction s with
  | nil => simp [indexNul]
  | cons c t ih =>
    have hc : c ≠ 0 := fun hc => h (hc ▸ List.mem_cons_self _ _)
    have ht : 0 ∉ t := fun ht => h (List.mem_cons_of_mem _ ht)
    simp [indexNul, hc, ih ht]

theorem BytesToString_ZeroTerminated (s : GoString) (h : 0 ∉ s) :
    BytesToString (ZeroTerminated s) = .ok s := by
  unfold BytesToString ZeroTerminated
  rw [indexNul_append s h []]
  simp

theorem acceptedSchedulers_no_nul (s : GoString) (h : s ∈ acceptedSchedulers) : 0 ∉ s := by
  unfold acceptedSchedulers at h
  simp only [List.mem_cons, List.mem_singleton, List.not_mem_nil, or_false] at h
  rcases h with rfl | rfl | rfl | rfl | rfl | rfl | rfl | rfl | rfl | rfl | rfl | rfl <;> decide

theorem sliceTo_exact (l spare : List Nat) :
    (ByteSlice.mk l spare).sliceTo l.length = .ok ⟨l, spare⟩ := by
  simp [ByteSlice.sliceTo, ByteSlice.cap]

theorem protocolNumber_cases (p : GoString) :
    protocolNumber p = 6 ∨ protocolNumber p = 17 ∨ protocolNumber p = 132 := by
  unfold protocolNumber
  split_ifs <;> simp

theorem methodNumber_name (m : GoString)
    (hm : m = str "NAT" ∨ m = str "DR" ∨ m = str "TUN") :
    (methodNumber m = 0 ∧ m = str "NAT") ∨ (methodNumber m = 3 ∧ m = str "DR")
      ∨ (methodNumber m = 2 ∧ m = str "TUN") := by
  rcases hm with rfl | rfl | rfl <;> decide

/-- The entry `assembleServiceInterface` decodes from the leaves of a serialized
service with FWMark = 0 and fields in range. -/
theorem assembleServiceInterface_serialized (native : ByteOrder) (e : ServiceEntry) (node : RtAttr)
    (spare : Nat → List Nat) (hfw : e.FWMark = 0)
    (hport : 0 ≤ e.Port ∧ e.Port ≤ 65535)
    (hflags : 0 ≤ e.Flags ∧ e.Flags < 4294967296)
    (htimeout : 0 ≤ e.Timeout ∧ e.Timeout < 4294967296)
    (hnetmask : 0 ≤ e.Netmask ∧ e.Netmask < 4294967296)
    (h : e.Serialize native = .ok node) :
    ∃ ip, ParseIP e.Address = some ip ∧
      assembleServiceInterface native (childRecords spare node) =
        .ok { Address := IPString (addressBytes ip),
              Protocol := protocolName (protocolNumber e.Protocol),
              Port := e.Port, FWMark := 0, SchedName := e.SchedName, Flags := e.Flags,
              Timeout := e.Timeout, Netmask := e.Netmask,
              AddressFamily := if To4 ip = none then str "IPv6" else str "IPv4",
              PEName := [], Stats := {} } := by
  obtain ⟨ip, hip, hp, hs, rfl⟩ := serviceSerialize_ok native e node h
  have hlen := ParseIP_length _ _ hip
  refine ⟨ip, hip, ?_⟩
  have hsched := BytesToString_ZeroTerminated _ (acceptedSchedulers_no_nul _ hs)
  have h16 := fun v => Uint16_PutUint16 native v []
  have h16b := fun v => Uint16_PutUint16 .BigEndian v []
  have h32 := fun v => Uint32_PutUint32 native v []
  have h32f := fun v w => Uint32_PutUint32 native v (native.PutUint32 w)
  simp only [List.append_nil] at h16 h16b h32
  have hP := uint16_cast e.Port hport.1 hport.2
  have hF := uint32_cast e.Flags hflags.1 hflags.2
  have hT := uint32_cast e.Timeout htimeout.1 htimeout.2
  have hN := uint32_cast e.Netmask hnetmask.1 hnetmask.2
  have hs16 : ∀ sp, (ByteSlice.mk ip sp).sliceTo 16 = .ok ⟨ip, sp⟩ := by
    intro sp; rw [← hlen]; exact sliceTo_exact ip sp
  have hs4 : ∀ ip4 sp, To4 ip = some ip4 → (ByteSlice.mk ip4 sp).sliceTo 4 = .ok ⟨ip4, sp⟩ := by
    intro ip4 sp h4; rw [← To4_length _ _ hlen h4]; exact sliceTo_exact ip4 sp
  have hne : str "IPv6" ≠ str "IPv4" := by decide
  by_cases hpe : e.PEName = str "" <;> cases h4 : To4 ip <;>
    rcases protocolNumber_cases e.Protocol with hpn | hpn | hpn <;>
    simp [childRecords, serviceLeaves, hfw, hpe, h4, assembleServiceInterface, serviceStep,
      List.enum, List.enumFrom, Uint16Attr, Uint32Attr, ipvsFlags.Serialize, h16, h16b, h32,
      h32f, hsched, addressBytes, bind, Except.bind, pure, Except.pure, hpn, protocolName,
      hP, hF, hT, hN, hs16, hs4, hne, AF_INET, AF_INET6, IPPROTO_TCP, IPPROTO_UDP, IPPROTO_SCTP]

/-- The entry `assembleDestinationInterface` decodes from the leaves of a
serialized destination with fields in range. -/
theorem assembleDestinationInterface_serialized (native : ByteOrder) (d : DestinationEntry)
    (node : RtAttr) (spare : Nat → List Nat)
    (hport : 0 ≤ d.Port ∧ d.Port ≤ 65535)
    (hweight : 0 ≤ d.Weight ∧ d.Weight ≤ 65535)
    (hupper : 0 ≤ d.UpperThreshold ∧ d.UpperThreshold < 4294967296)
    (hlower : 0 ≤ d.LowerThreshold ∧ d.LowerThreshold < 4294967296)
    (h : d.Serialize native = .ok node) :
    ∃ ip, ParseIP d.Address = some ip ∧
      assembleDestinationInterface native (childRecords spare node) =
        .ok { Address := IPString ((addressBytes ip).take 4),
              Port := d.Port,
              Weight := if native = .LittleEndian then d.Weight else 0,
              Method := d.Method, AddressFamily := [],
              UpperThreshold := d.UpperThreshold, LowerThreshold := d.LowerThreshold } := by
  obtain ⟨ip, hip, hm, rfl⟩ := destinationSerialize_ok native d node h
  have hlen := ParseIP_length _ _ hip
  refine ⟨ip, hip, ?_⟩
  have h16b := fun v => Uint16_PutUint16 .BigEndian v []
  have h32 := fun v => Uint32_PutUint32 native v []
  have h1632 := fun v => Uint16_PutUint32 native v
  simp only [List.append_nil] at h16b h32
  have hP := uint16_cast d.Port hport.1 hport.2
  have hU := uint32_cast d.UpperThreshold hupper.1 hupper.2
  have hL := uint32_cast d.LowerThreshold hlower.1 hlower.2
  have hW : ((uint32 d.Weight % 65536 : Nat) : Int) = d.Weight
      ∧ ((uint32 d.Weight / 65536 % 65536 : Nat) : Int) = 0 := by
    unfold uint32
    omega
  have hlen4 : 4 ≤ (addressBytes ip).length := by
    unfold addressBytes
    cases h4 : To4 ip with
    | none => simp only; omega
    | some ip4 => simp only; rw [To4_length _ _ hlen h4]
  have hs4 : ∀ sp, (ByteSlice.mk (addressBytes ip) sp).sliceTo 4
      = .ok ⟨(addressBytes ip).take 4, (addressBytes ip ++ sp).drop 4⟩ := by
    intro sp
    simp only [ByteSlice.sliceTo, ByteSlice.cap]
    rw [if_pos (by omega), List.take_append_of_le_length hlen4]
  have hne : (([] : GoString) = str "IPv6") = False := by decide
  cases native <;>
    rcases methodNumber_name d.Method hm with ⟨hn, hname⟩ | ⟨hn, hname⟩ | ⟨hn, hname⟩ <;>
    simp [childRecords, destinationLeaves, assembleDestinationInterface, destinationStep,
      List.enum, List.enumFrom, Uint32Attr, h16b, h32, h1632, bind, Except.bind, pure,
      Except.pure, hn, hP, hU, hL, hW.1, hW.2, hs4, hne, ByteSlice.nil, ← hname]

/-! ## Round trips (C1, C2) -/

/-- C1, counterexample: four services in range on which `Serialize` succeeds
and the round trip does not reproduce the entry. With protocol `tcp` the
decoded Protocol is `TCP`; with a nonzero FWMark the node has no address leaf
and `assembleServiceInterface` panics on `addr[:4]`; a PEName `sip` is decoded
as the empty string; the address `::ffff:1.2.3.4` is decoded as `1.2.3.4`. -/
theorem service_round_trip_fails :
    ((roundTrip (lowerCaseProtocolService.Serialize .LittleEndian)
          (assembleServiceInterface .LittleEndian)).map (fun r => r.Protocol) = .ok (str "TCP")
        ∧ lowerCaseProtocolService.Protocol = str "tcp")
      ∧ (firewallMarkService.Serialize .LittleEndian = .ok firewallMarkNode
        ∧ roundTrip (firewallMarkService.Serialize .LittleEndian)
          (assembleServiceInterface .LittleEndian) = .error .panic)
      ∧ ((roundTrip (persistenceEngineService.Serialize .LittleEndian)
          (assembleServiceInterface .LittleEndian)).map (fun r => r.PEName) = .ok (str "")
        ∧ persistenceEngineService.PEName = str "sip")
      ∧ ((roundTrip (mappedAddressService.Serialize .LittleEndian)
          (assembleServiceInterface .LittleEndian)).map (fun r => r.Address)
            = .ok (str "1.2.3.4")
        ∧ mappedAddressService.Address = str "::ffff:1.2.3.4") := by
  decide

/-- C1, amended: for every ServiceEntry `e` with FWMark = 0, Port in 0..65535
and Flags, Timeout, Netmask in 32-bit range on which `Serialize` succeeds,
running `assembleServiceInterface` on the child leaves of the serialized SERVICE
node (whatever spare capacity lies behind each leaf) succeeds and returns an
entry whose Port, FWMark, SchedName, Flags, Timeout and Netmask equal those of
`e`; whose Protocol is `TCP`, `UDP` or `SCTP` according to the spelling in `e`
(so equal to it when `e` uses the upper-case name); whose Address is the text
`net.IP.String` gives for the parsed address (equal to `e.Address` when that is
a dotted-quad literal); whose AddressFamily is the family derived from
`e.Address`; and whose Stats is all zero. -/
theorem service_round_trip (native : ByteOrder) (e : ServiceEntry) (node : RtAttr)
    (spare : Nat → List Nat) (hfw : e.FWMark = 0)
    (hport : 0 ≤ e.Port ∧ e.Port ≤ 65535)
    (hflags : 0 ≤ e.Flags ∧ e.Flags < 4294967296)
    (htimeout : 0 ≤ e.Timeout ∧ e.Timeout < 4294967296)
    (hnetmask : 0 ≤ e.Netmask ∧ e.Netmask < 4294967296)
    (h : e.Serialize native = .ok node) :
    ∃ ip r, ParseIP e.Address = some ip
      ∧ assembleServiceInterface native (childRecords spare node) = .ok r
      ∧ r.Address = IPString (addressBytes ip)
      ∧ (∀ octets, parseIPv4Fields e.Address = some octets → r.Address = e.Address)
      ∧ (e.Protocol ∈ [str "TCP", str "tcp", str "Tcp"] → r.Protocol = str "TCP")
      ∧ (e.Protocol ∈ [str "UDP", str "udp", str "Udp"] → r.Protocol = str "UDP")
      ∧ (e.Protocol ∈ [str "SCTP", str "sctp", str "Sctp"] → r.Protocol = str "SCTP")
      ∧ r.Port = e.Port ∧ r.FWMark = e.FWMark ∧ r.SchedName = e.SchedName
      ∧ r.Flags = e.Flags ∧ r.Timeout = e.Timeout ∧ r.Netmask = e.Netmask
      ∧ r.AddressFamily = (if To4 ip = none then str "IPv6" else str "IPv4")
      ∧ r.Stats = {} := by
  obtain ⟨ip, hip, hdec⟩ :=
    assembleServiceInterface_serialized native e node spare hfw hport hflags htimeout hnetmask h
  refine ⟨ip, _, hip, hdec, rfl, ?_, ?_, ?_, ?_, rfl, hfw.symm, rfl, rfl, rfl, rfl, rfl, rfl⟩
  · intro octets ho
    have hip2 := ParseIP_dotted _ _ ho
    rw [hip] at hip2
    cases hip2
    have h4 := To4_mapped octets (parseIPv4Fields_length _ _ ho)
    simp only [addressBytes, h4]
    exact parseIPv4Fields_text _ _ ho
  · intro hp
    change protocolName (protocolNumber e.Protocol) = _
    simp only [List.mem_cons, List.mem_singleton, List.not_mem_nil, or_false] at hp
    rcases hp with hp | hp | hp <;> rw [hp] <;> decide
  · intro hp
    change protocolName (protocolNumber e.Protocol) = _
    simp only [List.mem_cons, List.mem_singleton, List.not_mem_nil, or_false] at hp
    rcases hp with hp | hp | hp <;> rw [hp] <;> decide
  · intro hp
    change protocolName (protocolNumber e.Protocol) = _
    simp only [List.mem_cons, List.mem_singleton, List.not_mem_nil, or_false] at hp
    rcases hp with hp | hp | hp <;> rw [hp] <;> decide

/-- Witness of `service_round_trip`: the service of the package test. -/
theorem service_round_trip_witness :
    (testService.FWMark = 0 ∧ (0 ≤ testService.Port ∧ testService.Port ≤ 65535)
        ∧ (0 ≤ testService.Flags ∧ testService.Flags < 4294967296)
        ∧ (0 ≤ testService.Timeout ∧ testService.Timeout < 4294967296)
        ∧ (0 ≤ testService.Netmask ∧ testService.Netmask < 4294967296)
        ∧ testService.Serialize .LittleEndian = .ok testServiceNode)
      ∧ ∃ ip r, ParseIP testService.Address = some ip
        ∧ assembleServiceInterface .LittleEndian (childRecords (fun _ => []) testServiceNode)
            = .ok r
        ∧ r.Address = IPString (addressBytes ip)
        ∧ (∀ octets, parseIPv4Fields testService.Address = some octets →
            r.Address = testService.Address)
        ∧ (testService.Protocol ∈ [str "TCP", str "tcp", str "Tcp"] → r.Protocol = str "TCP")
        ∧ (testService.Protocol ∈ [str "UDP", str "udp", str "Udp"] → r.Protocol = str "UDP")
        ∧ (testService.Protocol ∈ [str "SCTP", str "sctp", str "Sctp"] →
            r.Protocol = str "SCTP")
        ∧ r.Port = testService.Port ∧ r.FWMark = testService.FWMark
        ∧ r.SchedName = testService.SchedName
        ∧ r.Flags = testService.Flags ∧ r.Timeout = testService.Timeout
        ∧ r.Netmask = testService.Netmask
        ∧ r.AddressFamily = (if To4 ip = none then str "IPv6" else str "IPv4")
        ∧ r.Stats = {} :=
  ⟨⟨by decide, by decide, by decide, by decide, by decide, by decide⟩,
    service_round_trip .LittleEndian testService testServiceNode (fun _ => []) (by decide)
      (by decide) (by decide) (by decide) (by decide) (by decide)⟩

/-- The IPv6 destination `2001:db8::1` serializes, to a node without
address-family leaf, and the decoder returns for its leaves the address
`32.1.13.184`, the text of the first four bytes of the address. -/
theorem ipv6_destination_is_truncated :
    (roundTrip (ipv6Destination.Serialize .LittleEndian)
        (assembleDestinationInterface .LittleEndian)).map (fun r => r.Address)
          = .ok (str "32.1.13.184")
      ∧ ipv6Destination.Address = str "2001:db8::1" := by
  decide

/-- C2, counterexample: two destinations in range, with an address that has a
4-byte form, on which `Serialize` succeeds and the round trip does not
reproduce the entry: on a big-endian host the weight 100 is decoded as 0; and
the address `::ffff:1.2.3.4` is decoded as `1.2.3.4`. -/
theorem destination_round_trip_fails :
    ((roundTrip (directRouteDestination.Serialize .BigEndian)
          (assembleDestinationInterface .BigEndian)).map (fun r => r.Weight) = .ok 0
        ∧ directRouteDestination.Weight = 100)
      ∧ ((roundTrip (mappedAddressDestination.Serialize .LittleEndian)
          (assembleDestinationInterface .LittleEndian)).map (fun r => r.Address)
            = .ok (str "1.2.3.4")
        ∧ mappedAddressDestination.Address = str "::ffff:1.2.3.4") := by
  decide

/-- C2, amended: for every DestinationEntry `d` whose address has a 4-byte
form `ip4` (an IPv4 literal or an IPv4-mapped IPv6 literal), with Port and
Weight in 0..65535 and thresholds in 32-bit range, on which `Serialize`
succeeds, running `assembleDestinationInterface` on the child leaves of the
serialized DEST node (whatever spare capacity lies behind each leaf) returns an
entry whose Port, Method, UpperThreshold and LowerThreshold equal those of `d`;
whose Weight equals that of `d` on a little-endian host; and whose Address is
the text `net.IP.String` gives for `ip4`, which equals `d.Address` when that is
a dotted-quad literal. -/
theorem destination_round_trip (native : ByteOrder) (d : DestinationEntry) (node : RtAttr)
    (spare : Nat → List Nat) (ip ip4 : List Nat)
    (hport : 0 ≤ d.Port ∧ d.Port ≤ 65535)
    (hweight : 0 ≤ d.Weight ∧ d.Weight ≤ 65535)
    (hupper : 0 ≤ d.UpperThreshold ∧ d.UpperThreshold < 4294967296)
    (hlower : 0 ≤ d.LowerThreshold ∧ d.LowerThreshold < 4294967296)
    (h : d.Serialize native = .ok node)
    (hip : ParseIP d.Address = some ip) (h4 : To4 ip = some ip4) :
    ∃ r, assembleDestinationInterface native (childRecords spare node) = .ok r
      ∧ r.Address = IPString ip4
      ∧ (∀ octets, parseIPv4Fields d.Address = some octets → r.Address = d.Address)
      ∧ r.Port = d.Port ∧ r.Method = d.Method
      ∧ (native = .LittleEndian → r.Weight = d.Weight)
      ∧ r.UpperThreshold = d.UpperThreshold ∧ r.LowerThreshold = d.LowerThreshold := by
  obtain ⟨ip1, hip1, hdec⟩ :=
    assembleDestinationInterface_serialized native d node spare hport hweight hupper hlower h
  rw [hip] at hip1
  cases hip1
  have hlen := ParseIP_length _ _ hip
  have h4eq : ∀ x, To4 ip = some x → (addressBytes ip).take 4 = x := by
    intro x hx
    have := To4_length _ _ hlen hx
    simp only [addressBytes, hx]
    rw [← this, List.take_length]
  refine ⟨_, hdec, ?_, ?_, rfl, rfl, ?_, rfl, rfl⟩
  · change IPString ((addressBytes ip).take 4) = _
    rw [h4eq ip4 h4]
  · intro octets ho
    have hip2 := ParseIP_dotted _ _ ho
    rw [hip] at hip2
    cases hip2
    have h4o := To4_mapped octets (parseIPv4Fields_length _ _ ho)
    change IPString ((addressBytes _).take 4) = _
    rw [h4eq octets h4o]
    exact parseIPv4Fields_text _ _ ho
  · intro hn
    change (if native = .LittleEndian then d.Weight else 0) = _
    rw [if_pos hn]

/-- Witness of `destination_round_trip`: a destination of the package test. -/
theorem destination_round_trip_witness :
    ((0 ≤ directRouteDestination.Port ∧ directRouteDestination.Port ≤ 65535)
        ∧ (0 ≤ directRouteDestination.Weight ∧ directRouteDestination.Weight ≤ 65535)
        ∧ (0 ≤ directRouteDestination.UpperThreshold
          ∧ directRouteDestination.UpperThreshold < 4294967296)
        ∧ (0 ≤ directRouteDestination.LowerThreshold
          ∧ directRouteDestination.LowerThreshold < 4294967296)
        ∧ directRouteDestination.Serialize .LittleEndian = .ok directRouteNode
        ∧ ParseIP directRouteDestination.Address
          = some [0, 0, 0, 0, 0, 0, 0, 0, 0, 0, 255, 255, 127, 2, 1, 1]
        ∧ To4 [0, 0, 0, 0, 0, 0, 0, 0, 0, 0, 255, 255, 127, 2, 1, 1] = some [127, 2, 1, 1])
      ∧ ∃ r, assembleDestinationInterface .LittleEndian
            (childRecords (fun _ => []) directRouteNode) = .ok r
        ∧ r.Address = IPString [127, 2, 1, 1]
        ∧ (∀ octets, parseIPv4Fields directRouteDestination.Address = some octets →
            r.Address = directRouteDestination.Address)
        ∧ r.Port = directRouteDestination.Port ∧ r.Method = directRouteDestination.Method
        ∧ (ByteOrder.LittleEndian = .LittleEndian → r.Weight = directRouteDestination.Weight)
        ∧ r.UpperThreshold = directRouteDestination.UpperThreshold
        ∧ r.LowerThreshold = directRouteDestination.LowerThreshold :=
  ⟨⟨by decide, by decide, by decide, by decide, by decide, by decide, by decide⟩,
    destination_round_trip .LittleEndian directRouteDestination directRouteNode (fun _ => [])
      [0, 0, 0, 0, 0, 0, 0, 0, 0, 0, 255, 255, 127, 2, 1, 1] [127, 2, 1, 1]
      (by decide) (by decide) (by decide) (by decide) (by decide) (by decide) (by decide)⟩

/-! ## Lookups (C3, C4, C5) -/

/-- C3, the code at the failing input: the key is `10.0.0.1:80`, `TCP`, the
reply holds the single service `10.0.0.2:81`, `UDP`, and `GetService` returns
that service without error; its address, port and protocol all differ from
the key. -/
theorem getService_returns_another_service :
    IPVSHandler.GetService oneServiceTransport .LittleEndian ⟨24⟩ (str "10.0.0.1") 80
        (str "TCP") () = (.ok otherService, ())
      ∧ otherService.Address ≠ str "10.0.0.1" ∧ otherService.Port ≠ 80
      ∧ otherService.Protocol ≠ str "TCP" := by
  decide

/-- `GetDestination` never succeeds and never calls the transport: whatever
its arguments, it returns an error and leaves the state of the world as it was. -/
theorem GetDestination_never_succeeds {σ : Type} (t : Transport σ) (native : ByteOrder)
    (h : IPVSHandler) (si : Option ServiceEntry) (rip : GoString) (rport : Int) (w : σ) :
    ∃ err, IPVSHandler.GetDestination t native h si rip rport w = (.error err, w) := by
  have hd : ∃ err, ({ Address := rip, Port := rport } : DestinationEntry).Serialize native
      = .error err := by
    cases hres : ({ Address := rip, Port := rport } : DestinationEntry).Serialize native with
    | error err => exact ⟨err, rfl⟩
    | ok node =>
      obtain ⟨-, -, hm, -⟩ := destinationSerialize_ok native _ node hres
      have hm1 : ([] : GoString) = str "NAT" ∨ ([] : GoString) = str "DR"
          ∨ ([] : GoString) = str "TUN" := hm
      exact absurd hm1 (by decide)
  obtain ⟨err, herr⟩ := hd
  unfold IPVSHandler.GetDestination IPVSHandler.sendRequest
  simp only [herr]
  cases si with
  | none => exact ⟨err, rfl⟩
  | some s =>
    cases hs : s.Serialize native with
    | error e => simp only [hs]; exact ⟨e, rfl⟩
    | ok node => simp only [hs]; exact ⟨err, rfl⟩

/-- C4, the code at the failing input: for the service of the package test and
the destination `127.2.1.1:8888`, the reply of the transport decodes to exactly
one destination, yet `GetDestination` fails with the unsupported-method error,
and the transport is never called (its request count stays 0): the
destination built from the address and port has the empty Method, which
`Serialize` rejects. -/
theorem getDestination_fails_on_one_destination :
    (parseGenlHeaders .LittleEndian [oneDestinationMessage]).bind
        (parseIPVSDestinationMessage .LittleEndian)
        = .ok [{ Address := str "127.2.1.1", Port := 8888, Weight := 100, Method := str "DR" }]
      ∧ testService.Serialize .LittleEndian = .ok testServiceNode
      ∧ ParseIP (str "127.2.1.1") ≠ none
      ∧ IPVSHandler.GetDestination oneDestinationTransport .LittleEndian ⟨24⟩ (some testService)
          (str "127.2.1.1") 8888 0 = (.error (.notSupportMethod (str "")), 0) := by
  decide

/-- With a key that serializes, `GetService` sends `getServiceRequest`. -/
theorem sendRequest_getService {σ : Type} (t : Transport σ) (native : ByteOrder)
    (h : IPVSHandler) (si : ServiceEntry) (node : RtAttr) (w : σ)
    (hsi : si.Serialize native = .ok node) :
    h.sendRequest t native IPVS_CMD_GET_SERVICE (some si) none w
      = t.Execute (getServiceRequest h) w := by
  unfold IPVSHandler.sendRequest
  simp only [hsi]
  rfl

/-- C5: for every valid key (an address that parses and an accepted protocol
spelling) and every reply of the transport to the get-service request whose
messages all decode, to the list `services`: `GetService` fails with the
not-found error when `services` is empty, fails with the duplicate-entry error
when it holds two or more services, and returns the single decoded service
when it holds exactly one. -/
theorem getService_uniqueness {σ : Type} (t : Transport σ) (native : ByteOrder)
    (h : IPVSHandler) (vip : GoString) (port : Int) (protocol : GoString) (w w1 : σ)
    (msgs : List ByteSlice) (services : List ServiceEntry)
    (hvip : ParseIP vip ≠ none) (hproto : protocol ∈ acceptedProtocols)
    (hreply : t.Execute (getServiceRequest h) w = (.ok msgs, w1))
    (hdecode : (parseGenlHeaders native msgs).bind (parseIPVSServiceMessage native)
      = .ok services) :
    (services.length = 0 →
        h.GetService t native vip port protocol w = (.error .notFoundEntry, w1))
      ∧ (2 ≤ services.length →
        h.GetService t native vip port protocol w = (.error .foundDuplicateEntry, w1))
      ∧ (∀ s, services = [s] → h.GetService t native vip port protocol w = (.ok s, w1)) := by
  obtain ⟨ip, hip⟩ := Option.ne_none_iff_exists'.mp hvip
  have hsi := serviceSerialize_eq native
    ({ Address := vip, Protocol := protocol, Port := port } : ServiceEntry) ip hip hproto
    (show ([] : GoString) ∈ acceptedSchedulers by decide)
  have hsend := sendRequest_getService t native h _ _ w hsi
  cases hg : parseGenlHeaders native msgs with
  | error err => rw [hg] at hdecode; cases hdecode
  | ok ipvsAttrs =>
    rw [hg] at hdecode
    have hd : parseIPVSServiceMessage native ipvsAttrs = .ok services := hdecode
    unfold IPVSHandler.GetService
    simp only [hsend, hreply, hg, hd]
    refine ⟨?_, ?_, ?_⟩
    · intro h0
      rw [if_pos (by omega)]
    · intro h2
      rw [if_neg (by omega), if_pos (by omega)]
    · intro s hs
      subst hs
      simp

/-- Witness of `getService_uniqueness`: a reply holding exactly one service. -/
theorem getService_uniqueness_witness :
    (ParseIP (str "10.0.0.1") ≠ none ∧ str "TCP" ∈ acceptedProtocols
        ∧ oneServiceTransport.Execute (getServiceRequest ⟨24⟩) () = (.ok [otherServiceMessage], ())
        ∧ (parseGenlHeaders .LittleEndian [otherServiceMessage]).bind
            (parseIPVSServiceMessage .LittleEndian) = .ok [otherService])
      ∧ (([otherService].length = 0 →
          IPVSHandler.GetService oneServiceTransport .LittleEndian ⟨24⟩ (str "10.0.0.1") 80
            (str "TCP") () = (.error .notFoundEntry, ()))
        ∧ (2 ≤ [otherService].length →
          IPVSHandler.GetService oneServiceTransport .LittleEndian ⟨24⟩ (str "10.0.0.1") 80
            (str "TCP") () = (.error .foundDuplicateEntry, ()))
        ∧ (∀ s, [otherService] = [s] →
          IPVSHandler.GetService oneServiceTransport .LittleEndian ⟨24⟩ (str "10.0.0.1") 80
            (str "TCP") () = (.ok s, ()))) :=
  ⟨⟨by decide, by decide, by decide, by decide⟩,
    getService_uniqueness oneServiceTransport .LittleEndian ⟨24⟩ (str "10.0.0.1") 80 (str "TCP")
      () () [otherServiceMessage] [otherService] (by decide) (by decide) (by decide)
      (by decide)⟩

/-! ## Enumeration closure (C6, C7) -/

/-- C6, counterexample: the protocol `tcp` is none of `TCP`, `UDP`, `SCTP`, yet
`Serialize` succeeds on it; and with the unknown protocol `ICMP` and an address
that does not parse, `Serialize` fails with the invalid-address error, not
with an unsupported-protocol error. -/
theorem lower_case_protocol_is_serialized :
    (lowerCaseProtocolService.Protocol ≠ str "TCP"
      ∧ lowerCaseProtocolService.Protocol ≠ str "UDP"
      ∧ lowerCaseProtocolService.Protocol ≠ str "SCTP"
      ∧ lowerCaseProtocolService.Serialize .LittleEndian
        = .ok ⟨IPVS_CMD_ATTR_SERVICE, [],
            [⟨IPVS_SVC_ATTR_AF, [2, 0]⟩, ⟨IPVS_SVC_ATTR_PORT, [0, 0]⟩,
              ⟨IPVS_SVC_ATTR_PROTOCOL, [6, 0]⟩, ⟨IPVS_SVC_ATTR_ADDR, [10, 0, 0, 1]⟩,
              ⟨IPVS_SVC_ATTR_SCHED_NAME, [0]⟩,
              ⟨IPVS_SVC_ATTR_FLAGS, [0, 0, 0, 0, 255, 255, 255, 255]⟩,
              ⟨IPVS_SVC_ATTR_TIMEOUT, [0, 0, 0, 0]⟩, ⟨IPVS_SVC_ATTR_NETMASK, [0, 0, 0, 0]⟩]⟩)
    ∧ (unknownProtocolBadAddressService.Protocol ≠ str "TCP"
      ∧ unknownProtocolBadAddressService.Protocol ≠ str "UDP"
      ∧ unknownProtocolBadAddressService.Protocol ≠ str "SCTP"
      ∧ unknownProtocolBadAddressService.Serialize .LittleEndian
        = .error (.invalidIPAddress (str "example"))) := by
  decide

/-- C6, amended: for every ServiceEntry whose Protocol is none of the nine
accepted spellings (`TCP`, `tcp`, `Tcp`, `UDP`, `udp`, `Udp`, `SCTP`, `sctp`,
`Sctp`), `Serialize` fails: with the invalid-address error when Address does
not parse, and with the unsupported-protocol error otherwise. -/
theorem serialize_rejects_other_protocols (native : ByteOrder) (e : ServiceEntry)
    (h : e.Protocol ∉ acceptedProtocols) :
    e.Serialize native =
      .error (if ParseIP e.Address = none then .invalidIPAddress e.Address
        else .notSupportProtocol e.Protocol) := by
  cases hres : e.Serialize native with
  | ok node =>
    obtain ⟨ip, -, hp, -⟩ := serviceSerialize_ok native e node hres
    exact absurd hp h
  | error err =>
    unfold ServiceEntry.Serialize at hres
    split at hres
    · rename_i hip
      rw [if_pos hip]
      exact hres.symm ▸ rfl
    · rename_i ip hip
      rw [if_neg (by rw [hip]; exact Option.some_ne_none ip)]
      split at hres
      · exact hres.symm ▸ rfl
      · rename_i protocol hp
        exfalso
        apply h
        unfold acceptedProtocols
        simp only [List.mem_cons, List.mem_singleton, List.not_mem_nil, or_false]
        split_ifs at hp <;> tauto

/-- Witness of `serialize_rejects_other_protocols`: protocol `ICMP` with a valid address. -/
theorem serialize_rejects_other_protocols_witness :
    unknownProtocolService.Protocol ∉ acceptedProtocols
      ∧ unknownProtocolService.Serialize .LittleEndian =
        .error (if ParseIP unknownProtocolService.Address = none then
            .invalidIPAddress unknownProtocolService.Address
          else .notSupportProtocol unknownProtocolService.Protocol) :=
  ⟨by decide, serialize_rejects_other_protocols .LittleEndian unknownProtocolService (by decide)⟩

/-- C7: for every DestinationEntry with a parseable address, `Serialize`
succeeds if and only if Method is one of `NAT`, `DR`, `TUN`; on success the
node has exactly one forwarding-method leaf, the host-order 32-bit value `m`
with `m = 0` for `NAT`, `3` for `DR`, `2` for `TUN`, and masking `m` to the low
3 bits leaves it unchanged. -/
theorem destination_method_closure (native : ByteOrder) (d : DestinationEntry)
    (hip : ParseIP d.Address ≠ none) :
    ((∃ node, d.Serialize native = .ok node)
        ↔ (d.Method = str "NAT" ∨ d.Method = str "DR" ∨ d.Method = str "TUN"))
      ∧ ∀ node, d.Serialize native = .ok node →
        ∃ m, leavesOf node IPVS_DEST_ATTR_FWD_METHOD = [native.PutUint32 m]
          ∧ m &&& IP_VS_CONN_F_FWD_MASK = m
          ∧ (d.Method = str "NAT" → m = 0) ∧ (d.Method = str "DR" → m = 3)
          ∧ (d.Method = str "TUN" → m = 2) := by
  constructor
  · constructor
    · rintro ⟨node, h⟩
      obtain ⟨ip, -, hm, -⟩ := destinationSerialize_ok native d node h
      exact hm
    · intro hm
      obtain ⟨ip, hip1⟩ := Option.ne_none_iff_exists'.mp hip
      exact ⟨_, destinationSerialize_eq native d ip hip1 hm⟩
  · intro node h
    obtain ⟨ip, -, hm, rfl⟩ := destinationSerialize_ok native d node h
    refine ⟨methodNumber d.Method, ?_, ?_, ?_, ?_, ?_⟩
    · simp [leavesOf, destinationLeaves, Uint32Attr]
    · rcases hm with hm | hm | hm <;> rw [hm] <;> decide
    · intro hm1; rw [hm1]; decide
    · intro hm1; rw [hm1]; decide
    · intro hm1; rw [hm1]; decide

/-- Witness of `destination_method_closure`: the address `127.2.1.1` parses. -/
theorem destination_method_closure_witness :
    ParseIP directRouteDestination.Address ≠ none
      ∧ (((∃ node, directRouteDestination.Serialize .LittleEndian = .ok node)
        ↔ (directRouteDestination.Method = str "NAT" ∨ directRouteDestination.Method = str "DR"
          ∨ directRouteDestination.Method = str "TUN"))
      ∧ ∀ node, directRouteDestination.Serialize .LittleEndian = .ok node →
        ∃ m, leavesOf node IPVS_DEST_ATTR_FWD_METHOD = [ByteOrder.LittleEndian.PutUint32 m]
          ∧ m &&& IP_VS_CONN_F_FWD_MASK = m
          ∧ (directRouteDestination.Method = str "NAT" → m = 0)
          ∧ (directRouteDestination.Method = str "DR" → m = 3)
          ∧ (directRouteDestination.Method = str "TUN" → m = 2)) :=
  ⟨by decide, destination_method_closure .LittleEndian directRouteDestination (by decide)⟩

/-! ## Leaves of a serialized service (C8, C9) -/

/-- C8: for every ServiceEntry on which `Serialize` succeeds, if FWMark is
nonzero the SERVICE node has exactly one firewall-mark leaf, the host-order 32
bits of FWMark, and no protocol, address or port leaf; if FWMark is zero it has
exactly one protocol leaf, one address leaf and one port leaf and no
firewall-mark leaf. -/
theorem service_identification_mode (native : ByteOrder) (e : ServiceEntry) (node : RtAttr)
    (h : e.Serialize native = .ok node) :
    (e.FWMark ≠ 0 →
        leavesOf node IPVS_SVC_ATTR_FWMARK = [native.PutUint32 (uint32 e.FWMark)]
          ∧ leavesOf node IPVS_SVC_ATTR_PROTOCOL = []
          ∧ leavesOf node IPVS_SVC_ATTR_ADDR = []
          ∧ leavesOf node IPVS_SVC_ATTR_PORT = [])
      ∧ (e.FWMark = 0 →
        (leavesOf node IPVS_SVC_ATTR_PROTOCOL).length = 1
          ∧ (leavesOf node IPVS_SVC_ATTR_ADDR).length = 1
          ∧ (leavesOf node IPVS_SVC_ATTR_PORT).length = 1
          ∧ leavesOf node IPVS_SVC_ATTR_FWMARK = []) := by
  obtain ⟨ip, -, -, -, rfl⟩ := serviceSerialize_ok native e node h
  constructor
  · intro hf
    by_cases hpe : e.PEName = str "" <;>
      simp [leavesOf, serviceLeaves, hf, hpe, Uint32Attr]
  · intro hf
    by_cases hpe : e.PEName = str "" <;>
      simp [leavesOf, serviceLeaves, hf, hpe]

/-- Witness of `service_identification_mode`, on a service with a firewall mark. -/
theorem service_identification_mode_witness :
    firewallMarkService.Serialize .LittleEndian = .ok firewallMarkNode
      ∧ firewallMarkService.FWMark ≠ 0
      ∧ leavesOf firewallMarkNode IPVS_SVC_ATTR_FWMARK
          = [ByteOrder.LittleEndian.PutUint32 (uint32 firewallMarkService.FWMark)]
      ∧ leavesOf firewallMarkNode IPVS_SVC_ATTR_PROTOCOL = []
      ∧ leavesOf firewallMarkNode IPVS_SVC_ATTR_ADDR = []
      ∧ leavesOf firewallMarkNode IPVS_SVC_ATTR_PORT = [] :=
  ⟨by decide, by decide,
    (service_identification_mode .LittleEndian firewallMarkService firewallMarkNode
      (by decide)).1 (by decide)⟩

/-- C9: for every ServiceEntry on which `Serialize` succeeds, the SERVICE node
has exactly one scheduler-name leaf, SchedName followed by a NUL byte (also
when SchedName is empty); exactly one flags leaf of 8 bytes, the host-order 32
bits of Flags followed by four bytes `0xFF`; exactly one timeout leaf and one
netmask leaf, the host-order 32 bits of Timeout and Netmask; and a
persistence-engine-name leaf (PEName followed by a NUL byte) if and only if
PEName is non-empty. -/
theorem service_always_emitted_leaves (native : ByteOrder) (e : ServiceEntry) (node : RtAttr)
    (h : e.Serialize native = .ok node) :
    leavesOf node IPVS_SVC_ATTR_SCHED_NAME = [e.SchedName ++ [0]]
      ∧ leavesOf node IPVS_SVC_ATTR_FLAGS
          = [native.PutUint32 (uint32 e.Flags) ++ [255, 255, 255, 255]]
      ∧ (native.PutUint32 (uint32 e.Flags) ++ [255, 255, 255, 255]).length = 8
      ∧ leavesOf node IPVS_SVC_ATTR_TIMEOUT = [native.PutUint32 (uint32 e.Timeout)]
      ∧ (native.PutUint32 (uint32 e.Timeout)).length = 4
      ∧ leavesOf node IPVS_SVC_ATTR_NETMASK = [native.PutUint32 (uint32 e.Netmask)]
      ∧ (native.PutUint32 (uint32 e.Netmask)).length = 4
      ∧ (leavesOf node IPVS_SVC_ATTR_PE_NAME ≠ [] ↔ e.PEName ≠ str "")
      ∧ (e.PEName ≠ str "" → leavesOf node IPVS_SVC_ATTR_PE_NAME = [e.PEName ++ [0]]) := by
  obtain ⟨ip, -, -, -, rfl⟩ := serviceSerialize_ok native e node h
  have hmask : native.PutUint32 4294967295 = [255, 255, 255, 255] := by
    cases native <;> rfl
  have hlen : ∀ v, (native.PutUint32 v).length = 4 := by
    intro v; cases native <;> rfl
  by_cases hpe : e.PEName = str "" <;> by_cases hf : e.FWMark = 0 <;>
    simp [leavesOf, serviceLeaves, hf, hpe, Uint32Attr, ZeroTerminated, ipvsFlags.Serialize,
      hmask, hlen]

/-- Witness of `service_always_emitted_leaves`, on a service with a
persistence-engine name. -/
theorem service_always_emitted_leaves_witness :
    firewallMarkService.Serialize .LittleEndian = .ok firewallMarkNode
      ∧ leavesOf firewallMarkNode IPVS_SVC_ATTR_SCHED_NAME = [firewallMarkService.SchedName ++ [0]]
      ∧ leavesOf firewallMarkNode IPVS_SVC_ATTR_FLAGS
          = [ByteOrder.LittleEndian.PutUint32 (uint32 firewallMarkService.Flags)
              ++ [255, 255, 255, 255]]
      ∧ (ByteOrder.LittleEndian.PutUint32 (uint32 firewallMarkService.Flags)
          ++ [255, 255, 255, 255]).length = 8
      ∧ leavesOf firewallMarkNode IPVS_SVC_ATTR_TIMEOUT
          = [ByteOrder.LittleEndian.PutUint32 (uint32 firewallMarkService.Timeout)]
      ∧ (ByteOrder.LittleEndian.PutUint32 (uint32 firewallMarkService.Timeout)).length = 4
      ∧ leavesOf firewallMarkNode IPVS_SVC_ATTR_NETMASK
          = [ByteOrder.LittleEndian.PutUint32 (uint32 firewallMarkService.Netmask)]
      ∧ (ByteOrder.LittleEndian.PutUint32 (uint32 firewallMarkService.Netmask)).length = 4
      ∧ (leavesOf firewallMarkNode IPVS_SVC_ATTR_PE_NAME ≠ [] ↔ firewallMarkService.PEName ≠ str "")
      ∧ (firewallMarkService.PEName ≠ str "" →
          leavesOf firewallMarkNode IPVS_SVC_ATTR_PE_NAME = [firewallMarkService.PEName ++ [0]]) :=
  ⟨by decide,
    service_always_emitted_leaves .LittleEndian firewallMarkService firewallMarkNode (by decide)⟩

/-! ## Address family (C10) -/

/-- C10, counterexample: `::ffff:1.2.3.4` is a valid IP literal and not a
dotted quad, yet with FWMark = 0 the family leaf of the serialized service is
AF_INET (2) and the address leaf has the 4 bytes `1.2.3.4`, not 16 bytes. -/
theorem mapped_literal_is_serialized_as_ipv4 :
    parseIPv4Fields mappedAddressService.Address = none
      ∧ ParseIP mappedAddressService.Address
          = some [0, 0, 0, 0, 0, 0, 0, 0, 0, 0, 255, 255, 1, 2, 3, 4]
      ∧ mappedAddressService.FWMark = 0
      ∧ mappedAddressService.Serialize .LittleEndian
        = .ok ⟨IPVS_CMD_ATTR_SERVICE, [],
            [⟨IPVS_SVC_ATTR_AF, [AF_INET, 0]⟩, ⟨IPVS_SVC_ATTR_PORT, [0, 0]⟩,
              ⟨IPVS_SVC_ATTR_PROTOCOL, [6, 0]⟩, ⟨IPVS_SVC_ATTR_ADDR, [1, 2, 3, 4]⟩,
              ⟨IPVS_SVC_ATTR_SCHED_NAME, [0]⟩,
              ⟨IPVS_SVC_ATTR_FLAGS, [0, 0, 0, 0, 255, 255, 255, 255]⟩,
              ⟨IPVS_SVC_ATTR_TIMEOUT, [0, 0, 0, 0]⟩, ⟨IPVS_SVC_ATTR_NETMASK, [0, 0, 0, 0]⟩]⟩ := by
  decide

/-- C10, amended: for every ServiceEntry with FWMark = 0 that serializes
successfully, with `ip` the parsed Address (16 bytes): if `ip` has a 4-byte
form (`ip.To4()` is not nil, which holds for an IPv4 dotted-quad literal, whose
4-byte form is its 4 octets, and also for an IPv4-mapped IPv6 literal) the
family leaf is AF_INET (2) and the address leaf is exactly those 4 bytes;
otherwise the family leaf is AF_INET6 (10) and the address leaf is the 16
bytes of `ip`. The same 4-byte / 16-byte rule holds for the address leaf of
every DestinationEntry that serializes successfully. -/
theorem address_family_derivation (native : ByteOrder) (e : ServiceEntry)
    (d : DestinationEntry) (node dnode : RtAttr) :
    (e.FWMark = 0 → e.Serialize native = .ok node →
      ∃ ip, ParseIP e.Address = some ip ∧ ip.length = 16
        ∧ (∀ octets, parseIPv4Fields e.Address = some octets → To4 ip = some octets)
        ∧ (∀ ip4, To4 ip = some ip4 → ip4.length = 4
            ∧ leavesOf node IPVS_SVC_ATTR_AF = [native.PutUint16 AF_INET]
            ∧ leavesOf node IPVS_SVC_ATTR_ADDR = [ip4])
        ∧ (To4 ip = none →
            leavesOf node IPVS_SVC_ATTR_AF = [native.PutUint16 AF_INET6]
            ∧ leavesOf node IPVS_SVC_ATTR_ADDR = [ip]))
      ∧ (d.Serialize native = .ok dnode →
        ∃ ip, ParseIP d.Address = some ip ∧ ip.length = 16
          ∧ (∀ octets, parseIPv4Fields d.Address = some octets → To4 ip = some octets)
          ∧ (∀ ip4, To4 ip = some ip4 → ip4.length = 4
              ∧ leavesOf dnode IPVS_DEST_ATTR_ADDR = [ip4])
          ∧ (To4 ip = none → leavesOf dnode IPVS_DEST_ATTR_ADDR = [ip])) := by
  constructor
  · intro hf h
    obtain ⟨ip, hip, -, -, rfl⟩ := serviceSerialize_ok native e node h
    have hlen := ParseIP_length _ _ hip
    refine ⟨ip, hip, hlen, ?_, ?_, ?_⟩
    · intro octets ho
      rw [ParseIP_dotted _ _ ho] at hip
      cases hip
      exact To4_mapped _ (parseIPv4Fields_length _ _ ho)
    · intro ip4 h4
      refine ⟨To4_length _ _ hlen h4, ?_⟩
      by_cases hpe : e.PEName = str "" <;>
        simp [leavesOf, serviceLeaves, hf, hpe, h4, addressBytes, Uint16Attr]
    · intro h4
      by_cases hpe : e.PEName = str "" <;>
        simp [leavesOf, serviceLeaves, hf, hpe, h4, addressBytes, Uint16Attr]
  · intro h
    obtain ⟨ip, hip, -, rfl⟩ := destinationSerialize_ok native d dnode h
    have hlen := ParseIP_length _ _ hip
    refine ⟨ip, hip, hlen, ?_, ?_, ?_⟩
    · intro octets ho
      rw [ParseIP_dotted _ _ ho] at hip
      cases hip
      exact To4_mapped _ (parseIPv4Fields_length _ _ ho)
    · intro ip4 h4
      refine ⟨To4_length _ _ hlen h4, ?_⟩
      simp [leavesOf, destinationLeaves, h4, addressBytes]
    · intro h4
      simp [leavesOf, destinationLeaves, h4, addressBytes]

/-- Witness of `address_family_derivation`: an IPv6 service and an IPv4 destination. -/
theorem address_family_derivation_witness :
    (ipv6Service.FWMark = 0 ∧ ipv6Service.Serialize .LittleEndian = .ok ipv6ServiceNode
        ∧ directRouteDestination.Serialize .LittleEndian = .ok directRouteNode)
      ∧ (∃ ip, ParseIP ipv6Service.Address = some ip ∧ ip.length = 16
        ∧ (∀ octets, parseIPv4Fields ipv6Service.Address = some octets → To4 ip = some octets)
        ∧ (∀ ip4, To4 ip = some ip4 → ip4.length = 4
            ∧ leavesOf ipv6ServiceNode IPVS_SVC_ATTR_AF = [ByteOrder.LittleEndian.PutUint16 AF_INET]
            ∧ leavesOf ipv6ServiceNode IPVS_SVC_ATTR_ADDR = [ip4])
        ∧ (To4 ip = none →
            leavesOf ipv6ServiceNode IPVS_SVC_ATTR_AF = [ByteOrder.LittleEndian.PutUint16 AF_INET6]
            ∧ leavesOf ipv6ServiceNode IPVS_SVC_ATTR_ADDR = [ip]))
      ∧ (∃ ip, ParseIP directRouteDestination.Address = some ip ∧ ip.length = 16
          ∧ (∀ octets, parseIPv4Fields directRouteDestination.Address = some octets →
              To4 ip = some octets)
          ∧ (∀ ip4, To4 ip = some ip4 → ip4.length = 4
              ∧ leavesOf directRouteNode IPVS_DEST_ATTR_ADDR = [ip4])
          ∧ (To4 ip = none → leavesOf directRouteNode IPVS_DEST_ATTR_ADDR = [ip])) :=
  ⟨⟨by decide, by decide, by decide⟩,
    (address_family_derivation .LittleEndian ipv6Service directRouteDestination
      ipv6ServiceNode directRouteNode).1 (by decide) (by decide),
    (address_family_derivation .LittleEndian ipv6Service directRouteDestination
      ipv6ServiceNode directRouteNode).2 (by decide)⟩

/-! ## Wire layout (C11, C12, C13) -/

/-- C11: on either byte order, `Serialize` of the service `TCP`, `10.0.0.1`,
port 80, scheduler `wrr` succeeds, and its SERVICE node has exactly one family
leaf, the 2 host-order bytes of AF_INET; one protocol leaf, the host-order
value 6; one address leaf with the bytes `0A 00 00 01`; one port leaf with the
bytes `00 50`; and one scheduler leaf with the bytes `w`, `r`, `r`, `00`. -/
theorem scenario_service_encoding (native : ByteOrder) :
    ∃ node, scenarioService.Serialize native = .ok node
      ∧ node.Typ = IPVS_CMD_ATTR_SERVICE
      ∧ leavesOf node IPVS_SVC_ATTR_AF = [native.PutUint16 AF_INET]
      ∧ (native.PutUint16 AF_INET).length = 2
      ∧ leavesOf node IPVS_SVC_ATTR_PROTOCOL = [native.PutUint16 6]
      ∧ leavesOf node IPVS_SVC_ATTR_ADDR = [[0x0A, 0x00, 0x00, 0x01]]
      ∧ leavesOf node IPVS_SVC_ATTR_PORT = [[0x00, 0x50]]
      ∧ leavesOf node IPVS_SVC_ATTR_SCHED_NAME = [[119, 114, 114, 0]]
      ∧ str "wrr" ++ [0] = [119, 114, 114, 0] := by
  cases native <;> exact ⟨_, rfl, by decide⟩

theorem rtaAlignOf_ge (n : Nat) : n ≤ rtaAlignOf n ∧ rtaAlignOf n % 4 = 0 := by
  unfold rtaAlignOf
  omega

theorem rtaAlignOf_of_aligned (n : Nat) (h : n % 4 = 0) : rtaAlignOf n = n := by
  unfold rtaAlignOf
  omega

theorem rtAttrHeader_length (native : ByteOrder) (length typ : Nat) :
    (rtAttrHeader native length typ).length = 4 := by
  unfold rtAttrHeader
  cases native <;> split_ifs <;> rfl

theorem childSerialize_length (native : ByteOrder) (c : RtAttrChild) :
    (c.Serialize native).length = rtaAlignOf c.Len := by
  have := (rtaAlignOf_ge c.Len).1
  simp only [RtAttrChild.Serialize, List.length_append, rtAttrHeader_length,
    List.length_replicate]
  unfold RtAttrChild.Len at *
  simp only [SizeofRtAttr] at *
  omega

theorem childrenSerialize_length (native : ByteOrder) (cs : List RtAttrChild) :
    (cs.flatMap (RtAttrChild.Serialize native)).length
        = (cs.map (fun c => rtaAlignOf c.Len)).sum
      ∧ (cs.map (fun c => rtaAlignOf c.Len)).sum % 4 = 0 := by
  induction cs with
  | nil => simp
  | cons c cs ih =>
    have h1 := (rtaAlignOf_ge c.Len).2
    have h2 := ih.2
    refine ⟨?_, ?_⟩
    · simp only [List.flatMap_cons, List.length_append, childSerialize_length, List.map_cons,
        List.sum_cons, ih.1]
    · simp only [List.map_cons, List.sum_cons]
      omega

/-- The value of a serialized node without data of its own is the
concatenation of its serialized leaves. -/
theorem nodeSerialize_value (native : ByteOrder) (a : RtAttr) (hd : a.Data = [])
    (hc : a.children ≠ []) :
    (a.Serialize native).drop SizeofRtAttr = a.children.flatMap (RtAttrChild.Serialize native) := by
  obtain ⟨hlen, hmod⟩ := childrenSerialize_length native a.children
  have hne : a.children.length ≠ 0 := by
    intro h
    exact hc (List.length_eq_zero.mp h)
  have hLen : a.Len = (a.children.map (fun c => rtaAlignOf c.Len)).sum + 4 := by
    unfold RtAttr.Len
    rw [if_neg hne, hd]
    simp only [List.length_nil, Nat.add_zero, SizeofRtAttr]
    exact rtaAlignOf_of_aligned _ (by omega)
  have hal : rtaAlignOf a.Len = a.Len := rtaAlignOf_of_aligned _ (by omega)
  have hbody : rtaAlignOf a.Len - SizeofRtAttr
      = (a.children.flatMap (RtAttrChild.Serialize native)).length := by
    rw [hal, hLen, hlen]
    simp only [SizeofRtAttr]
    omega
  unfold RtAttr.Serialize
  rw [List.drop_left' (rtAttrHeader_length native a.Len a.Typ), hd, if_pos rfl,
    List.nil_append, hbody, List.take_left]

/-- C12, counterexample: in the SERVICE node of the service `TCP`, `10.0.0.1`,
port 80, scheduler `wrr`, the leaves come in the order family, port, protocol,
address, not family, protocol, address, port. -/
theorem service_leaves_port_comes_first :
    scenarioService.Serialize .LittleEndian = .ok scenarioNode
      ∧ scenarioNode.children.map (fun c => c.Typ)
        = [IPVS_SVC_ATTR_AF, IPVS_SVC_ATTR_PORT, IPVS_SVC_ATTR_PROTOCOL, IPVS_SVC_ATTR_ADDR,
            IPVS_SVC_ATTR_SCHED_NAME, IPVS_SVC_ATTR_FLAGS, IPVS_SVC_ATTR_TIMEOUT,
            IPVS_SVC_ATTR_NETMASK]
      ∧ scenarioNode.children.map (fun c => c.Typ)
        ≠ [IPVS_SVC_ATTR_AF, IPVS_SVC_ATTR_PROTOCOL, IPVS_SVC_ATTR_ADDR, IPVS_SVC_ATTR_PORT,
            IPVS_SVC_ATTR_SCHED_NAME, IPVS_SVC_ATTR_FLAGS, IPVS_SVC_ATTR_TIMEOUT,
            IPVS_SVC_ATTR_NETMASK] := by
  decide

/-- C12, amended: for every ServiceEntry that serializes successfully, the
result is a node of type SERVICE whose value is the concatenation of its
serialized leaves, in this order: address-family; then port, protocol and
address (when FWMark is 0) or firewall-mark (otherwise); then scheduler-name;
then the persistence-engine-name when PEName is non-empty; then flags, timeout,
netmask. -/
theorem service_wire_layout (native : ByteOrder) (e : ServiceEntry) (node : RtAttr)
    (h : e.Serialize native = .ok node) :
    node.Typ = IPVS_CMD_ATTR_SERVICE
      ∧ node.children.map (fun c => c.Typ)
        = [IPVS_SVC_ATTR_AF]
          ++ (if e.FWMark = 0 then
              [IPVS_SVC_ATTR_PORT, IPVS_SVC_ATTR_PROTOCOL, IPVS_SVC_ATTR_ADDR]
            else [IPVS_SVC_ATTR_FWMARK])
          ++ [IPVS_SVC_ATTR_SCHED_NAME]
          ++ (if e.PEName ≠ str "" then [IPVS_SVC_ATTR_PE_NAME] else [])
          ++ [IPVS_SVC_ATTR_FLAGS, IPVS_SVC_ATTR_TIMEOUT, IPVS_SVC_ATTR_NETMASK]
      ∧ (node.Serialize native).drop SizeofRtAttr
        = node.children.flatMap (RtAttrChild.Serialize native) := by
  obtain ⟨ip, -, -, -, rfl⟩ := serviceSerialize_ok native e node h
  refine ⟨rfl, ?_, ?_⟩
  · by_cases hf : e.FWMark = 0 <;> by_cases hpe : e.PEName = str "" <;>
      simp [serviceLeaves, hf, hpe]
  · apply nodeSerialize_value _ _ rfl
    simp [serviceLeaves]

/-- Witness of `service_wire_layout`: the service of the encoding scenario. -/
theorem service_wire_layout_witness :
    scenarioService.Serialize .LittleEndian = .ok scenarioNode
      ∧ (scenarioNode.Typ = IPVS_CMD_ATTR_SERVICE
        ∧ scenarioNode.children.map (fun c => c.Typ)
          = [IPVS_SVC_ATTR_AF]
            ++ (if scenarioService.FWMark = 0 then
                [IPVS_SVC_ATTR_PORT, IPVS_SVC_ATTR_PROTOCOL, IPVS_SVC_ATTR_ADDR]
              else [IPVS_SVC_ATTR_FWMARK])
            ++ [IPVS_SVC_ATTR_SCHED_NAME]
            ++ (if scenarioService.PEName ≠ str "" then [IPVS_SVC_ATTR_PE_NAME] else [])
            ++ [IPVS_SVC_ATTR_FLAGS, IPVS_SVC_ATTR_TIMEOUT, IPVS_SVC_ATTR_NETMASK]
        ∧ (scenarioNode.Serialize .LittleEndian).drop SizeofRtAttr
          = scenarioNode.children.flatMap (RtAttrChild.Serialize .LittleEndian)) :=
  ⟨by decide, service_wire_layout .LittleEndian scenarioService scenarioNode (by decide)⟩

/-- C13: for every DestinationEntry that serializes successfully, the result
is a node of type DEST with exactly six child leaves in this order: the
address (4 or 16 bytes), the port (2 bytes, big-endian), the forwarding method
(host-order `u32`: 0 for `NAT`, 3 for `DR`, 2 for `TUN`), the weight, the
upper threshold and the lower threshold (host-order `u32` each); the value of
the node is the concatenation of these serialized leaves. -/
theorem destination_wire_layout (native : ByteOrder) (d : DestinationEntry) (node : RtAttr)
    (h : d.Serialize native = .ok node) :
    node.Typ = IPVS_CMD_ATTR_DEST
      ∧ (∃ addr m, node.children
          = [⟨IPVS_DEST_ATTR_ADDR, addr⟩,
              ⟨IPVS_DEST_ATTR_PORT, [uint16 d.Port / 256 % 256, uint16 d.Port % 256]⟩,
              ⟨IPVS_DEST_ATTR_FWD_METHOD, native.PutUint32 m⟩,
              ⟨IPVS_DEST_ATTR_WEIGHT, native.PutUint32 (uint32 d.Weight)⟩,
              ⟨IPVS_DEST_ATTR_U_THRESH, native.PutUint32 (uint32 d.UpperThreshold)⟩,
              ⟨IPVS_DEST_ATTR_L_THRESH, native.PutUint32 (uint32 d.LowerThreshold)⟩]
        ∧ (addr.length = 4 ∨ addr.length = 16)
        ∧ (d.Method = str "NAT" → m = 0) ∧ (d.Method = str "DR" → m = 3)
        ∧ (d.Method = str "TUN" → m = 2))
      ∧ (∀ v, (native.PutUint32 v).length = 4)
      ∧ (node.Serialize native).drop SizeofRtAttr
        = node.children.flatMap (RtAttrChild.Serialize native) := by
  obtain ⟨ip, hip, hm, rfl⟩ := destinationSerialize_ok native d node h
  have hlen := ParseIP_length _ _ hip
  refine ⟨rfl, ⟨addressBytes ip, methodNumber d.Method, rfl, ?_, ?_, ?_, ?_⟩, ?_, ?_⟩
  · unfold addressBytes
    cases h4 : To4 ip with
    | none => exact Or.inr hlen
    | some ip4 => exact Or.inl (To4_length _ _ hlen h4)
  · intro hm1; rw [hm1]; decide
  · intro hm1; rw [hm1]; decide
  · intro hm1; rw [hm1]; decide
  · intro v; cases native <;> rfl
  · apply nodeSerialize_value _ _ rfl
    simp [destinationLeaves]

/-- Witness of `destination_wire_layout`: a destination of the package test. -/
theorem destination_wire_layout_witness :
    directRouteDestination.Serialize .LittleEndian = .ok directRouteNode
      ∧ (directRouteNode.Typ = IPVS_CMD_ATTR_DEST
        ∧ (∃ addr m, directRouteNode.children
            = [⟨IPVS_DEST_ATTR_ADDR, addr⟩,
                ⟨IPVS_DEST_ATTR_PORT,
                  [uint16 directRouteDestination.Port / 256 % 256,
                    uint16 directRouteDestination.Port % 256]⟩,
                ⟨IPVS_DEST_ATTR_FWD_METHOD, ByteOrder.LittleEndian.PutUint32 m⟩,
                ⟨IPVS_DEST_ATTR_WEIGHT,
                  ByteOrder.LittleEndian.PutUint32 (uint32 directRouteDestination.Weight)⟩,
                ⟨IPVS_DEST_ATTR_U_THRESH,
                  ByteOrder.LittleEndian.PutUint32
                    (uint32 directRouteDestination.UpperThreshold)⟩,
                ⟨IPVS_DEST_ATTR_L_THRESH,
                  ByteOrder.LittleEndian.PutUint32
                    (uint32 directRouteDestination.LowerThreshold)⟩]
          ∧ (addr.length = 4 ∨ addr.length = 16)
          ∧ (directRouteDestination.Method = str "NAT" → m = 0)
          ∧ (directRouteDestination.Method = str "DR" → m = 3)
          ∧ (directRouteDestination.Method = str "TUN" → m = 2))
        ∧ (∀ v, (ByteOrder.LittleEndian.PutUint32 v).length = 4)
        ∧ (directRouteNode.Serialize .LittleEndian).drop SizeofRtAttr
          = directRouteNode.children.flatMap (RtAttrChild.Serialize .LittleEndian)) :=
  ⟨by decide,
    destination_wire_layout .LittleEndian directRouteDestination directRouteNode (by decide)⟩

/-! ## Command builder (C14, C15) -/

/-- C14: for every command kind `sendRequest` handles and every service and
destination argument, supplied or not, where the entities supplied serialize
(to the nodes `snode` and `dnode`), the request handed to the transport
carries, after the command header: nothing for flush and for get-service; the
service item for get-destination and for new/set/del-service; the service item
followed by the destination item for new/set/del-destination; the item of an
argument is its node, and the nil value when the argument is not supplied; and
the dump flag is set for get-service and get-destination and for no other
command. With both entities supplied the requests are those of
`commandRequest`. -/
theorem sendRequest_command_table {σ : Type} (t : Transport σ) (native : ByteOrder)
    (h : IPVSHandler) (si : Option ServiceEntry) (di : Option DestinationEntry)
    (snode dnode : Option RtAttr) (w : σ)
    (hs : si.mapM (ServiceEntry.Serialize native) = .ok snode)
    (hd : di.mapM (DestinationEntry.Serialize native) = .ok dnode) :
    h.sendRequest t native IPVS_CMD_FLUSH si di w
        = t.Execute (requestWith h IPVS_CMD_FLUSH false []) w
      ∧ h.sendRequest t native IPVS_CMD_GET_SERVICE si di w
        = t.Execute (requestWith h IPVS_CMD_GET_SERVICE true []) w
      ∧ h.sendRequest t native IPVS_CMD_GET_DEST si di w
        = t.Execute (requestWith h IPVS_CMD_GET_DEST true [requestItem snode]) w
      ∧ h.sendRequest t native IPVS_CMD_NEW_SERVICE si di w
        = t.Execute (requestWith h IPVS_CMD_NEW_SERVICE false [requestItem snode]) w
      ∧ h.sendRequest t native IPVS_CMD_SET_SERVICE si di w
        = t.Execute (requestWith h IPVS_CMD_SET_SERVICE false [requestItem snode]) w
      ∧ h.sendRequest t native IPVS_CMD_DEL_SERVICE si di w
        = t.Execute (requestWith h IPVS_CMD_DEL_SERVICE false [requestItem snode]) w
      ∧ h.sendRequest t native IPVS_CMD_NEW_DEST si di w
        = t.Execute (requestWith h IPVS_CMD_NEW_DEST false
            [requestItem snode, requestItem dnode]) w
      ∧ h.sendRequest t native IPVS_CMD_SET_DEST si di w
        = t.Execute (requestWith h IPVS_CMD_SET_DEST false
            [requestItem snode, requestItem dnode]) w
      ∧ h.sendRequest t native IPVS_CMD_DEL_DEST si di w
        = t.Execute (requestWith h IPVS_CMD_DEL_DEST false
            [requestItem snode, requestItem dnode]) w
      ∧ (∀ cmd items, (requestWith h cmd true items).Flags &&& NLM_F_DUMP = NLM_F_DUMP)
      ∧ (∀ cmd items, (requestWith h cmd false items).Flags &&& NLM_F_DUMP = 0)
      ∧ (∀ cmd dump items, (requestWith h cmd dump items).Data
          = NetlinkRequestData.genlmsg cmd 1 :: items)
      ∧ (∀ cmd dump attrs,
          requestWith h cmd dump (attrs.map (fun node => requestItem (some node)))
            = commandRequest h cmd dump attrs) := by
  have hsa : (match si with
      | some si => (si.Serialize native).map NetlinkRequestData.rtattr
      | none => .ok NetlinkRequestData.nil) = .ok (requestItem snode) := by
    cases si with
    | none =>
      cases hs
      rfl
    | some s =>
      cases hser : s.Serialize native with
      | error e =>
        simp only [Option.mapM, hser, bind, Except.bind] at hs
        cases hs
      | ok node =>
        simp only [Option.mapM, hser, bind, Except.bind, pure, Except.pure] at hs
        cases hs
        change (s.Serialize native).map NetlinkRequestData.rtattr = _
        rw [hser]
        rfl
  have hda : (match di with
      | some di => (di.Serialize native).map NetlinkRequestData.rtattr
      | none => .ok NetlinkRequestData.nil) = .ok (requestItem dnode) := by
    cases di with
    | none =>
      cases hd
      rfl
    | some d =>
      cases hser : d.Serialize native with
      | error e =>
        simp only [Option.mapM, hser, bind, Except.bind] at hd
        cases hd
      | ok node =>
        simp only [Option.mapM, hser, bind, Except.bind, pure, Except.pure] at hd
        cases hd
        change (d.Serialize native).map NetlinkRequestData.rtattr = _
        rw [hser]
        rfl
  unfold IPVSHandler.sendRequest
  simp only [hsa, hda]
  refine ⟨rfl, rfl, rfl, rfl, rfl, rfl, rfl, rfl, rfl, ?_, ?_, ?_, ?_⟩
  · intro cmd items
    change (NLM_F_REQUEST ||| NLM_F_ACK ||| NLM_F_DUMP) &&& NLM_F_DUMP = NLM_F_DUMP
    decide
  · intro cmd items
    change (NLM_F_REQUEST ||| NLM_F_ACK) &&& NLM_F_DUMP = 0
    decide
  · intro cmd dump items
    rfl
  · intro cmd dump attrs
    rfl

/-- Witness of `sendRequest_command_table`: the calls of the package with the
service and a destination of the package test: flush, with no argument; new
service and get-destination, with the service alone; new destination, with
both. -/
theorem sendRequest_command_table_witness :
    (testService.Serialize .LittleEndian = .ok testServiceNode
        ∧ directRouteDestination.Serialize .LittleEndian = .ok directRouteNode)
      ∧ IPVSHandler.sendRequest oneDestinationTransport .LittleEndian ⟨24⟩ IPVS_CMD_FLUSH
          none none 0
        = oneDestinationTransport.Execute (requestWith ⟨24⟩ IPVS_CMD_FLUSH false []) 0
      ∧ IPVSHandler.sendRequest oneDestinationTransport .LittleEndian ⟨24⟩ IPVS_CMD_NEW_SERVICE
          (some testService) none 0
        = oneDestinationTransport.Execute
            (requestWith ⟨24⟩ IPVS_CMD_NEW_SERVICE false [.rtattr testServiceNode]) 0
      ∧ IPVSHandler.sendRequest oneDestinationTransport .LittleEndian ⟨24⟩ IPVS_CMD_GET_DEST
          (some testService) none 0
        = oneDestinationTransport.Execute
            (requestWith ⟨24⟩ IPVS_CMD_GET_DEST true [.rtattr testServiceNode]) 0
      ∧ IPVSHandler.sendRequest oneDestinationTransport .LittleEndian ⟨24⟩ IPVS_CMD_NEW_DEST
          (some testService) (some directRouteDestination) 0
        = oneDestinationTransport.Execute
            (commandRequest ⟨24⟩ IPVS_CMD_NEW_DEST false [testServiceNode, directRouteNode]) 0 :=
  ⟨⟨by decide, by decide⟩,
    (sendRequest_command_table oneDestinationTransport .LittleEndian ⟨24⟩ none none none none 0
      rfl rfl).1,
    (sendRequest_command_table oneDestinationTransport .LittleEndian ⟨24⟩ (some testService)
      none (some testServiceNode) none 0 (by decide) rfl).2.2.2.1,
    (sendRequest_command_table oneDestinationTransport .LittleEndian ⟨24⟩ (some testService)
      none (some testServiceNode) none 0 (by decide) rfl).2.2.1,
    (sendRequest_command_table oneDestinationTransport .LittleEndian ⟨24⟩ (some testService)
      (some directRouteDestination) (some testServiceNode) (some directRouteNode) 0
      (by decide) (by decide)).2.2.2.2.2.2.1⟩

/-- C15: for every command and every service and destination supplied, if
serializing the service fails then `sendRequest` returns that error, and if
the service (when supplied) serializes and serializing the destination fails
then `sendRequest` returns that error; in both cases the state of the
transport is the one before the call: no exchange took place. -/
theorem validation_precedes_transport {σ : Type} (t : Transport σ) (native : ByteOrder)
    (h : IPVSHandler) (cmd : Nat) (si : Option ServiceEntry) (di : Option DestinationEntry)
    (w : σ) (err : Err) :
    (∀ s, si = some s → s.Serialize native = .error err →
        h.sendRequest t native cmd si di w = (.error err, w))
      ∧ (∀ d, di = some d → d.Serialize native = .error err →
        (∀ s, si = some s → ∃ snode, s.Serialize native = .ok snode) →
        h.sendRequest t native cmd si di w = (.error err, w)) := by
  constructor
  · intro s hsi hs
    subst hsi
    unfold IPVSHandler.sendRequest
    simp only [hs]
    rfl
  · intro d hdi hd hsok
    subst hdi
    unfold IPVSHandler.sendRequest
    cases si with
    | none => simp only [hd]; rfl
    | some s =>
      obtain ⟨snode, hs⟩ := hsok s rfl
      simp only [hs, hd]
      rfl

/-- Witness of `validation_precedes_transport`, on a transport that counts its
calls: a service with an unknown scheduler, and a destination without method. -/
theorem validation_precedes_transport_witness :
    (unknownSchedulerService.Serialize .LittleEndian
          = .error (.notSupportScheduler (str "fifo"))
        ∧ IPVSHandler.sendRequest oneDestinationTransport .LittleEndian ⟨24⟩ IPVS_CMD_NEW_SERVICE
            (some unknownSchedulerService) none 0
          = (.error (.notSupportScheduler (str "fifo")), 0))
      ∧ (noMethodDestination.Serialize .LittleEndian = .error (.notSupportMethod (str ""))
        ∧ testService.Serialize .LittleEndian = .ok testServiceNode
        ∧ IPVSHandler.sendRequest oneDestinationTransport .LittleEndian ⟨24⟩ IPVS_CMD_NEW_DEST
            (some testService) (some noMethodDestination) 0
          = (.error (.notSupportMethod (str "")), 0)) :=
  ⟨⟨by decide,
      (validation_precedes_transport oneDestinationTransport .LittleEndian ⟨24⟩
        IPVS_CMD_NEW_SERVICE (some unknownSchedulerService) none 0
        (.notSupportScheduler (str "fifo"))).1 _ rfl (by decide)⟩,
    ⟨by decide, by decide,
      (validation_precedes_transport oneDestinationTransport .LittleEndian ⟨24⟩
        IPVS_CMD_NEW_DEST (some testService) (some noMethodDestination) 0
        (.notSupportMethod (str ""))).2 _ rfl (by decide)
        (fun s hs => ⟨testServiceNode, by cases hs; decide⟩)⟩⟩

/-! ## Listing (C16) -/

/-- C16, the code at the failing input: the reply holds two messages, the
second with a service record whose protocol leaf is 1; decoding it fails with
the unsupported-protocol error, yet `GetServices` returns the empty list with
no error. -/
theorem getServices_drops_decode_error :
    (parseGenlHeaders .LittleEndian [otherServiceMessage, unsupportedProtocolMessage]).bind
        (parseIPVSServiceMessage .LittleEndian) = .error (.notSupportProtocolValue 1)
      ∧ IPVSHandler.GetServices unsupportedProtocolTransport .LittleEndian ⟨24⟩ ()
        = (.ok [], ()) := by
  decide

/-! ## Unrecognized records (C20) -/

theorem serviceStep_unknown (native : ByteOrder) (acc : ServiceEntry × ByteSlice)
    (a : NetlinkRouteAttr) (h : a.Typ ∉ serviceTags) : serviceStep native acc a = .ok acc := by
  simp only [serviceTags, List.mem_cons, List.mem_singleton, List.not_mem_nil, or_false,
    not_or] at h
  obtain ⟨h1, h2, h3, h4, h5, h6, h7, h8, h9, h10⟩ := h
  simp only [serviceStep, if_neg h1, if_neg h2, if_neg h3, if_neg h4, if_neg h5, if_neg h6,
    if_neg h7, if_neg h8, if_neg h9, if_neg h10]
  rfl

theorem destinationStep_unknown (native : ByteOrder) (acc : DestinationEntry × ByteSlice)
    (a : NetlinkRouteAttr) (h : a.Typ ∉ destinationTags) :
    destinationStep native acc a = .ok acc := by
  simp only [destinationTags, List.mem_cons, List.mem_singleton, List.not_mem_nil, or_false,
    not_or] at h
  obtain ⟨h1, h2, h3, h4, h5, h6, h7, h8, h9, h10, h11⟩ := h
  simp only [destinationStep, if_neg h1, if_neg h2, if_neg h3, if_neg h4, if_neg h5,
    if_neg h6, if_neg h7, if_neg h8, if_neg h9, if_neg h10, if_neg h11]
  rfl

/-- A round of a loop that leaves the state as it is can be dropped. -/
theorem foldlM_insert_neutral {α β : Type} (step : β → α → Except Err β) (a : α)
    (ha : ∀ acc, step acc a = .ok acc) (pre post : List α) (init : β) :
    (pre ++ a :: post).foldlM step init = (pre ++ post).foldlM step init := by
  induction pre generalizing init with
  | nil => simp [List.foldlM, ha, bind, Except.bind]
  | cons x pre ih =>
    simp only [List.cons_append, List.foldlM_cons]
    cases step init x with
    | error e => rfl
    | ok acc => exact ih acc

/-- C20: for every list of service (respectively destination) attribute
records and every record whose type is not one `assembleServiceInterface`
(respectively `assembleDestinationInterface`) has a case for, inserting that
record at any position of the list leaves the result of the decoder unchanged,
whatever the value bytes of the record. -/
theorem unrecognized_records_are_ignored (native : ByteOrder) (pre post : List NetlinkRouteAttr)
    (a : NetlinkRouteAttr) :
    (a.Typ ∉ serviceTags →
        assembleServiceInterface native (pre ++ a :: post)
          = assembleServiceInterface native (pre ++ post))
      ∧ (a.Typ ∉ destinationTags →
        assembleDestinationInterface native (pre ++ a :: post)
          = assembleDestinationInterface native (pre ++ post)) := by
  constructor
  · intro h
    unfold assembleServiceInterface
    rw [foldlM_insert_neutral _ a (fun acc => serviceStep_unknown native acc a h)]
  · intro h
    unfold assembleDestinationInterface
    rw [foldlM_insert_neutral _ a (fun acc => destinationStep_unknown native acc a h)]

/-- Witness of `unrecognized_records_are_ignored`: a record of type
IPVS_SVC_ATTR_STATS64 inserted in the middle of a list. -/
theorem unrecognized_records_are_ignored_witness :
    (unknownRecord.Typ ∉ serviceTags ∧ unknownRecord.Typ ∉ destinationTags)
      ∧ assembleServiceInterface .LittleEndian
          (otherServiceRecords.take 2 ++ unknownRecord :: otherServiceRecords.drop 2)
        = assembleServiceInterface .LittleEndian
          (otherServiceRecords.take 2 ++ otherServiceRecords.drop 2)
      ∧ assembleDestinationInterface .LittleEndian
          (oneDestinationRecords.take 2 ++ unknownRecord :: oneDestinationRecords.drop 2)
        = assembleDestinationInterface .LittleEndian
          (oneDestinationRecords.take 2 ++ oneDestinationRecords.drop 2) :=
  ⟨⟨by decide, by decide⟩,
    (unrecognized_records_are_ignored .LittleEndian (otherServiceRecords.take 2)
      (otherServiceRecords.drop 2) unknownRecord).1 (by decide),
    (unrecognized_records_are_ignored .LittleEndian (oneDestinationRecords.take 2)
      (oneDestinationRecords.drop 2) unknownRecord).2 (by decide)⟩

/-! ## Reply order (C19) -/

/-- A loop that appends the result of `f` on each element collects the
results in order. -/
theorem foldlM_collect {α β : Type} (f : α → Except Err β)
    (step : List β → α → Except Err (List β))
    (hstep : ∀ acc a, step acc a = (f a).bind (fun b => .ok (acc ++ [b]))) :
    ∀ (l : List α) (acc : List β) (g : α → β), (∀ a ∈ l, f a = .ok (g a)) →
      l.foldlM step acc = .ok (acc ++ l.map g) := by
  intro l
  induction l with
  | nil => intro acc g _; simp [List.foldlM, pure, Except.pure]
  | cons a l ih =>
    intro acc g hg
    rw [List.foldlM_cons, hstep, hg a (List.mem_cons_self _ _)]
    simp only [Except.bind, bind]
    rw [ih (acc ++ [g a]) g (fun x hx => hg x (List.mem_cons_of_mem _ hx))]
    simp

/-- Such a loop stops with the error of the first element `f` fails on. -/
theorem foldlM_collect_error {α β : Type} (f : α → Except Err β)
    (step : List β → α → Except Err (List β))
    (hstep : ∀ acc a, step acc a = (f a).bind (fun b => .ok (acc ++ [b])))
    (pre post : List α) (m : α) (acc : List β) (g : α → β) (e : Err)
    (hpre : ∀ a ∈ pre, f a = .ok (g a)) (hm : f m = .error e) :
    (pre ++ m :: post).foldlM step acc = .error e := by
  rw [List.foldlM_append, foldlM_collect f step hstep pre acc g hpre]
  simp only [bind, Except.bind, List.foldlM_cons, hstep, hm]

theorem parseGenlHeaders_step (native : ByteOrder) (acc : List (List NetlinkRouteAttr))
    (msg : ByteSlice) :
    (do
      let body ← msg.sliceFrom SizeofGenlmsg
      let NetLinkAttrs ← ParseRouteAttr native body
      match NetLinkAttrs with
      | [] => throw Err.invalidNetlinkMessage
      | first :: _ => do
        let ipvsAttrs ← ParseRouteAttr native first.Value
        pure (acc ++ [ipvsAttrs]) : Except Err (List (List NetlinkRouteAttr)))
      = (nestedRecords native msg).bind (fun b => .ok (acc ++ [b])) := by
  unfold nestedRecords topLevelRecords
  cases msg.sliceFrom SizeofGenlmsg with
  | error e => rfl
  | ok body =>
    simp only [bind, Except.bind]
    cases ParseRouteAttr native body with
    | error e => rfl
    | ok tops =>
      cases tops with
      | nil => rfl
      | cons first rest => rfl

/-- C19: for every sequence of reply messages each of which parses and decodes
successfully (message `m` to the entity `f m`), `parseGenlHeaders` followed by
`parseIPVSServiceMessage` (respectively `parseIPVSDestinationMessage`) returns
the list of the `f m` in the order of the messages: exactly one entity per
message, the i-th being the decode of the records nested in the first
top-level record of the i-th message. And a message with zero top-level
records, after messages that parse, makes `parseGenlHeaders` fail with the
invalid-message error. -/
theorem reply_order_is_preserved (native : ByteOrder) (msgs : List ByteSlice) :
    (∀ f : ByteSlice → ServiceEntry,
        (∀ m ∈ msgs, (nestedRecords native m).bind (assembleServiceInterface native)
          = .ok (f m)) →
        (parseGenlHeaders native msgs).bind (parseIPVSServiceMessage native)
          = .ok (msgs.map f))
      ∧ (∀ f : ByteSlice → DestinationEntry,
        (∀ m ∈ msgs, (nestedRecords native m).bind (assembleDestinationInterface native)
          = .ok (f m)) →
        (parseGenlHeaders native msgs).bind (parseIPVSDestinationMessage native)
          = .ok (msgs.map f))
      ∧ (∀ pre m post, msgs = pre ++ m :: post →
        (∀ x ∈ pre, ∃ records, nestedRecords native x = .ok records) →
        topLevelRecords native m = .ok [] →
        parseGenlHeaders native msgs = .error .invalidNetlinkMessage) := by
  let g : ByteSlice → List NetlinkRouteAttr := fun m =>
    match nestedRecords native m with
    | .ok records => records
    | .error _ => []
  have hg : ∀ l : List ByteSlice, (∀ x ∈ l, ∃ records, nestedRecords native x = .ok records) →
      ∀ x ∈ l, nestedRecords native x = .ok (g x) := by
    intro l hl x hx
    obtain ⟨records, hr⟩ := hl x hx
    simp only [g, hr]
  refine ⟨?_, ?_, ?_⟩
  · intro f hf
    have hn : ∀ x ∈ msgs, ∃ records, nestedRecords native x = .ok records := by
      intro x hx
      have := hf x hx
      cases hr : nestedRecords native x with
      | error e => rw [hr] at this; cases this
      | ok records => exact ⟨records, rfl⟩
    have h1 : parseGenlHeaders native msgs = .ok (msgs.map g) := by
      unfold parseGenlHeaders
      rw [foldlM_collect (nestedRecords native) _ (parseGenlHeaders_step native) msgs [] g
        (hg msgs hn)]
      rfl
    rw [h1]
    change parseIPVSServiceMessage native (msgs.map g) = _
    unfold parseIPVSServiceMessage
    have hk : ∀ a ∈ msgs, assembleServiceInterface native (g a) = .ok (f a) := by
      intro a ha
      have := hf a ha
      rw [hg msgs hn a ha] at this
      exact this
    rw [List.foldlM_map]
    refine foldlM_collect (fun m => assembleServiceInterface native (g m)) _ ?_ msgs [] f hk
    intro _ _
    rfl
  · intro f hf
    have hn : ∀ x ∈ msgs, ∃ records, nestedRecords native x = .ok records := by
      intro x hx
      have := hf x hx
      cases hr : nestedRecords native x with
      | error e => rw [hr] at this; cases this
      | ok records => exact ⟨records, rfl⟩
    have h1 : parseGenlHeaders native msgs = .ok (msgs.map g) := by
      unfold parseGenlHeaders
      rw [foldlM_collect (nestedRecords native) _ (parseGenlHeaders_step native) msgs [] g
        (hg msgs hn)]
      rfl
    rw [h1]
    change parseIPVSDestinationMessage native (msgs.map g) = _
    unfold parseIPVSDestinationMessage
    have hk : ∀ a ∈ msgs, assembleDestinationInterface native (g a) = .ok (f a) := by
      intro a ha
      have := hf a ha
      rw [hg msgs hn a ha] at this
      exact this
    rw [List.foldlM_map]
    refine foldlM_collect (fun m => assembleDestinationInterface native (g m)) _ ?_ msgs [] f hk
    intro _ _
    rfl
  · intro pre m post hmsgs hpre hm
    subst hmsgs
    unfold parseGenlHeaders
    apply foldlM_collect_error (nestedRecords native) _ (parseGenlHeaders_step native)
      pre post m [] g _ (hg pre hpre)
    unfold nestedRecords
    rw [hm]
    rfl

/-- Witness of `reply_order_is_preserved`: two service messages, two
destination messages, and a message without top-level record after a message
that parses. -/
theorem reply_order_is_preserved_witness :
    ((∀ m ∈ [otherServiceMessage, testServiceMessage],
          (nestedRecords .LittleEndian m).bind (assembleServiceInterface .LittleEndian)
            = .ok (if m = otherServiceMessage then otherService else decodedTestService))
        ∧ (parseGenlHeaders .LittleEndian [otherServiceMessage, testServiceMessage]).bind
            (parseIPVSServiceMessage .LittleEndian)
          = .ok ([otherServiceMessage, testServiceMessage].map
              (fun m => if m = otherServiceMessage then otherService else decodedTestService)))
      ∧ ((∀ m ∈ [secondDestinationMessage, oneDestinationMessage],
          (nestedRecords .LittleEndian m).bind (assembleDestinationInterface .LittleEndian)
            = .ok (if m = oneDestinationMessage then decodedDestination
              else secondDestination))
        ∧ (parseGenlHeaders .LittleEndian [secondDestinationMessage, oneDestinationMessage]).bind
            (parseIPVSDestinationMessage .LittleEndian)
          = .ok ([secondDestinationMessage, oneDestinationMessage].map
              (fun m => if m = oneDestinationMessage then decodedDestination
                else secondDestination)))
      ∧ (topLevelRecords .LittleEndian headerOnlyMessage = .ok []
        ∧ parseGenlHeaders .LittleEndian [otherServiceMessage, headerOnlyMessage]
          = .error .invalidNetlinkMessage) :=
  ⟨⟨by decide,
      (reply_order_is_preserved .LittleEndian [otherServiceMessage, testServiceMessage]).1
        (fun m => if m = otherServiceMessage then otherService else decodedTestService)
        (by decide)⟩,
    ⟨by decide,
      (reply_order_is_preserved .LittleEndian
          [secondDestinationMessage, oneDestinationMessage]).2.1
        (fun m => if m = oneDestinationMessage then decodedDestination
          else secondDestination)
        (by decide)⟩,
    ⟨by decide,
      (reply_order_is_preserved .LittleEndian [otherServiceMessage, headerOnlyMessage]).2.2
        [otherServiceMessage] headerOnlyMessage [] rfl
        (fun x hx => by
          rw [List.mem_singleton] at hx
          subst hx
          exact ⟨_, rfl⟩)
        (by decide)⟩⟩

/-! ## Decoding well-formed records -/

theorem Uint16_ok (o : ByteOrder) (b : List Nat) (h : 2 ≤ b.length) :
    ∃ v, o.Uint16 b = .ok v := by
  match b, h with
  | b0 :: b1 :: rest, _ => cases o <;> exact ⟨_, rfl⟩

theorem Uint32_ok (o : ByteOrder) (b : List Nat) (h : 4 ≤ b.length) :
    ∃ v, o.Uint32 b = .ok v := by
  match b, h with
  | b0 :: b1 :: b2 :: b3 :: rest, _ => cases o <;> exact ⟨_, rfl⟩

theorem Uint64_ok (o : ByteOrder) (b : List Nat) (h : 8 ≤ b.length) :
    ∃ v, o.Uint64 b = .ok v := by
  match b, h with
  | b0 :: b1 :: b2 :: b3 :: b4 :: b5 :: b6 :: b7 :: rest, _ => cases o <;> exact ⟨_, rfl⟩

theorem indexNul_of_mem (b : List Nat) (h : 0 ∈ b) : ∃ n, indexNul b = some n := by
  induction b with
  | nil => cases h
  | cons c rest ih =>
    by_cases hc : c = 0
    · exact ⟨0, by simp [indexNul, hc]⟩
    · have hr : 0 ∈ rest := by
        rcases List.mem_cons.mp h with h | h
        · exact absurd h.symm hc
        · exact h
      obtain ⟨n, hn⟩ := ih hr
      exact ⟨n + 1, by simp [indexNul, hc, hn]⟩

theorem BytesToString_ok (b : List Nat) (h : 0 ∈ b) : ∃ s, BytesToString b = .ok s := by
  obtain ⟨n, hn⟩ := indexNul_of_mem b h
  exact ⟨b.take n, by simp [BytesToString, hn]⟩

theorem statsStep_ok (native : ByteOrder) (s : Stats) (a : NetlinkRouteAttr)
    (h : statsLeafOk a) : ∃ s1, statsStep native s a = .ok s1 := by
  obtain ⟨h4, h8⟩ := h
  unfold statsStep
  by_cases t0 : a.Typ = IPVS_STATS_ATTR_CONNS
  · rw [if_pos t0]
    obtain ⟨v, hv⟩ := Uint32_ok native a.Value.elems (h4 (by simp [t0]))
    rw [hv]
    exact ⟨_, rfl⟩
  rw [if_neg t0]
  by_cases t1 : a.Typ = IPVS_STATS_ATTR_INPKTS
  · rw [if_pos t1]
    obtain ⟨v, hv⟩ := Uint32_ok native a.Value.elems (h4 (by simp [t1]))
    rw [hv]
    exact ⟨_, rfl⟩
  rw [if_neg t1]
  by_cases t2 : a.Typ = IPVS_STATS_ATTR_OUTPKTS
  · rw [if_pos t2]
    obtain ⟨v, hv⟩ := Uint32_ok native a.Value.elems (h4 (by simp [t2]))
    rw [hv]
    exact ⟨_, rfl⟩
  rw [if_neg t2]
  by_cases t3 : a.Typ = IPVS_STATS_ATTR_INBYTES
  · rw [if_pos t3]
    obtain ⟨v, hv⟩ := Uint64_ok native a.Value.elems (h8 (by simp [t3]))
    rw [hv]
    exact ⟨_, rfl⟩
  rw [if_neg t3]
  by_cases t4 : a.Typ = IPVS_STATS_ATTR_OUTBYTES
  · rw [if_pos t4]
    obtain ⟨v, hv⟩ := Uint64_ok native a.Value.elems (h8 (by simp [t4]))
    rw [hv]
    exact ⟨_, rfl⟩
  rw [if_neg t4]
  by_cases t5 : a.Typ = IPVS_STATS_ATTR_CPS
  · rw [if_pos t5]
    obtain ⟨v, hv⟩ := Uint32_ok native a.Value.elems (h4 (by simp [t5]))
    rw [hv]
    exact ⟨_, rfl⟩
  rw [if_neg t5]
  by_cases t6 : a.Typ = IPVS_STATS_ATTR_INPPS
  · rw [if_pos t6]
    obtain ⟨v, hv⟩ := Uint32_ok native a.Value.elems (h4 (by simp [t6]))
    rw [hv]
    exact ⟨_, rfl⟩
  rw [if_neg t6]
  by_cases t7 : a.Typ = IPVS_STATS_ATTR_OUTPPS
  · rw [if_pos t7]
    obtain ⟨v, hv⟩ := Uint32_ok native a.Value.elems (h4 (by simp [t7]))
    rw [hv]
    exact ⟨_, rfl⟩
  rw [if_neg t7]
  by_cases t8 : a.Typ = IPVS_STATS_ATTR_INBPS
  · rw [if_pos t8]
    obtain ⟨v, hv⟩ := Uint32_ok native a.Value.elems (h4 (by simp [t8]))
    rw [hv]
    exact ⟨_, rfl⟩
  rw [if_neg t8]
  by_cases t9 : a.Typ = IPVS_STATS_ATTR_OUTBPS
  · rw [if_pos t9]
    obtain ⟨v, hv⟩ := Uint32_ok native a.Value.elems (h4 (by simp [t9]))
    rw [hv]
    exact ⟨_, rfl⟩
  rw [if_neg t9]
  exact ⟨_, rfl⟩

theorem statsLoop_ok (native : ByteOrder) : ∀ (leaves : List NetlinkRouteAttr) (s : Stats),
    (∀ b ∈ leaves, statsLeafOk b) → ∃ s1, leaves.foldlM (statsStep native) s = .ok s1 := by
  intro leaves
  induction leaves with
  | nil => intro s _; exact ⟨s, rfl⟩
  | cons a leaves ih =>
    intro s h
    obtain ⟨s1, hs1⟩ := statsStep_ok native s a (h a (List.mem_cons_self _ _))
    obtain ⟨s2, hs2⟩ := ih s1 (fun b hb => h b (List.mem_cons_of_mem _ hb))
    exact ⟨s2, by simp only [List.foldlM_cons, hs1, bind, Except.bind, hs2]⟩

theorem assembleStats_no_panic (native : ByteOrder) (v : ByteSlice)
    (h : statsBlobOk native v) : assembleStats native v ≠ .error .panic := by
  unfold assembleStats
  unfold statsBlobOk at h
  cases hp : ParseRouteAttr native v with
  | error e =>
    rw [hp] at h
    simp only [bind, Except.bind]
    intro hc
    cases hc
    exact h rfl
  | ok leaves =>
    rw [hp] at h
    obtain ⟨s1, hs1⟩ := statsLoop_ok native leaves {} h
    simp only [bind, Except.bind, hs1]
    intro hc
    cases hc

theorem serviceStep_no_panic (native : ByteOrder) (acc : ServiceEntry × ByteSlice)
    (a : NetlinkRouteAttr) (h : serviceLeafOk native a) : serviceStep native acc a ≠ .error .panic := by
  obtain ⟨h2, h4, hs, hst⟩ := h
  unfold serviceStep
  by_cases t0 : a.Typ = IPVS_SVC_ATTR_AF
  · rw [if_pos t0]
    obtain ⟨v, hv⟩ := Uint16_ok native a.Value.elems (h2 (by simp [t0]))
    rw [hv]
    intro hc
    simp only [bind, Except.bind, pure, Except.pure, throw, throwThe, MonadExceptOf.throw] at hc
    split_ifs at hc
  rw [if_neg t0]
  by_cases t1 : a.Typ = IPVS_SVC_ATTR_PROTOCOL
  · rw [if_pos t1]
    obtain ⟨v, hv⟩ := Uint16_ok native a.Value.elems (h2 (by simp [t1]))
    rw [hv]
    intro hc
    simp only [bind, Except.bind, pure, Except.pure, throw, throwThe, MonadExceptOf.throw] at hc
    split_ifs at hc
    cases hc
  rw [if_neg t1]
  by_cases t2 : a.Typ = IPVS_SVC_ATTR_ADDR
  · rw [if_pos t2]
    intro hc
    cases hc
  rw [if_neg t2]
  by_cases t3 : a.Typ = IPVS_SVC_ATTR_PORT
  · rw [if_pos t3]
    obtain ⟨v, hv⟩ := Uint16_ok .BigEndian a.Value.elems (h2 (by simp [t3]))
    rw [hv]
    intro hc
    simp only [bind, Except.bind, pure, Except.pure, throw, throwThe, MonadExceptOf.throw] at hc
    cases hc
  rw [if_neg t3]
  by_cases t4 : a.Typ = IPVS_SVC_ATTR_FWMARK
  · rw [if_pos t4]
    obtain ⟨v, hv⟩ := Uint32_ok native a.Value.elems (h4 (by simp [t4]))
    rw [hv]
    intro hc
    simp only [bind, Except.bind, pure, Except.pure, throw, throwThe, MonadExceptOf.throw] at hc
    cases hc
  rw [if_neg t4]
  by_cases t5 : a.Typ = IPVS_SVC_ATTR_SCHED_NAME
  · rw [if_pos t5]
    obtain ⟨v, hv⟩ := BytesToString_ok a.Value.elems (hs t5)
    rw [hv]
    intro hc
    cases hc
  rw [if_neg t5]
  by_cases t6 : a.Typ = IPVS_SVC_ATTR_FLAGS
  · rw [if_pos t6]
    obtain ⟨v, hv⟩ := Uint32_ok native a.Value.elems (h4 (by simp [t6]))
    rw [hv]
    intro hc
    simp only [bind, Except.bind, pure, Except.pure, throw, throwThe, MonadExceptOf.throw] at hc
    cases hc
  rw [if_neg t6]
  by_cases t7 : a.Typ = IPVS_SVC_ATTR_TIMEOUT
  · rw [if_pos t7]
    obtain ⟨v, hv⟩ := Uint32_ok native a.Value.elems (h4 (by simp [t7]))
    rw [hv]
    intro hc
    simp only [bind, Except.bind, pure, Except.pure, throw, throwThe, MonadExceptOf.throw] at hc
    cases hc
  rw [if_neg t7]
  by_cases t8 : a.Typ = IPVS_SVC_ATTR_NETMASK
  · rw [if_pos t8]
    obtain ⟨v, hv⟩ := Uint32_ok native a.Value.elems (h4 (by simp [t8]))
    rw [hv]
    intro hc
    simp only [bind, Except.bind, pure, Except.pure, throw, throwThe, MonadExceptOf.throw] at hc
    cases hc
  rw [if_neg t8]
  by_cases t9 : a.Typ = IPVS_SVC_ATTR_STATS
  · rw [if_pos t9]
    have hns := assembleStats_no_panic native a.Value (hst t9)
    cases hr : assembleStats native a.Value with
    | error e =>
      intro hc
      simp only [bind, Except.bind] at hc
      cases hc
      exact hns hr
    | ok stats =>
      intro hc
      cases hc
  rw [if_neg t9]
  intro hc
  cases hc

theorem destinationStep_no_panic (native : ByteOrder) (acc : DestinationEntry × ByteSlice)
    (a : NetlinkRouteAttr) (h : destinationLeafOk native a) : destinationStep native acc a ≠ .error .panic := by
  obtain ⟨h2, h4, hst⟩ := h
  unfold destinationStep
  by_cases t0 : a.Typ = IPVS_DEST_ATTR_PORT
  · rw [if_pos t0]
    obtain ⟨v, hv⟩ := Uint16_ok .BigEndian a.Value.elems (h2 (by simp [t0]))
    rw [hv]
    intro hc
    simp only [bind, Except.bind, pure, Except.pure, throw, throwThe, MonadExceptOf.throw] at hc
    cases hc
  rw [if_neg t0]
  by_cases t1 : a.Typ = IPVS_DEST_ATTR_FWD_METHOD
  · rw [if_pos t1]
    obtain ⟨v, hv⟩ := Uint32_ok native a.Value.elems (h4 (by simp [t1]))
    rw [hv]
    intro hc
    simp only [bind, Except.bind, pure, Except.pure, throw, throwThe, MonadExceptOf.throw] at hc
    split_ifs at hc
    cases hc
  rw [if_neg t1]
  by_cases t2 : a.Typ = IPVS_DEST_ATTR_WEIGHT
  · rw [if_pos t2]
    obtain ⟨v, hv⟩ := Uint16_ok native a.Value.elems (h2 (by simp [t2]))
    rw [hv]
    intro hc
    simp only [bind, Except.bind, pure, Except.pure, throw, throwThe, MonadExceptOf.throw] at hc
    cases hc
  rw [if_neg t2]
  by_cases t3 : a.Typ = IPVS_DEST_ATTR_U_THRESH
  · rw [if_pos t3]
    obtain ⟨v, hv⟩ := Uint32_ok native a.Value.elems (h4 (by simp [t3]))
    rw [hv]
    intro hc
    simp only [bind, Except.bind, pure, Except.pure, throw, throwThe, MonadExceptOf.throw] at hc
    cases hc
  rw [if_neg t3]
  by_cases t4 : a.Typ = IPVS_DEST_ATTR_L_THRESH
  · rw [if_pos t4]
    obtain ⟨v, hv⟩ := Uint32_ok native a.Value.elems (h4 (by simp [t4]))
    rw [hv]
    intro hc
    simp only [bind, Except.bind, pure, Except.pure, throw, throwThe, MonadExceptOf.throw] at hc
    cases hc
  rw [if_neg t4]
  by_cases t5 : a.Typ = IPVS_DEST_ATTR_ACTIVE_CONNS
  · rw [if_pos t5]
    obtain ⟨v, hv⟩ := Uint32_ok native a.Value.elems (h4 (by simp [t5]))
    rw [hv]
    intro hc
    simp only [bind, Except.bind, pure, Except.pure, throw, throwThe, MonadExceptOf.throw] at hc
    cases hc
  rw [if_neg t5]
  by_cases t6 : a.Typ = IPVS_DEST_ATTR_INACT_CONNS
  · rw [if_pos t6]
    obtain ⟨v, hv⟩ := Uint32_ok native a.Value.elems (h4 (by simp [t6]))
    rw [hv]
    intro hc
    simp only [bind, Except.bind, pure, Except.pure, throw, throwThe, MonadExceptOf.throw] at hc
    cases hc
  rw [if_neg t6]
  by_cases t7 : a.Typ = IPVS_DEST_ATTR_PERSIST_CONNS
  · rw [if_pos t7]
    obtain ⟨v, hv⟩ := Uint32_ok native a.Value.elems (h4 (by simp [t7]))
    rw [hv]
    intro hc
    simp only [bind, Except.bind, pure, Except.pure, throw, throwThe, MonadExceptOf.throw] at hc
    cases hc
  rw [if_neg t7]
  by_cases t8 : a.Typ = IPVS_DEST_ATTR_ADDR_FAMILY
  · rw [if_pos t8]
    obtain ⟨v, hv⟩ := Uint16_ok native a.Value.elems (h2 (by simp [t8]))
    rw [hv]
    intro hc
    simp only [bind, Except.bind, pure, Except.pure, throw, throwThe, MonadExceptOf.throw] at hc
    split_ifs at hc
  rw [if_neg t8]
  by_cases t9 : a.Typ = IPVS_DEST_ATTR_ADDR
  · rw [if_pos t9]
    intro hc
    cases hc
  rw [if_neg t9]
  by_cases t10 : a.Typ = IPVS_SVC_ATTR_STATS
  · rw [if_pos t10]
    have hns := assembleStats_no_panic native a.Value (hst t10)
    cases hr : assembleStats native a.Value with
    | error e =>
      intro hc
      simp only [bind, Except.bind] at hc
      cases hc
      exact hns hr
    | ok stats =>
      intro hc
      cases hc
  rw [if_neg t10]
  intro hc
  cases hc

theorem serviceStep_ok_shape (native : ByteOrder) (acc acc1 : ServiceEntry × ByteSlice)
    (a : NetlinkRouteAttr) (h : serviceStep native acc a = .ok acc1) :
    acc1.2 = (if a.Typ = IPVS_SVC_ATTR_ADDR then a.Value else acc.2)
      ∧ (acc1.1.AddressFamily = acc.1.AddressFamily
        ∨ (a.Typ = IPVS_SVC_ATTR_AF
          ∧ ((native.Uint16 a.Value.elems = .ok AF_INET ∧ acc1.1.AddressFamily = str "IPv4")
            ∨ (native.Uint16 a.Value.elems = .ok AF_INET6
              ∧ acc1.1.AddressFamily = str "IPv6")))) := by
  unfold serviceStep at h
  by_cases t0 : a.Typ = IPVS_SVC_ATTR_AF
  · rw [if_pos t0] at h
    cases hu : native.Uint16 a.Value.elems with
    | error e =>
      rw [hu] at h
      cases h
    | ok v =>
      rw [hu] at h
      simp only [bind, Except.bind, pure, Except.pure, throw, throwThe, MonadExceptOf.throw] at h
      split_ifs at h <;> (cases h; simp_all)
  rw [if_neg t0] at h
  by_cases t1 : a.Typ = IPVS_SVC_ATTR_PROTOCOL
  · rw [if_pos t1] at h
    cases hu : native.Uint16 a.Value.elems with
    | error e =>
      rw [hu] at h
      cases h
    | ok v =>
      rw [hu] at h
      simp only [bind, Except.bind, pure, Except.pure, throw, throwThe, MonadExceptOf.throw] at h
      split_ifs at h <;> (cases h; simp_all)
  rw [if_neg t1] at h
  by_cases t2 : a.Typ = IPVS_SVC_ATTR_ADDR
  · rw [if_pos t2] at h
    cases h
    simp [t2]
  rw [if_neg t2] at h
  by_cases t3 : a.Typ = IPVS_SVC_ATTR_PORT
  · rw [if_pos t3] at h
    cases hu : ByteOrder.BigEndian.Uint16 a.Value.elems with
    | error e =>
      rw [hu] at h
      cases h
    | ok v =>
      rw [hu] at h
      simp only [bind, Except.bind, pure, Except.pure, throw, throwThe, MonadExceptOf.throw] at h
      cases h
      simp_all
  rw [if_neg t3] at h
  by_cases t4 : a.Typ = IPVS_SVC_ATTR_FWMARK
  · rw [if_pos t4] at h
    cases hu : native.Uint32 a.Value.elems with
    | error e =>
      rw [hu] at h
      cases h
    | ok v =>
      rw [hu] at h
      simp only [bind, Except.bind, pure, Except.pure, throw, throwThe, MonadExceptOf.throw] at h
      cases h
      simp_all
  rw [if_neg t4] at h
  by_cases t5 : a.Typ = IPVS_SVC_ATTR_SCHED_NAME
  · rw [if_pos t5] at h
    cases hu : BytesToString a.Value.elems with
    | error e =>
      rw [hu] at h
      cases h
    | ok v =>
      rw [hu] at h
      simp only [bind, Except.bind, pure, Except.pure, throw, throwThe, MonadExceptOf.throw] at h
      cases h
      simp_all
  rw [if_neg t5] at h
  by_cases t6 : a.Typ = IPVS_SVC_ATTR_FLAGS
  · rw [if_pos t6] at h
    cases hu : native.Uint32 a.Value.elems with
    | error e =>
      rw [hu] at h
      cases h
    | ok v =>
      rw [hu] at h
      simp only [bind, Except.bind, pure, Except.pure, throw, throwThe, MonadExceptOf.throw] at h
      cases h
      simp_all
  rw [if_neg t6] at h
  by_cases t7 : a.Typ = IPVS_SVC_ATTR_TIMEOUT
  · rw [if_pos t7] at h
    cases hu : native.Uint32 a.Value.elems with
    | error e =>
      rw [hu] at h
      cases h
    | ok v =>
      rw [hu] at h
      simp only [bind, Except.bind, pure, Except.pure, throw, throwThe, MonadExceptOf.throw] at h
      cases h
      simp_all
  rw [if_neg t7] at h
  by_cases t8 : a.Typ = IPVS_SVC_ATTR_NETMASK
  · rw [if_pos t8] at h
    cases hu : native.Uint32 a.Value.elems with
    | error e =>
      rw [hu] at h
      cases h
    | ok v =>
      rw [hu] at h
      simp only [bind, Except.bind, pure, Except.pure, throw, throwThe, MonadExceptOf.throw] at h
      cases h
      simp_all
  rw [if_neg t8] at h
  by_cases t9 : a.Typ = IPVS_SVC_ATTR_STATS
  · rw [if_pos t9] at h
    cases hu : assembleStats native a.Value with
    | error e =>
      rw [hu] at h
      cases h
    | ok v =>
      rw [hu] at h
      simp only [bind, Except.bind, pure, Except.pure, throw, throwThe, MonadExceptOf.throw] at h
      cases h
      simp_all
  rw [if_neg t9] at h
  cases h
  simp [*]

theorem destinationStep_ok_shape (native : ByteOrder) (acc acc1 : DestinationEntry × ByteSlice)
    (a : NetlinkRouteAttr) (h : destinationStep native acc a = .ok acc1) :
    acc1.2 = (if a.Typ = IPVS_DEST_ATTR_ADDR then a.Value else acc.2)
      ∧ (acc1.1.AddressFamily = acc.1.AddressFamily
        ∨ (a.Typ = IPVS_DEST_ATTR_ADDR_FAMILY
          ∧ ((native.Uint16 a.Value.elems = .ok AF_INET ∧ acc1.1.AddressFamily = str "IPv4")
            ∨ (native.Uint16 a.Value.elems = .ok AF_INET6
              ∧ acc1.1.AddressFamily = str "IPv6")))) := by
  unfold destinationStep at h
  by_cases t0 : a.Typ = IPVS_DEST_ATTR_PORT
  · rw [if_pos t0] at h
    cases hu : ByteOrder.BigEndian.Uint16 a.Value.elems with
    | error e =>
      rw [hu] at h
      cases h
    | ok v =>
      rw [hu] at h
      simp only [bind, Except.bind, pure, Except.pure, throw, throwThe, MonadExceptOf.throw] at h
      cases h
      simp_all
  rw [if_neg t0] at h
  by_cases t1 : a.Typ = IPVS_DEST_ATTR_FWD_METHOD
  · rw [if_pos t1] at h
    cases hu : native.Uint32 a.Value.elems with
    | error e =>
      rw [hu] at h
      cases h
    | ok v =>
      rw [hu] at h
      simp only [bind, Except.bind, pure, Except.pure, throw, throwThe, MonadExceptOf.throw] at h
      split_ifs at h <;> (cases h; simp_all)
  rw [if_neg t1] at h
  by_cases t2 : a.Typ = IPVS_DEST_ATTR_WEIGHT
  · rw [if_pos t2] at h
    cases hu : native.Uint16 a.Value.elems with
    | error e =>
      rw [hu] at h
      cases h
    | ok v =>
      rw [hu] at h
      simp only [bind, Except.bind, pure, Except.pure, throw, throwThe, MonadExceptOf.throw] at h
      cases h
      simp_all
  rw [if_neg t2] at h
  by_cases t3 : a.Typ = IPVS_DEST_ATTR_U_THRESH
  · rw [if_pos t3] at h
    cases hu : native.Uint32 a.Value.elems with
    | error e =>
      rw [hu] at h
      cases h
    | ok v =>
      rw [hu] at h
      simp only [bind, Except.bind, pure, Except.pure, throw, throwThe, MonadExceptOf.throw] at h
      cases h
      simp_all
  rw [if_neg t3] at h
  by_cases t4 : a.Typ = IPVS_DEST_ATTR_L_THRESH
  · rw [if_pos t4] at h
    cases hu : native.Uint32 a.Value.elems with
    | error e =>
      rw [hu] at h
      cases h
    | ok v =>
      rw [hu] at h
      simp only [bind, Except.bind, pure, Except.pure, throw, throwThe, MonadExceptOf.throw] at h
      cases h
      simp_all
  rw [if_neg t4] at h
  by_cases t5 : a.Typ = IPVS_DEST_ATTR_ACTIVE_CONNS
  · rw [if_pos t5] at h
    cases hu : native.Uint32 a.Value.elems with
    | error e =>
      rw [hu] at h
      cases h
    | ok v =>
      rw [hu] at h
      simp only [bind, Except.bind, pure, Except.pure, throw, throwThe, MonadExceptOf.throw] at h
      cases h
      simp_all
  rw [if_neg t5] at h
  by_cases t6 : a.Typ = IPVS_DEST_ATTR_INACT_CONNS
  · rw [if_pos t6] at h
    cases hu : native.Uint32 a.Value.elems with
    | error e =>
      rw [hu] at h
      cases h
    | ok v =>
      rw [hu] at h
      simp only [bind, Except.bind, pure, Except.pure, throw, throwThe, MonadExceptOf.throw] at h
      cases h
      simp_all
  rw [if_neg t6] at h
  by_cases t7 : a.Typ = IPVS_DEST_ATTR_PERSIST_CONNS
  · rw [if_pos t7] at h
    cases hu : native.Uint32 a.Value.elems with
    | error e =>
      rw [hu] at h
      cases h
    | ok v =>
      rw [hu] at h
      simp only [bind, Except.bind, pure, Except.pure, throw, throwThe, MonadExceptOf.throw] at h
      cases h
      simp_all
  rw [if_neg t7] at h
  by_cases t8 : a.Typ = IPVS_DEST_ATTR_ADDR_FAMILY
  · rw [if_pos t8] at h
    cases hu : native.Uint16 a.Value.elems with
    | error e =>
      rw [hu] at h
      cases h
    | ok v =>
      rw [hu] at h
      simp only [bind, Except.bind, pure, Except.pure, throw, throwThe, MonadExceptOf.throw] at h
      split_ifs at h <;> (cases h; simp_all)
  rw [if_neg t8] at h
  by_cases t9 : a.Typ = IPVS_DEST_ATTR_ADDR
  · rw [if_pos t9] at h
    cases h
    simp [t9]
  rw [if_neg t9] at h
  by_cases t10 : a.Typ = IPVS_SVC_ATTR_STATS
  · rw [if_pos t10] at h
    cases hu : assembleStats native a.Value with
    | error e =>
      rw [hu] at h
      cases h
    | ok v =>
      rw [hu] at h
      simp only [bind, Except.bind, pure, Except.pure, throw, throwThe, MonadExceptOf.throw] at h
      cases h
      simp_all
  rw [if_neg t10] at h
  cases h
  simp [*]

/-- A loop over well-formed records does not panic. -/
theorem foldlM_no_panic {α β : Type} (step : β → α → Except Err β) (ok : α → Prop)
    (hstep : ∀ acc a, ok a → step acc a ≠ .error .panic) :
    ∀ (l : List α) (acc : β), (∀ a ∈ l, ok a) → l.foldlM step acc ≠ .error .panic := by
  intro l
  induction l with
  | nil => intro acc _ hc; cases hc
  | cons a l ih =>
    intro acc hl
    rw [List.foldlM_cons]
    cases hs : step acc a with
    | error e =>
      intro hc
      simp only [bind, Except.bind] at hc
      cases hc
      exact hstep acc a (hl a (List.mem_cons_self _ _)) hs
    | ok acc1 => exact ih acc1 (fun x hx => hl x (List.mem_cons_of_mem _ hx))

/-- What a loop that ended normally did to the address bytes and to the family:
the address is the value of an address record of the list when there is one,
and the family is the initial one unless a family record set it. -/
theorem foldlM_shape {ε : Type} (family : ε → GoString) (addrTag afTag : Nat)
    (native : ByteOrder) (step : ε × ByteSlice → NetlinkRouteAttr → Except Err (ε × ByteSlice))
    (hstep : ∀ acc acc1 a, step acc a = .ok acc1 →
      acc1.2 = (if a.Typ = addrTag then a.Value else acc.2)
        ∧ (family acc1.1 = family acc.1
          ∨ (a.Typ = afTag
            ∧ ((native.Uint16 a.Value.elems = .ok AF_INET ∧ family acc1.1 = str "IPv4")
              ∨ (native.Uint16 a.Value.elems = .ok AF_INET6
                ∧ family acc1.1 = str "IPv6"))))) :
    ∀ (l : List NetlinkRouteAttr) (acc acc1 : ε × ByteSlice),
      l.foldlM step acc = .ok acc1 →
      (acc1.2 = acc.2 ∨ ∃ a ∈ l, a.Typ = addrTag ∧ acc1.2 = a.Value)
        ∧ ((∃ a ∈ l, a.Typ = addrTag) → ∃ a ∈ l, a.Typ = addrTag ∧ acc1.2 = a.Value)
        ∧ (family acc1.1 = family acc.1
          ∨ ∃ f ∈ l, f.Typ = afTag
            ∧ ((native.Uint16 f.Value.elems = .ok AF_INET ∧ family acc1.1 = str "IPv4")
              ∨ (native.Uint16 f.Value.elems = .ok AF_INET6
                ∧ family acc1.1 = str "IPv6"))) := by
  intro l
  induction l with
  | nil =>
    intro acc acc1 h
    cases h
    exact ⟨Or.inl rfl, fun ⟨a, ha, _⟩ => absurd ha (List.not_mem_nil a), Or.inl rfl⟩
  | cons a l ih =>
    intro acc acc1 h
    rw [List.foldlM_cons] at h
    cases hs : step acc a with
    | error e =>
      rw [hs] at h
      cases h
    | ok acc2 =>
      rw [hs] at h
      obtain ⟨haddr, hfam⟩ := hstep acc acc2 a hs
      obtain ⟨i1, i2, i3⟩ := ih acc2 acc1 h
      have p1 : acc1.2 = acc.2 ∨ ∃ x ∈ a :: l, x.Typ = addrTag ∧ acc1.2 = x.Value := by
        rcases i1 with i1 | ⟨x, hx, hxt, hxv⟩
        · by_cases ht : a.Typ = addrTag
          · rw [if_pos ht] at haddr
            exact Or.inr ⟨a, List.mem_cons_self _ _, ht, i1.trans haddr⟩
          · rw [if_neg ht] at haddr
            exact Or.inl (i1.trans haddr)
        · exact Or.inr ⟨x, List.mem_cons_of_mem _ hx, hxt, hxv⟩
      refine ⟨p1, ?_, ?_⟩
      · rintro ⟨x, hx, hxt⟩
        rcases p1 with p1 | p1
        · rcases List.mem_cons.mp hx with rfl | hx
          · rcases i1 with i1 | ⟨y, hy, hyt, hyv⟩
            · rw [if_pos hxt] at haddr
              exact ⟨x, List.mem_cons_self _ _, hxt, i1.trans haddr⟩
            · exact ⟨y, List.mem_cons_of_mem _ hy, hyt, hyv⟩
          · obtain ⟨y, hy, hyt, hyv⟩ := i2 ⟨x, hx, hxt⟩
            exact ⟨y, List.mem_cons_of_mem _ hy, hyt, hyv⟩
        · exact p1
      · rcases i3 with i3 | ⟨f, hf, hft, hfv⟩
        · rcases hfam with hfam | ⟨hat, hav⟩
          · exact Or.inl (i3.trans hfam)
          · refine Or.inr ⟨a, List.mem_cons_self _ _, hat, ?_⟩
            rw [i3]
            exact hav
        · exact Or.inr ⟨f, List.mem_cons_of_mem _ hf, hft, hfv⟩

theorem sliceTo_within (b : ByteSlice) (n : Nat) (h : n ≤ b.len) :
    b.sliceTo n = .ok ⟨b.elems.take n, b.elems.drop n ++ b.spare⟩ := by
  unfold ByteSlice.len at h
  simp only [ByteSlice.sliceTo, ByteSlice.cap]
  rw [if_pos (by omega), List.take_append_of_le_length h, List.drop_append_of_le_length h]

/-! ## Totality of the decoders (C17) and the missing family (C18) -/

/-- C17, counterexample: five lists of records on which a decoder indexes past
the end of a value. Service records with a family leaf and no address leaf,
the empty list of destination records, a 1-byte port leaf, and a 4-byte
address leaf under family AF_INET6 all make the decoder panic; and with a
1-byte address leaf followed by three bytes in its backing array, the decoder
returns an entry whose address `10.9.9.9` is read past the end of the value. -/
theorem decoders_index_past_the_value :
    assembleServiceInterface .LittleEndian firewallMarkRecords = .error .panic
      ∧ assembleDestinationInterface .LittleEndian [] = .error .panic
      ∧ assembleServiceInterface .LittleEndian shortPortRecords = .error .panic
      ∧ assembleServiceInterface .LittleEndian shortAddressRecords = .error .panic
      ∧ (assembleServiceInterface .LittleEndian spareAddressRecords).map (fun s => s.Address)
        = .ok (str "10.9.9.9") := by
  decide

/-- C17, amended: for every list of attribute records in which every record
is well formed for the decoder (integer leaves hold at least their width, the
scheduler name holds a NUL byte, a stats blob parses into well-formed leaves),
which holds an address leaf, and in which every address leaf holds at least 4
bytes, and at least 16 when a family leaf of the list has the value AF_INET6:
`assembleServiceInterface` and `assembleDestinationInterface` return either an
entity, whose address is the text of the first 4 or 16 bytes of the value of
an address leaf, or an error; they do not panic. -/
theorem decoders_total_on_well_formed_records (native : ByteOrder)
    (attrs : List NetlinkRouteAttr) :
    ((∀ a ∈ attrs, serviceLeafOk native a) →
        (∃ a ∈ attrs, a.Typ = IPVS_SVC_ATTR_ADDR) →
        (∀ a ∈ attrs, a.Typ = IPVS_SVC_ATTR_ADDR → 4 ≤ a.Value.len) →
        ((∃ f ∈ attrs, f.Typ = IPVS_SVC_ATTR_AF ∧ native.Uint16 f.Value.elems = .ok AF_INET6) →
          ∀ a ∈ attrs, a.Typ = IPVS_SVC_ATTR_ADDR → 16 ≤ a.Value.len) →
        (∃ s, assembleServiceInterface native attrs = .ok s
            ∧ ∃ a ∈ attrs, a.Typ = IPVS_SVC_ATTR_ADDR
              ∧ (s.Address = IPString (a.Value.elems.take 4)
                ∨ s.Address = IPString (a.Value.elems.take 16)))
          ∨ (∃ e, e ≠ .panic ∧ assembleServiceInterface native attrs = .error e))
      ∧ ((∀ a ∈ attrs, destinationLeafOk native a) →
        (∃ a ∈ attrs, a.Typ = IPVS_DEST_ATTR_ADDR) →
        (∀ a ∈ attrs, a.Typ = IPVS_DEST_ATTR_ADDR → 4 ≤ a.Value.len) →
        ((∃ f ∈ attrs, f.Typ = IPVS_DEST_ATTR_ADDR_FAMILY
            ∧ native.Uint16 f.Value.elems = .ok AF_INET6) →
          ∀ a ∈ attrs, a.Typ = IPVS_DEST_ATTR_ADDR → 16 ≤ a.Value.len) →
        (∃ d, assembleDestinationInterface native attrs = .ok d
            ∧ ∃ a ∈ attrs, a.Typ = IPVS_DEST_ATTR_ADDR
              ∧ (d.Address = IPString (a.Value.elems.take 4)
                ∨ d.Address = IPString (a.Value.elems.take 16)))
          ∨ (∃ e, e ≠ .panic ∧ assembleDestinationInterface native attrs = .error e)) := by
  have h46 : str "IPv4" ≠ str "IPv6" := by decide
  have h06 : ([] : GoString) ≠ str "IPv6" := by decide
  constructor
  · intro hok haddr h4 h16
    unfold assembleServiceInterface
    cases hfold : attrs.foldlM (serviceStep native) ({}, ByteSlice.nil) with
    | error e =>
      refine Or.inr ⟨e, ?_, rfl⟩
      intro he
      subst he
      exact foldlM_no_panic (serviceStep native) (serviceLeafOk native)
        (serviceStep_no_panic native) attrs _ hok hfold
    | ok acc =>
      obtain ⟨-, p2, p3⟩ := foldlM_shape (fun s : ServiceEntry => s.AddressFamily)
        IPVS_SVC_ATTR_ADDR IPVS_SVC_ATTR_AF native (serviceStep native)
        (serviceStep_ok_shape native) attrs _ acc hfold
      obtain ⟨a, ha, hat, hav⟩ := p2 haddr
      simp only [bind, Except.bind]
      by_cases f4 : acc.1.AddressFamily = str "IPv4"
      · rw [if_pos f4, hav, sliceTo_within a.Value 4 (h4 a ha hat)]
        exact Or.inl ⟨_, rfl, a, ha, hat, Or.inl rfl⟩
      · rw [if_neg f4]
        by_cases f6 : acc.1.AddressFamily = str "IPv6"
        · have hl : 16 ≤ a.Value.len := by
            rcases p3 with p3 | ⟨f, hf, hft, hfv | hfv⟩
            · exact absurd (p3.symm.trans f6) h06
            · exact absurd (hfv.2.symm.trans f6) h46
            · exact h16 ⟨f, hf, hft, hfv.1⟩ a ha hat
          rw [if_pos f6, hav, sliceTo_within a.Value 16 hl]
          exact Or.inl ⟨_, rfl, a, ha, hat, Or.inr rfl⟩
        · rw [if_neg f6]
          exact Or.inr ⟨.invalidIPAddressBytes acc.2.elems, (by intro hc; cases hc), rfl⟩
  · intro hok haddr h4 h16
    unfold assembleDestinationInterface
    cases hfold : attrs.foldlM (destinationStep native) ({}, ByteSlice.nil) with
    | error e =>
      refine Or.inr ⟨e, ?_, rfl⟩
      intro he
      subst he
      exact foldlM_no_panic (destinationStep native) (destinationLeafOk native)
        (destinationStep_no_panic native) attrs _ hok hfold
    | ok acc =>
      obtain ⟨-, p2, p3⟩ := foldlM_shape (fun d : DestinationEntry => d.AddressFamily)
        IPVS_DEST_ATTR_ADDR IPVS_DEST_ATTR_ADDR_FAMILY native (destinationStep native)
        (destinationStep_ok_shape native) attrs _ acc hfold
      obtain ⟨a, ha, hat, hav⟩ := p2 haddr
      simp only [bind, Except.bind]
      by_cases f6 : acc.1.AddressFamily = str "IPv6"
      · have hl : 16 ≤ a.Value.len := by
          rcases p3 with p3 | ⟨f, hf, hft, hfv | hfv⟩
          · exact absurd (p3.symm.trans f6) h06
          · exact absurd (hfv.2.symm.trans f6) h46
          · exact h16 ⟨f, hf, hft, hfv.1⟩ a ha hat
        rw [if_pos f6, hav, sliceTo_within a.Value 16 hl]
        exact Or.inl ⟨_, rfl, a, ha, hat, Or.inr rfl⟩
      · rw [if_neg f6, hav, sliceTo_within a.Value 4 (h4 a ha hat)]
        exact Or.inl ⟨_, rfl, a, ha, hat, Or.inl rfl⟩

/-- Witness of `decoders_total_on_well_formed_records`: the records of a UDP
service `10.0.0.2:81` and the records of a destination `127.2.1.1:8888`. -/
theorem decoders_total_on_well_formed_records_witness :
    ((∀ a ∈ otherServiceRecords, serviceLeafOk .LittleEndian a)
        ∧ (∃ a ∈ otherServiceRecords, a.Typ = IPVS_SVC_ATTR_ADDR)
        ∧ (∀ a ∈ oneDestinationRecords, destinationLeafOk .LittleEndian a)
        ∧ (∃ a ∈ oneDestinationRecords, a.Typ = IPVS_DEST_ATTR_ADDR))
      ∧ ((∃ s, assembleServiceInterface .LittleEndian otherServiceRecords = .ok s
            ∧ ∃ a ∈ otherServiceRecords, a.Typ = IPVS_SVC_ATTR_ADDR
              ∧ (s.Address = IPString (a.Value.elems.take 4)
                ∨ s.Address = IPString (a.Value.elems.take 16)))
          ∨ (∃ e, e ≠ .panic
            ∧ assembleServiceInterface .LittleEndian otherServiceRecords = .error e))
      ∧ ((∃ d, assembleDestinationInterface .LittleEndian oneDestinationRecords = .ok d
            ∧ ∃ a ∈ oneDestinationRecords, a.Typ = IPVS_DEST_ATTR_ADDR
              ∧ (d.Address = IPString (a.Value.elems.take 4)
                ∨ d.Address = IPString (a.Value.elems.take 16)))
          ∨ (∃ e, e ≠ .panic
            ∧ assembleDestinationInterface .LittleEndian oneDestinationRecords = .error e)) :=
  ⟨⟨by decide, by decide, by decide, by decide⟩,
    (decoders_total_on_well_formed_records .LittleEndian otherServiceRecords).1
      (by decide) (by decide) (by decide) (by decide),
    (decoders_total_on_well_formed_records .LittleEndian oneDestinationRecords).2
      (by decide) (by decide) (by decide) (by decide)⟩

/-- C18, counterexample: a list of service records without address-family
leaf, whose protocol leaf holds one byte, on which `assembleServiceInterface`
does not return an error: reading the protocol panics. -/
theorem missing_family_can_panic :
    (∀ a ∈ shortProtocolRecords, a.Typ ≠ IPVS_SVC_ATTR_AF)
      ∧ assembleServiceInterface .LittleEndian shortProtocolRecords = .error .panic
      ∧ assembleServiceInterface .BigEndian shortProtocolRecords = .error .panic := by
  decide

/-- C18, amended: for every list of service attribute records in which no
address-family leaf has the value AF_INET or AF_INET6 (in particular a list
without address-family leaf), `assembleServiceInterface` returns no entry;
whenever the loop over the records completes, with the entry `s` and the
address bytes `addr`, the result is the error "invalid IP address" on `addr`;
and when every record is well formed for the decoder, the result is an error
and not a panic. -/
theorem missing_family_is_rejected (native : ByteOrder) (attrs : List NetlinkRouteAttr)
    (hAF : ∀ a ∈ attrs, a.Typ = IPVS_SVC_ATTR_AF →
      native.Uint16 a.Value.elems ≠ .ok AF_INET ∧ native.Uint16 a.Value.elems ≠ .ok AF_INET6) :
    (∀ s, assembleServiceInterface native attrs ≠ .ok s)
      ∧ (∀ s addr, attrs.foldlM (serviceStep native) ({}, ByteSlice.nil) = .ok (s, addr) →
          assembleServiceInterface native attrs = .error (.invalidIPAddressBytes addr.elems))
      ∧ ((∀ a ∈ attrs, serviceLeafOk native a) →
          ∃ e, e ≠ .panic ∧ assembleServiceInterface native attrs = .error e) := by
  have h04 : ([] : GoString) ≠ str "IPv4" := by decide
  have h06 : ([] : GoString) ≠ str "IPv6" := by decide
  have key : ∀ acc, attrs.foldlM (serviceStep native) ({}, ByteSlice.nil) = .ok acc →
      assembleServiceInterface native attrs = .error (.invalidIPAddressBytes acc.2.elems) := by
    intro acc hfold
    obtain ⟨-, -, p3⟩ := foldlM_shape (fun s : ServiceEntry => s.AddressFamily)
      IPVS_SVC_ATTR_ADDR IPVS_SVC_ATTR_AF native (serviceStep native)
      (serviceStep_ok_shape native) attrs _ acc hfold
    have hfam : acc.1.AddressFamily = [] := by
      rcases p3 with p3 | ⟨f, hf, hft, hfv | hfv⟩
      · exact p3
      · exact absurd hfv.1 (hAF f hf hft).1
      · exact absurd hfv.1 (hAF f hf hft).2
    unfold assembleServiceInterface
    rw [hfold]
    simp only [bind, Except.bind]
    rw [if_neg (by rw [hfam]; exact h04), if_neg (by rw [hfam]; exact h06)]
    rfl
  have herr : ∀ e, attrs.foldlM (serviceStep native) ({}, ByteSlice.nil) = .error e →
      assembleServiceInterface native attrs = .error e := by
    intro e hfold
    unfold assembleServiceInterface
    rw [hfold]
    rfl
  refine ⟨?_, ?_, ?_⟩
  · intro s hs
    cases hfold : attrs.foldlM (serviceStep native) ({}, ByteSlice.nil) with
    | error e =>
      rw [herr e hfold] at hs
      cases hs
    | ok acc =>
      rw [key acc hfold] at hs
      cases hs
  · intro s addr h
    exact key (s, addr) h
  · intro hok
    cases hfold : attrs.foldlM (serviceStep native) ({}, ByteSlice.nil) with
    | error e =>
      refine ⟨e, ?_, herr e hfold⟩
      intro he
      subst he
      exact foldlM_no_panic (serviceStep native) (serviceLeafOk native)
        (serviceStep_no_panic native) attrs _ hok hfold
    | ok acc =>
      exact ⟨.invalidIPAddressBytes acc.2.elems, (by intro hc; cases hc), key acc hfold⟩

/-- Witness of `missing_family_is_rejected`: protocol, address and port
records without family leaf are rejected with the error on the address bytes
`10.0.0.2`. -/
theorem missing_family_is_rejected_witness :
    (∀ a ∈ noFamilyRecords, a.Typ = IPVS_SVC_ATTR_AF →
        ByteOrder.LittleEndian.Uint16 a.Value.elems ≠ .ok AF_INET
          ∧ ByteOrder.LittleEndian.Uint16 a.Value.elems ≠ .ok AF_INET6)
      ∧ (∀ s, assembleServiceInterface .LittleEndian noFamilyRecords ≠ .ok s)
      ∧ assembleServiceInterface .LittleEndian noFamilyRecords
        = .error (.invalidIPAddressBytes [10, 0, 0, 2]) :=
  ⟨by decide,
    (missing_family_is_rejected .LittleEndian noFamilyRecords (by decide)).1,
    by decide⟩

/-! ## Weight (C21) -/

/-- The entry `assembleDestinationInterface` decodes from the leaves of a
serialized destination, whatever the range of its fields. -/
theorem assembleDestinationInterface_leaves (native : ByteOrder) (d : DestinationEntry)
    (ip : List Nat) (spare : Nat → List Nat) (hip : ParseIP d.Address = some ip)
    (hm : d.Method = str "NAT" ∨ d.Method = str "DR" ∨ d.Method = str "TUN") :
    assembleDestinationInterface native
        (childRecords spare ⟨IPVS_CMD_ATTR_DEST, [], destinationLeaves native d ip⟩) =
      .ok { Address := IPString ((addressBytes ip).take 4),
            Port := ((uint16 d.Port % 65536 : Nat) : Int),
            Weight := ((if native = .LittleEndian then uint32 d.Weight % 65536
              else uint32 d.Weight / 65536 % 65536 : Nat) : Int),
            Method := d.Method, AddressFamily := [],
            UpperThreshold := ((uint32 d.UpperThreshold % 4294967296 : Nat) : Int),
            LowerThreshold := ((uint32 d.LowerThreshold % 4294967296 : Nat) : Int) } := by
  have hlen := ParseIP_length _ _ hip
  have h16b := fun v => Uint16_PutUint16 .BigEndian v []
  have h32 := fun v => Uint32_PutUint32 native v []
  have h1632 := fun v => Uint16_PutUint32 native v
  simp only [List.append_nil] at h16b h32
  have hlen4 : 4 ≤ (addressBytes ip).length := by
    unfold addressBytes
    cases h4 : To4 ip with
    | none => simp only; omega
    | some ip4 => simp only; rw [To4_length _ _ hlen h4]
  have hs4 : ∀ sp, (ByteSlice.mk (addressBytes ip) sp).sliceTo 4
      = .ok ⟨(addressBytes ip).take 4, (addressBytes ip ++ sp).drop 4⟩ := by
    intro sp
    simp only [ByteSlice.sliceTo, ByteSlice.cap]
    rw [if_pos (by omega), List.take_append_of_le_length hlen4]
  have hne : (([] : GoString) = str "IPv6") = False := by decide
  cases native <;>
    rcases methodNumber_name d.Method hm with ⟨hn, hname⟩ | ⟨hn, hname⟩ | ⟨hn, hname⟩ <;>
    simp [childRecords, destinationLeaves, assembleDestinationInterface, destinationStep,
      List.enum, List.enumFrom, Uint32Attr, h16b, h32, h1632, bind, Except.bind, pure,
      Except.pure, hn, hs4, hne, ByteSlice.nil, ← hname]

/-- C21: for every DestinationEntry that serializes successfully, the node has
one weight leaf, of 4 bytes, which read back as a host-order `uint32` give
`uint32(Weight)`, that is Weight mod 2^32; and on a little-endian host decoding
the leaves of the node succeeds with the weight Weight mod 2^16, which equals
Weight exactly when 0 <= Weight < 65536. -/
theorem weight_width_asymmetry (native : ByteOrder) (d : DestinationEntry) (node : RtAttr)
    (spare : Nat → List Nat) (h : d.Serialize native = .ok node) :
    leavesOf node IPVS_DEST_ATTR_WEIGHT = [native.PutUint32 (uint32 d.Weight)]
      ∧ (native.PutUint32 (uint32 d.Weight)).length = 4
      ∧ native.Uint32 (native.PutUint32 (uint32 d.Weight)) = .ok (uint32 d.Weight)
      ∧ ((uint32 d.Weight : Nat) : Int) = d.Weight % 4294967296
      ∧ (native = .LittleEndian →
          ∃ r, assembleDestinationInterface native (childRecords spare node) = .ok r
            ∧ r.Weight = d.Weight % 65536
            ∧ (r.Weight = d.Weight ↔ 0 ≤ d.Weight ∧ d.Weight < 65536)) := by
  obtain ⟨ip, hip, hm, rfl⟩ := destinationSerialize_ok native d node h
  refine ⟨?_, ?_, ?_, ?_, ?_⟩
  · simp [leavesOf, destinationLeaves, Uint32Attr]
  · cases native <;> rfl
  · have h32 := Uint32_PutUint32 native (uint32 d.Weight) []
    rw [List.append_nil] at h32
    rw [h32]
    congr 1
    unfold uint32
    omega
  · unfold uint32
    omega
  · intro hle
    refine ⟨_, assembleDestinationInterface_leaves native d ip spare hip hm, ?_, ?_⟩
    · change ((if native = .LittleEndian then uint32 d.Weight % 65536
        else uint32 d.Weight / 65536 % 65536 : Nat) : Int) = _
      rw [if_pos hle]
      unfold uint32
      omega
    · change ((if native = .LittleEndian then uint32 d.Weight % 65536
        else uint32 d.Weight / 65536 % 65536 : Nat) : Int) = _ ↔ _
      rw [if_pos hle]
      unfold uint32
      omega

/-- Witness of `weight_width_asymmetry`: a destination of weight 65636 is
decoded with the weight 100. -/
theorem weight_width_asymmetry_witness :
    heavyDestination.Serialize .LittleEndian = .ok heavyNode
      ∧ leavesOf heavyNode IPVS_DEST_ATTR_WEIGHT = [[100, 0, 1, 0]]
      ∧ ∃ r, assembleDestinationInterface .LittleEndian (childRecords (fun _ => []) heavyNode)
          = .ok r ∧ r.Weight = 100 :=
  ⟨by decide,
    (weight_width_asymmetry .LittleEndian heavyDestination heavyNode (fun _ => [])
      (by decide)).1,
    match (weight_width_asymmetry .LittleEndian heavyDestination heavyNode (fun _ => [])
      (by decide)).2.2.2.2 rfl with
    | ⟨r, hr, hw, _⟩ => ⟨r, hr, hw.trans (by decide)⟩⟩

/-! ## Failure condition of `ServiceEntry.Serialize` (C22) -/

theorem serviceSerialize_no_address (native : ByteOrder) (e : ServiceEntry)
    (hip : ParseIP e.Address = none) :
    e.Serialize native = .error (.invalidIPAddress e.Address) := by
  unfold ServiceEntry.Serialize
  rw [hip]

theorem serviceSerialize_no_protocol (native : ByteOrder) (e : ServiceEntry) (ip : List Nat)
    (hip : ParseIP e.Address = some ip) (hp : e.Protocol ∉ acceptedProtocols) :
    e.Serialize native = .error (.notSupportProtocol e.Protocol) := by
  unfold ServiceEntry.Serialize
  rw [hip]
  simp only
  unfold acceptedProtocols at hp
  simp only [List.mem_cons, List.mem_singleton, List.not_mem_nil, or_false, not_or] at hp
  split
  · rfl
  · rename_i protocol hsome
    split_ifs at hsome <;> tauto

theorem serviceSerialize_no_scheduler (native : ByteOrder) (e : ServiceEntry) (ip : List Nat)
    (hip : ParseIP e.Address = some ip) (hp : e.Protocol ∈ acceptedProtocols)
    (hs : e.SchedName ∉ acceptedSchedulers) :
    e.Serialize native = .error (.notSupportScheduler e.SchedName) := by
  unfold ServiceEntry.Serialize
  rw [hip]
  simp only
  unfold acceptedProtocols at hp
  simp only [List.mem_cons, List.mem_singleton, List.not_mem_nil, or_false] at hp
  unfold acceptedSchedulers at hs
  split
  · rename_i hnone
    split_ifs at hnone
    tauto
  · rw [if_neg hs]

/-- C22: `ServiceEntry.Serialize` returns an error if and only if Address is
not a parseable IP literal, or Protocol is none of the protocol names it
recognizes, or SchedName is not in the scheduler allow-list; the error is never
a panic; a second entry with the same Address, Protocol and SchedName fails
exactly when the first does, with the same error, whatever its other fields;
so a service with a nonzero FWMark fails when its Address or Protocol is
invalid, although a node for a nonzero FWMark holds neither an address leaf nor
a protocol leaf. -/
theorem serialize_failure_condition (native : ByteOrder) (e : ServiceEntry) :
    ((∃ err, e.Serialize native = .error err) ↔
        (ParseIP e.Address = none ∨ e.Protocol ∉ acceptedProtocols
          ∨ e.SchedName ∉ acceptedSchedulers))
      ∧ e.Serialize native ≠ .error .panic
      ∧ (∀ e1 : ServiceEntry, e1.Address = e.Address → e1.Protocol = e.Protocol →
          e1.SchedName = e.SchedName →
          ∀ err, e1.Serialize native = .error err ↔ e.Serialize native = .error err)
      ∧ (e.FWMark ≠ 0 → (ParseIP e.Address = none ∨ e.Protocol ∉ acceptedProtocols) →
          ∃ err, e.Serialize native = .error err)
      ∧ (e.FWMark ≠ 0 → ∀ node, e.Serialize native = .ok node →
          leavesOf node IPVS_SVC_ATTR_ADDR = [] ∧ leavesOf node IPVS_SVC_ATTR_PROTOCOL = []) := by
  have hform : ∀ x : ServiceEntry,
      (ParseIP x.Address = none ∧ x.Serialize native = .error (.invalidIPAddress x.Address))
        ∨ (∃ ip, ParseIP x.Address = some ip ∧ x.Protocol ∉ acceptedProtocols
          ∧ x.Serialize native = .error (.notSupportProtocol x.Protocol))
        ∨ (∃ ip, ParseIP x.Address = some ip ∧ x.Protocol ∈ acceptedProtocols
          ∧ x.SchedName ∉ acceptedSchedulers
          ∧ x.Serialize native = .error (.notSupportScheduler x.SchedName))
        ∨ (∃ ip, ParseIP x.Address = some ip ∧ x.Protocol ∈ acceptedProtocols
          ∧ x.SchedName ∈ acceptedSchedulers
          ∧ x.Serialize native = .ok ⟨IPVS_CMD_ATTR_SERVICE, [], serviceLeaves native x ip⟩) := by
    intro x
    cases hip : ParseIP x.Address with
    | none => exact Or.inl ⟨rfl, serviceSerialize_no_address native x hip⟩
    | some ip =>
      by_cases hp : x.Protocol ∈ acceptedProtocols
      · by_cases hs : x.SchedName ∈ acceptedSchedulers
        · exact Or.inr (Or.inr (Or.inr ⟨ip, rfl, hp, hs, serviceSerialize_eq native x ip hip hp hs⟩))
        · exact Or.inr (Or.inr (Or.inl
            ⟨ip, rfl, hp, hs, serviceSerialize_no_scheduler native x ip hip hp hs⟩))
      · exact Or.inr (Or.inl ⟨ip, rfl, hp, serviceSerialize_no_protocol native x ip hip hp⟩)
  have hiff : (∃ err, e.Serialize native = .error err) ↔
      (ParseIP e.Address = none ∨ e.Protocol ∉ acceptedProtocols
        ∨ e.SchedName ∉ acceptedSchedulers) := by
    rcases hform e with ⟨h1, h2⟩ | ⟨ip, h1, h2, h3⟩ | ⟨ip, h1, h2, h3, h4⟩ | ⟨ip, h1, h2, h3, h4⟩
    · exact ⟨fun _ => Or.inl h1, fun _ => ⟨_, h2⟩⟩
    · exact ⟨fun _ => Or.inr (Or.inl h2), fun _ => ⟨_, h3⟩⟩
    · exact ⟨fun _ => Or.inr (Or.inr h3), fun _ => ⟨_, h4⟩⟩
    · constructor
      · rintro ⟨err, herr⟩
        rw [h4] at herr
        cases herr
      · rintro (h | h | h)
        · rw [h1] at h
          cases h
        · exact absurd h2 h
        · exact absurd h3 h
  refine ⟨hiff, ?_, ?_, ?_, ?_⟩
  · rcases hform e with ⟨-, hS⟩ | ⟨ip, -, -, hS⟩ | ⟨ip, -, -, -, hS⟩ | ⟨ip, -, -, -, hS⟩ <;>
      (intro hc; rw [hS] at hc; cases hc)
  · intro e1 ha hp hs err
    rcases hform e with ⟨h1, h2⟩ | ⟨ip, h1, h2, h3⟩ | ⟨ip, h1, h2, h3, h4⟩ | ⟨ip, h1, h2, h3, h4⟩
    · rw [h2, serviceSerialize_no_address native e1 (by rw [ha]; exact h1), ha]
    · rw [h3, serviceSerialize_no_protocol native e1 ip (by rw [ha]; exact h1)
        (by rw [hp]; exact h2), hp]
    · rw [h4, serviceSerialize_no_scheduler native e1 ip (by rw [ha]; exact h1)
        (by rw [hp]; exact h2) (by rw [hs]; exact h3), hs]
    · rw [h4, serviceSerialize_eq native e1 ip (by rw [ha]; exact h1)
        (by rw [hp]; exact h2) (by rw [hs]; exact h3)]
      constructor <;> (intro hc; cases hc)
  · intro _ h
    exact hiff.mpr (h.elim Or.inl (fun hp => Or.inr (Or.inl hp)))
  · intro hfw node hnode
    obtain ⟨ip, -, -, -, rfl⟩ := serviceSerialize_ok native e node hnode
    by_cases hpe : e.PEName = str "" <;> simp [leavesOf, serviceLeaves, hfw, hpe]

/-- Witness of `serialize_failure_condition`: a service identified by the
firewall mark 7 with no address and no protocol fails; a service with address,
protocol and scheduler of `firewallMarkService` and other values in every other
field serializes as it does. -/
theorem serialize_failure_condition_witness :
    (markOnlyService.FWMark ≠ 0 ∧ ParseIP markOnlyService.Address = none
        ∧ markOnlyService.Protocol ∉ acceptedProtocols)
      ∧ (∃ err, markOnlyService.Serialize .LittleEndian = .error err)
      ∧ (otherFieldsService.Address = firewallMarkService.Address
        ∧ otherFieldsService.Protocol = firewallMarkService.Protocol
        ∧ otherFieldsService.SchedName = firewallMarkService.SchedName)
      ∧ (∀ err, otherFieldsService.Serialize .LittleEndian = .error err
          ↔ firewallMarkService.Serialize .LittleEndian = .error err) :=
  ⟨⟨by decide, by decide, by decide⟩,
    (serialize_failure_condition .LittleEndian markOnlyService).2.2.2.1
      (by decide) (Or.inl (by decide)),
    ⟨rfl, rfl, rfl⟩,
    (serialize_failure_condition .LittleEndian firewallMarkService).2.2.1
      otherFieldsService rfl rfl rfl⟩

/-! ## One record at a time -/

/-- What one record does to the state of the loop of `assembleServiceInterface`: either the
round fails, with an error that does not depend on the state, or it is one of
the listed updates of the state: none, or a new value for the one field that
belongs to the type of the record. -/
theorem serviceStep_form (native : ByteOrder) (a : NetlinkRouteAttr) :
    (∃ e, ∀ acc, serviceStep native acc a = .error e)
      ∨ ∃ u : ServiceEntry × ByteSlice → ServiceEntry × ByteSlice,
        (∀ acc, serviceStep native acc a = .ok (u acc))
          ∧ ((∀ acc, u acc = acc)
            ∨ (a.Typ = IPVS_SVC_ATTR_AF
              ∧ ∃ x, ∀ acc, u acc = ({ acc.1 with AddressFamily := x }, acc.2))
            ∨ (a.Typ = IPVS_SVC_ATTR_PROTOCOL
              ∧ ∃ x, ∀ acc, u acc = ({ acc.1 with Protocol := x }, acc.2))
            ∨ (a.Typ = IPVS_SVC_ATTR_ADDR ∧ ∃ x, ∀ acc, u acc = (acc.1, x))
            ∨ (a.Typ = IPVS_SVC_ATTR_PORT
              ∧ ∃ x, ∀ acc, u acc = ({ acc.1 with Port := x }, acc.2))
            ∨ (a.Typ = IPVS_SVC_ATTR_FWMARK
              ∧ ∃ x, ∀ acc, u acc = ({ acc.1 with FWMark := x }, acc.2))
            ∨ (a.Typ = IPVS_SVC_ATTR_SCHED_NAME
              ∧ ∃ x, ∀ acc, u acc = ({ acc.1 with SchedName := x }, acc.2))
            ∨ (a.Typ = IPVS_SVC_ATTR_FLAGS
              ∧ ∃ x, ∀ acc, u acc = ({ acc.1 with Flags := x }, acc.2))
            ∨ (a.Typ = IPVS_SVC_ATTR_TIMEOUT
              ∧ ∃ x, ∀ acc, u acc = ({ acc.1 with Timeout := x }, acc.2))
            ∨ (a.Typ = IPVS_SVC_ATTR_NETMASK
              ∧ ∃ x, ∀ acc, u acc = ({ acc.1 with Netmask := x }, acc.2))
            ∨ (a.Typ = IPVS_SVC_ATTR_STATS
              ∧ ∃ x, ∀ acc, u acc = ({ acc.1 with Stats := x }, acc.2))) := by
  by_cases t0 : a.Typ = IPVS_SVC_ATTR_AF
  · cases hv : native.Uint16 a.Value.elems with
    | error e =>
      refine Or.inl ⟨e, fun acc => ?_⟩
      unfold serviceStep
      rw [if_pos t0, hv]
      rfl
    | ok v =>
      by_cases v0 : v = AF_INET
      · refine Or.inr ⟨fun acc => ({ acc.1 with AddressFamily := str "IPv4" }, acc.2), fun acc => ?_, ?_⟩
        · unfold serviceStep
          rw [if_pos t0, hv]
          simp only [bind, Except.bind, pure, Except.pure, if_pos v0]
        · exact Or.inr (Or.inl (⟨t0, str "IPv4", fun _ => rfl⟩))
      by_cases v1 : v = AF_INET6
      · refine Or.inr ⟨fun acc => ({ acc.1 with AddressFamily := str "IPv6" }, acc.2), fun acc => ?_, ?_⟩
        · unfold serviceStep
          rw [if_pos t0, hv]
          simp only [bind, Except.bind, pure, Except.pure, if_neg v0, if_pos v1]
        · exact Or.inr (Or.inl (⟨t0, str "IPv6", fun _ => rfl⟩))
      refine Or.inr ⟨fun acc => acc, fun acc => ?_, ?_⟩
      · unfold serviceStep
        rw [if_pos t0, hv]
        simp only [bind, Except.bind, pure, Except.pure, if_neg v0, if_neg v1]
      · exact Or.inl (fun _ => rfl)
  by_cases t1 : a.Typ = IPVS_SVC_ATTR_PROTOCOL
  · cases hv : native.Uint16 a.Value.elems with
    | error e =>
      refine Or.inl ⟨e, fun acc => ?_⟩
      unfold serviceStep
      rw [if_neg t0, if_pos t1, hv]
      rfl
    | ok v =>
      by_cases v0 : v = IPPROTO_TCP
      · refine Or.inr ⟨fun acc => ({ acc.1 with Protocol := str "TCP" }, acc.2), fun acc => ?_, ?_⟩
        · unfold serviceStep
          rw [if_neg t0, if_pos t1, hv]
          simp only [bind, Except.bind, pure, Except.pure, if_pos v0]
        · exact Or.inr (Or.inr (Or.inl (⟨t1, str "TCP", fun _ => rfl⟩)))
      by_cases v1 : v = IPPROTO_UDP
      · refine Or.inr ⟨fun acc => ({ acc.1 with Protocol := str "UDP" }, acc.2), fun acc => ?_, ?_⟩
        · unfold serviceStep
          rw [if_neg t0, if_pos t1, hv]
          simp only [bind, Except.bind, pure, Except.pure, if_neg v0, if_pos v1]
        · exact Or.inr (Or.inr (Or.inl (⟨t1, str "UDP", fun _ => rfl⟩)))
      by_cases v2 : v = IPPROTO_SCTP
      · refine Or.inr ⟨fun acc => ({ acc.1 with Protocol := str "SCTP" }, acc.2), fun acc => ?_, ?_⟩
        · unfold serviceStep
          rw [if_neg t0, if_pos t1, hv]
          simp only [bind, Except.bind, pure, Except.pure, if_neg v0, if_neg v1, if_pos v2]
        · exact Or.inr (Or.inr (Or.inl (⟨t1, str "SCTP", fun _ => rfl⟩)))
      refine Or.inl ⟨Err.notSupportProtocolValue v, fun acc => ?_⟩
      unfold serviceStep
      rw [if_neg t0, if_pos t1, hv]
      simp only [bind, Except.bind, pure, Except.pure, if_neg v0, if_neg v1, if_neg v2]
      rfl
  by_cases t2 : a.Typ = IPVS_SVC_ATTR_ADDR
  · refine Or.inr ⟨fun acc => (acc.1, a.Value), fun acc => ?_, ?_⟩
    · unfold serviceStep
      rw [if_neg t0, if_neg t1, if_pos t2]
      rfl
    · exact Or.inr (Or.inr (Or.inr (Or.inl (⟨t2, a.Value, fun _ => rfl⟩))))
  by_cases t3 : a.Typ = IPVS_SVC_ATTR_PORT
  · cases hv : ByteOrder.BigEndian.Uint16 a.Value.elems with
    | error e =>
      refine Or.inl ⟨e, fun acc => ?_⟩
      unfold serviceStep
      rw [if_neg t0, if_neg t1, if_neg t2, if_pos t3, hv]
      rfl
    | ok v =>
      refine Or.inr ⟨fun acc => ({ acc.1 with Port := (v : Int) }, acc.2), fun acc => ?_, ?_⟩
      · unfold serviceStep
        rw [if_neg t0, if_neg t1, if_neg t2, if_pos t3, hv]
        rfl
      · exact Or.inr (Or.inr (Or.inr (Or.inr (Or.inl (⟨t3, (v : Int), fun _ => rfl⟩)))))
  by_cases t4 : a.Typ = IPVS_SVC_ATTR_FWMARK
  · cases hv : native.Uint32 a.Value.elems with
    | error e =>
      refine Or.inl ⟨e, fun acc => ?_⟩
      unfold serviceStep
      rw [if_neg t0, if_neg t1, if_neg t2, if_neg t3, if_pos t4, hv]
      rfl
    | ok v =>
      refine Or.inr ⟨fun acc => ({ acc.1 with FWMark := (v : Int) }, acc.2), fun acc => ?_, ?_⟩
      · unfold serviceStep
        rw [if_neg t0, if_neg t1, if_neg t2, if_neg t3, if_pos t4, hv]
        rfl
      · exact Or.inr (Or.inr (Or.inr (Or.inr (Or.inr (Or.inl (⟨t4, (v : Int), fun _ => rfl⟩))))))
  by_cases t5 : a.Typ = IPVS_SVC_ATTR_SCHED_NAME
  · cases hv : BytesToString a.Value.elems with
    | error e =>
      refine Or.inl ⟨e, fun acc => ?_⟩
      unfold serviceStep
      rw [if_neg t0, if_neg t1, if_neg t2, if_neg t3, if_neg t4, if_pos t5, hv]
      rfl
    | ok v =>
      refine Or.inr ⟨fun acc => ({ acc.1 with SchedName := v }, acc.2), fun acc => ?_, ?_⟩
      · unfold serviceStep
        rw [if_neg t0, if_neg t1, if_neg t2, if_neg t3, if_neg t4, if_pos t5, hv]
        rfl
      · exact Or.inr (Or.inr (Or.inr (Or.inr (Or.inr (Or.inr (Or.inl (⟨t5, v, fun _ => rfl⟩)))))))
  by_cases t6 : a.Typ = IPVS_SVC_ATTR_FLAGS
  · cases hv : native.Uint32 a.Value.elems with
    | error e =>
      refine Or.inl ⟨e, fun acc => ?_⟩
      unfold serviceStep
      rw [if_neg t0, if_neg t1, if_neg t2, if_neg t3, if_neg t4, if_neg t5, if_pos t6, hv]
      rfl
    | ok v =>
      refine Or.inr ⟨fun acc => ({ acc.1 with Flags := (v : Int) }, acc.2), fun acc => ?_, ?_⟩
      · unfold serviceStep
        rw [if_neg t0, if_neg t1, if_neg t2, if_neg t3, if_neg t4, if_neg t5, if_pos t6, hv]
        rfl
      · exact Or.inr (Or.inr (Or.inr (Or.inr (Or.inr (Or.inr (Or.inr (Or.inl (⟨t6, (v : Int), fun _ => rfl⟩))))))))
  by_cases t7 : a.Typ = IPVS_SVC_ATTR_TIMEOUT
  · cases hv : native.Uint32 a.Value.elems with
    | error e =>
      refine Or.inl ⟨e, fun acc => ?_⟩
      unfold serviceStep
      rw [if_neg t0, if_neg t1, if_neg t2, if_neg t3, if_neg t4, if_neg t5, if_neg t6, if_pos t7, hv]
      rfl
    | ok v =>
      refine Or.inr ⟨fun acc => ({ acc.1 with Timeout := (v : Int) }, acc.2), fun acc => ?_, ?_⟩
      · unfold serviceStep
        rw [if_neg t0, if_neg t1, if_neg t2, if_neg t3, if_neg t4, if_neg t5, if_neg t6, if_pos t7, hv]
        rfl
      · exact Or.inr (Or.inr (Or.inr (Or.inr (Or.inr (Or.inr (Or.inr (Or.inr (Or.inl (⟨t7, (v : Int), fun _ => rfl⟩)))))))))
  by_cases t8 : a.Typ = IPVS_SVC_ATTR_NETMASK
  · cases hv : native.Uint32 a.Value.elems with
    | error e =>
      refine Or.inl ⟨e, fun acc => ?_⟩
      unfold serviceStep
      rw [if_neg t0, if_neg t1, if_neg t2, if_neg t3, if_neg t4, if_neg t5, if_neg t6, if_neg t7, if_pos t8, hv]
      rfl
    | ok v =>
      refine Or.inr ⟨fun acc => ({ acc.1 with Netmask := (v : Int) }, acc.2), fun acc => ?_, ?_⟩
      · unfold serviceStep
        rw [if_neg t0, if_neg t1, if_neg t2, if_neg t3, if_neg t4, if_neg t5, if_neg t6, if_neg t7, if_pos t8, hv]
        rfl
      · exact Or.inr (Or.inr (Or.inr (Or.inr (Or.inr (Or.inr (Or.inr (Or.inr (Or.inr (Or.inl (⟨t8, (v : Int), fun _ => rfl⟩))))))))))
  by_cases t9 : a.Typ = IPVS_SVC_ATTR_STATS
  · cases hv : assembleStats native a.Value with
    | error e =>
      refine Or.inl ⟨e, fun acc => ?_⟩
      unfold serviceStep
      rw [if_neg t0, if_neg t1, if_neg t2, if_neg t3, if_neg t4, if_neg t5, if_neg t6, if_neg t7, if_neg t8, if_pos t9, hv]
      rfl
    | ok v =>
      refine Or.inr ⟨fun acc => ({ acc.1 with Stats := v }, acc.2), fun acc => ?_, ?_⟩
      · unfold serviceStep
        rw [if_neg t0, if_neg t1, if_neg t2, if_neg t3, if_neg t4, if_neg t5, if_neg t6, if_neg t7, if_neg t8, if_pos t9, hv]
        rfl
      · exact Or.inr (Or.inr (Or.inr (Or.inr (Or.inr (Or.inr (Or.inr (Or.inr (Or.inr (Or.inr (⟨t9, v, fun _ => rfl⟩))))))))))
  refine Or.inr ⟨fun acc => acc, fun acc => ?_, Or.inl (fun _ => rfl)⟩
  unfold serviceStep
  rw [if_neg t0, if_neg t1, if_neg t2, if_neg t3, if_neg t4, if_neg t5, if_neg t6, if_neg t7, if_neg t8, if_neg t9]
  rfl

/-- What one record does to the state of the loop of `assembleDestinationInterface`: either the
round fails, with an error that does not depend on the state, or it is one of
the listed updates of the state: none, or a new value for the one field that
belongs to the type of the record. -/
theorem destinationStep_form (native : ByteOrder) (a : NetlinkRouteAttr) :
    (∃ e, ∀ acc, destinationStep native acc a = .error e)
      ∨ ∃ u : DestinationEntry × ByteSlice → DestinationEntry × ByteSlice,
        (∀ acc, destinationStep native acc a = .ok (u acc))
          ∧ ((∀ acc, u acc = acc)
            ∨ (a.Typ = IPVS_DEST_ATTR_PORT
              ∧ ∃ x, ∀ acc, u acc = ({ acc.1 with Port := x }, acc.2))
            ∨ (a.Typ = IPVS_DEST_ATTR_FWD_METHOD
              ∧ ∃ x, ∀ acc, u acc = ({ acc.1 with Method := x }, acc.2))
            ∨ (a.Typ = IPVS_DEST_ATTR_WEIGHT
              ∧ ∃ x, ∀ acc, u acc = ({ acc.1 with Weight := x }, acc.2))
            ∨ (a.Typ = IPVS_DEST_ATTR_U_THRESH
              ∧ ∃ x, ∀ acc, u acc = ({ acc.1 with UpperThreshold := x }, acc.2))
            ∨ (a.Typ = IPVS_DEST_ATTR_L_THRESH
              ∧ ∃ x, ∀ acc, u acc = ({ acc.1 with LowerThreshold := x }, acc.2))
            ∨ (a.Typ = IPVS_DEST_ATTR_ACTIVE_CONNS
              ∧ ∃ x, ∀ acc, u acc = ({ acc.1 with ActiveConnections := x }, acc.2))
            ∨ (a.Typ = IPVS_DEST_ATTR_INACT_CONNS
              ∧ ∃ x, ∀ acc, u acc = ({ acc.1 with InActiveConnections := x }, acc.2))
            ∨ (a.Typ = IPVS_DEST_ATTR_PERSIST_CONNS
              ∧ ∃ x, ∀ acc, u acc = ({ acc.1 with PersistConnections := x }, acc.2))
            ∨ (a.Typ = IPVS_DEST_ATTR_ADDR_FAMILY
              ∧ ∃ x, ∀ acc, u acc = ({ acc.1 with AddressFamily := x }, acc.2))
            ∨ (a.Typ = IPVS_DEST_ATTR_ADDR ∧ ∃ x, ∀ acc, u acc = (acc.1, x))
            ∨ (a.Typ = IPVS_SVC_ATTR_STATS
              ∧ ∃ x, ∀ acc, u acc = ({ acc.1 with Stats := x }, acc.2))) := by
  by_cases t0 : a.Typ = IPVS_DEST_ATTR_PORT
  · cases hv : ByteOrder.BigEndian.Uint16 a.Value.elems with
    | error e =>
      refine Or.inl ⟨e, fun acc => ?_⟩
      unfold destinationStep
      rw [if_pos t0, hv]
      rfl
    | ok v =>
      refine Or.inr ⟨fun acc => ({ acc.1 with Port := (v : Int) }, acc.2), fun acc => ?_, ?_⟩
      · unfold destinationStep
        rw [if_pos t0, hv]
        rfl
      · exact Or.inr (Or.inl (⟨t0, (v : Int), fun _ => rfl⟩))
  by_cases t1 : a.Typ = IPVS_DEST_ATTR_FWD_METHOD
  · cases hv : native.Uint32 a.Value.elems with
    | error e =>
      refine Or.inl ⟨e, fun acc => ?_⟩
      unfold destinationStep
      rw [if_neg t0, if_pos t1, hv]
      rfl
    | ok v =>
      by_cases v0 : v = IP_VS_CONN_F_MASQ
      · refine Or.inr ⟨fun acc => ({ acc.1 with Method := str "NAT" }, acc.2), fun acc => ?_, ?_⟩
        · unfold destinationStep
          rw [if_neg t0, if_pos t1, hv]
          simp only [bind, Except.bind, pure, Except.pure, if_pos v0]
        · exact Or.inr (Or.inr (Or.inl (⟨t1, str "NAT", fun _ => rfl⟩)))
      by_cases v1 : v = IP_VS_CONN_F_DROUTE
      · refine Or.inr ⟨fun acc => ({ acc.1 with Method := str "DR" }, acc.2), fun acc => ?_, ?_⟩
        · unfold destinationStep
          rw [if_neg t0, if_pos t1, hv]
          simp only [bind, Except.bind, pure, Except.pure, if_neg v0, if_pos v1]
        · exact Or.inr (Or.inr (Or.inl (⟨t1, str "DR", fun _ => rfl⟩)))
      by_cases v2 : v = IP_VS_CONN_F_TUNNEL
      · refine Or.inr ⟨fun acc => ({ acc.1 with Method := str "TUN" }, acc.2), fun acc => ?_, ?_⟩
        · unfold destinationStep
          rw [if_neg t0, if_pos t1, hv]
          simp only [bind, Except.bind, pure, Except.pure, if_neg v0, if_neg v1, if_pos v2]
        · exact Or.inr (Or.inr (Or.inl (⟨t1, str "TUN", fun _ => rfl⟩)))
      refine Or.inl ⟨Err.notSupportMethod (str ""), fun acc => ?_⟩
      unfold destinationStep
      rw [if_neg t0, if_pos t1, hv]
      simp only [bind, Except.bind, pure, Except.pure, if_neg v0, if_neg v1, if_neg v2]
      rfl
  by_cases t2 : a.Typ = IPVS_DEST_ATTR_WEIGHT
  · cases hv : native.Uint16 a.Value.elems with
    | error e =>
      refine Or.inl ⟨e, fun acc => ?_⟩
      unfold destinationStep
      rw [if_neg t0, if_neg t1, if_pos t2, hv]
      rfl
    | ok v =>
      refine Or.inr ⟨fun acc => ({ acc.1 with Weight := (v : Int) }, acc.2), fun acc => ?_, ?_⟩
      · unfold destinationStep
        rw [if_neg t0, if_neg t1, if_pos t2, hv]
        rfl
      · exact Or.inr (Or.inr (Or.inr (Or.inl (⟨t2, (v : Int), fun _ => rfl⟩))))
  by_cases t3 : a.Typ = IPVS_DEST_ATTR_U_THRESH
  · cases hv : native.Uint32 a.Value.elems with
    | error e =>
      refine Or.inl ⟨e, fun acc => ?_⟩
      unfold destinationStep
      rw [if_neg t0, if_neg t1, if_neg t2, if_pos t3, hv]
      rfl
    | ok v =>
      refine Or.inr ⟨fun acc => ({ acc.1 with UpperThreshold := (v : Int) }, acc.2), fun acc => ?_, ?_⟩
      · unfold destinationStep
        rw [if_neg t0, if_neg t1, if_neg t2, if_pos t3, hv]
        rfl
      · exact Or.inr (Or.inr (Or.inr (Or.inr (Or.inl (⟨t3, (v : Int), fun _ => rfl⟩)))))
  by_cases t4 : a.Typ = IPVS_DEST_ATTR_L_THRESH
  · cases hv : native.Uint32 a.Value.elems with
    | error e =>
      refine Or.inl ⟨e, fun acc => ?_⟩
      unfold destinationStep
      rw [if_neg t0, if_neg t1, if_neg t2, if_neg t3, if_pos t4, hv]
      rfl
    | ok v =>
      refine Or.inr ⟨fun acc => ({ acc.1 with LowerThreshold := (v : Int) }, acc.2), fun acc => ?_, ?_⟩
      · unfold destinationStep
        rw [if_neg t0, if_neg t1, if_neg t2, if_neg t3, if_pos t4, hv]
        rfl
      · exact Or.inr (Or.inr (Or.inr (Or.inr (Or.inr (Or.inl (⟨t4, (v : Int), fun _ => rfl⟩))))))
  by_cases t5 : a.Typ = IPVS_DEST_ATTR_ACTIVE_CONNS
  · cases hv : native.Uint32 a.Value.elems with
    | error e =>
      refine Or.inl ⟨e, fun acc => ?_⟩
      unfold destinationStep
      rw [if_neg t0, if_neg t1, if_neg t2, if_neg t3, if_neg t4, if_pos t5, hv]
      rfl
    | ok v =>
      refine Or.inr ⟨fun acc => ({ acc.1 with ActiveConnections := v }, acc.2), fun acc => ?_, ?_⟩
      · unfold destinationStep
        rw [if_neg t0, if_neg t1, if_neg t2, if_neg t3, if_neg t4, if_pos t5, hv]
        rfl
      · exact Or.inr (Or.inr (Or.inr (Or.inr (Or.inr (Or.inr (Or.inl (⟨t5, v, fun _ => rfl⟩)))))))
  by_cases t6 : a.Typ = IPVS_DEST_ATTR_INACT_CONNS
  · cases hv : native.Uint32 a.Value.elems with
    | error e =>
      refine Or.inl ⟨e, fun acc => ?_⟩
      unfold destinationStep
      rw [if_neg t0, if_neg t1, if_neg t2, if_neg t3, if_neg t4, if_neg t5, if_pos t6, hv]
      rfl
    | ok v =>
      refine Or.inr ⟨fun acc => ({ acc.1 with InActiveConnections := v }, acc.2), fun acc => ?_, ?_⟩
      · unfold destinationStep
        rw [if_neg t0, if_neg t1, if_neg t2, if_neg t3, if_neg t4, if_neg t5, if_pos t6, hv]
        rfl
      · exact Or.inr (Or.inr (Or.inr (Or.inr (Or.inr (Or.inr (Or.inr (Or.inl (⟨t6, v, fun _ => rfl⟩))))))))
  by_cases t7 : a.Typ = IPVS_DEST_ATTR_PERSIST_CONNS
  · cases hv : native.Uint32 a.Value.elems with
    | error e =>
      refine Or.inl ⟨e, fun acc => ?_⟩
      unfold destinationStep
      rw [if_neg t0, if_neg t1, if_neg t2, if_neg t3, if_neg t4, if_neg t5, if_neg t6, if_pos t7, hv]
      rfl
    | ok v =>
      refine Or.inr ⟨fun acc => ({ acc.1 with PersistConnections := v }, acc.2), fun acc => ?_, ?_⟩
      · unfold destinationStep
        rw [if_neg t0, if_neg t1, if_neg t2, if_neg t3, if_neg t4, if_neg t5, if_neg t6, if_pos t7, hv]
        rfl
      · exact Or.inr (Or.inr (Or.inr (Or.inr (Or.inr (Or.inr (Or.inr (Or.inr (Or.inl (⟨t7, v, fun _ => rfl⟩)))))))))
  by_cases t8 : a.Typ = IPVS_DEST_ATTR_ADDR_FAMILY
  · cases hv : native.Uint16 a.Value.elems with
    | error e =>
      refine Or.inl ⟨e, fun acc => ?_⟩
      unfold destinationStep
      rw [if_neg t0, if_neg t1, if_neg t2, if_neg t3, if_neg t4, if_neg t5, if_neg t6, if_neg t7, if_pos t8, hv]
      rfl
    | ok v =>
      by_cases v0 : v = AF_INET
      · refine Or.inr ⟨fun acc => ({ acc.1 with AddressFamily := str "IPv4" }, acc.2), fun acc => ?_, ?_⟩
        · unfold destinationStep
          rw [if_neg t0, if_neg t1, if_neg t2, if_neg t3, if_neg t4, if_neg t5, if_neg t6, if_neg t7, if_pos t8, hv]
          simp only [bind, Except.bind, pure, Except.pure, if_pos v0]
        · exact Or.inr (Or.inr (Or.inr (Or.inr (Or.inr (Or.inr (Or.inr (Or.inr (Or.inr (Or.inl (⟨t8, str "IPv4", fun _ => rfl⟩))))))))))
      by_cases v1 : v = AF_INET6
      · refine Or.inr ⟨fun acc => ({ acc.1 with AddressFamily := str "IPv6" }, acc.2), fun acc => ?_, ?_⟩
        · unfold destinationStep
          rw [if_neg t0, if_neg t1, if_neg t2, if_neg t3, if_neg t4, if_neg t5, if_neg t6, if_neg t7, if_pos t8, hv]
          simp only [bind, Except.bind, pure, Except.pure, if_neg v0, if_pos v1]
        · exact Or.inr (Or.inr (Or.inr (Or.inr (Or.inr (Or.inr (Or.inr (Or.inr (Or.inr (Or.inl (⟨t8, str "IPv6", fun _ => rfl⟩))))))))))
      refine Or.inr ⟨fun acc => acc, fun acc => ?_, ?_⟩
      · unfold destinationStep
        rw [if_neg t0, if_neg t1, if_neg t2, if_neg t3, if_neg t4, if_neg t5, if_neg t6, if_neg t7, if_pos t8, hv]
        simp only [bind, Except.bind, pure, Except.pure, if_neg v0, if_neg v1]
      · exact Or.inl (fun _ => rfl)
  by_cases t9 : a.Typ = IPVS_DEST_ATTR_ADDR
  · refine Or.inr ⟨fun acc => (acc.1, a.Value), fun acc => ?_, ?_⟩
    · unfold destinationStep
      rw [if_neg t0, if_neg t1, if_neg t2, if_neg t3, if_neg t4, if_neg t5, if_neg t6, if_neg t7, if_neg t8, if_pos t9]
      rfl
    · exact Or.inr (Or.inr (Or.inr (Or.inr (Or.inr (Or.inr (Or.inr (Or.inr (Or.inr (Or.inr (Or.inl (⟨t9, a.Value, fun _ => rfl⟩)))))))))))
  by_cases t10 : a.Typ = IPVS_SVC_ATTR_STATS
  · cases hv : assembleStats native a.Value with
    | error e =>
      refine Or.inl ⟨e, fun acc => ?_⟩
      unfold destinationStep
      rw [if_neg t0, if_neg t1, if_neg t2, if_neg t3, if_neg t4, if_neg t5, if_neg t6, if_neg t7, if_neg t8, if_neg t9, if_pos t10, hv]
      rfl
    | ok v =>
      refine Or.inr ⟨fun acc => ({ acc.1 with Stats := v }, acc.2), fun acc => ?_, ?_⟩
      · unfold destinationStep
        rw [if_neg t0, if_neg t1, if_neg t2, if_neg t3, if_neg t4, if_neg t5, if_neg t6, if_neg t7, if_neg t8, if_neg t9, if_pos t10, hv]
        rfl
      · exact Or.inr (Or.inr (Or.inr (Or.inr (Or.inr (Or.inr (Or.inr (Or.inr (Or.inr (Or.inr (Or.inr (⟨t10, v, fun _ => rfl⟩)))))))))))
  refine Or.inr ⟨fun acc => acc, fun acc => ?_, Or.inl (fun _ => rfl)⟩
  unfold destinationStep
  rw [if_neg t0, if_neg t1, if_neg t2, if_neg t3, if_neg t4, if_neg t5, if_neg t6, if_neg t7, if_neg t8, if_neg t9, if_neg t10]
  rfl

/-- Two rounds of the loop on records of different types can be exchanged. -/
theorem serviceStep_comm (native : ByteOrder) (acc acc1 acc2 : ServiceEntry × ByteSlice)
    (a b : NetlinkRouteAttr) (hne : a.Typ ≠ b.Typ) (h1 : serviceStep native acc a = .ok acc1)
    (h2 : serviceStep native acc1 b = .ok acc2) :
    ∃ acc3, serviceStep native acc b = .ok acc3 ∧ serviceStep native acc3 a = .ok acc2 := by
  rcases serviceStep_form native a with ⟨e, he⟩ | ⟨ua, hua, fa⟩
  · rw [he] at h1
    cases h1
  rcases serviceStep_form native b with ⟨e, he⟩ | ⟨ub, hub, fb⟩
  · rw [he] at h2
    cases h2
  rw [hua] at h1
  cases h1
  rw [hub] at h2
  cases h2
  refine ⟨ub acc, hub acc, ?_⟩
  rw [hua]
  congr 1
  rcases fa with f | ⟨t, x, f⟩ | ⟨t, x, f⟩ | ⟨t, x, f⟩ | ⟨t, x, f⟩ | ⟨t, x, f⟩ | ⟨t, x, f⟩ | ⟨t, x, f⟩ | ⟨t, x, f⟩ | ⟨t, x, f⟩ | ⟨t, x, f⟩ <;>
    rcases fb with g | ⟨s, y, g⟩ | ⟨s, y, g⟩ | ⟨s, y, g⟩ | ⟨s, y, g⟩ | ⟨s, y, g⟩ | ⟨s, y, g⟩ | ⟨s, y, g⟩ | ⟨s, y, g⟩ | ⟨s, y, g⟩ | ⟨s, y, g⟩ <;>
    first
    | exact absurd (t.trans s.symm) hne
    | simp only [f, g]

/-- Two rounds of the loop on records of different types can be exchanged. -/
theorem destinationStep_comm (native : ByteOrder) (acc acc1 acc2 : DestinationEntry × ByteSlice)
    (a b : NetlinkRouteAttr) (hne : a.Typ ≠ b.Typ) (h1 : destinationStep native acc a = .ok acc1)
    (h2 : destinationStep native acc1 b = .ok acc2) :
    ∃ acc3, destinationStep native acc b = .ok acc3 ∧ destinationStep native acc3 a = .ok acc2 := by
  rcases destinationStep_form native a with ⟨e, he⟩ | ⟨ua, hua, fa⟩
  · rw [he] at h1
    cases h1
  rcases destinationStep_form native b with ⟨e, he⟩ | ⟨ub, hub, fb⟩
  · rw [he] at h2
    cases h2
  rw [hua] at h1
  cases h1
  rw [hub] at h2
  cases h2
  refine ⟨ub acc, hub acc, ?_⟩
  rw [hua]
  congr 1
  rcases fa with f | ⟨t, x, f⟩ | ⟨t, x, f⟩ | ⟨t, x, f⟩ | ⟨t, x, f⟩ | ⟨t, x, f⟩ | ⟨t, x, f⟩ | ⟨t, x, f⟩ | ⟨t, x, f⟩ | ⟨t, x, f⟩ | ⟨t, x, f⟩ | ⟨t, x, f⟩ <;>
    rcases fb with g | ⟨s, y, g⟩ | ⟨s, y, g⟩ | ⟨s, y, g⟩ | ⟨s, y, g⟩ | ⟨s, y, g⟩ | ⟨s, y, g⟩ | ⟨s, y, g⟩ | ⟨s, y, g⟩ | ⟨s, y, g⟩ | ⟨s, y, g⟩ | ⟨s, y, g⟩ <;>
    first
    | exact absurd (t.trans s.symm) hne
    | simp only [f, g]

/-- A loop whose rounds on elements of different tags can be exchanged ends
in the same state on every permutation of a list of pairwise distinct tags. -/
theorem foldlM_perm {α β : Type} (step : β → α → Except Err β) (tag : α → Nat)
    (hcomm : ∀ acc acc1 acc2 a b, tag a ≠ tag b → step acc a = .ok acc1 →
      step acc1 b = .ok acc2 → ∃ acc3, step acc b = .ok acc3 ∧ step acc3 a = .ok acc2)
    (l l1 : List α) (hperm : l.Perm l1) :
    (l.map tag).Nodup → ∀ acc r, l.foldlM step acc = .ok r → l1.foldlM step acc = .ok r := by
  induction hperm with
  | nil => intro _ acc r h; exact h
  | cons x _ ih =>
    intro hnd acc r h
    rw [List.map_cons, List.nodup_cons] at hnd
    rw [List.foldlM_cons] at h ⊢
    cases hs : step acc x with
    | error e =>
      rw [hs] at h
      cases h
    | ok acc1 =>
      rw [hs] at h
      exact ih hnd.2 acc1 r h
  | swap x y l =>
    intro hnd acc r h
    rw [List.map_cons, List.map_cons, List.nodup_cons] at hnd
    have hne : tag y ≠ tag x := fun hc => hnd.1 (hc ▸ List.mem_cons_self _ _)
    simp only [List.foldlM_cons] at h ⊢
    cases hs : step acc y with
    | error e =>
      rw [hs] at h
      cases h
    | ok acc1 =>
      rw [hs] at h
      cases hs2 : step acc1 x with
      | error e =>
        simp only [bind, Except.bind, hs2] at h
        cases h
      | ok acc2 =>
        simp only [bind, Except.bind, hs2] at h
        obtain ⟨acc3, h3, h4⟩ := hcomm acc acc1 acc2 y x hne hs hs2
        simp only [bind, Except.bind, h3, h4]
        exact h
  | trans h1 _ ih1 ih2 =>
    intro hnd acc r h
    exact ih2 ((h1.map tag).nodup_iff.mp hnd) acc r (ih1 hnd acc r h)

/-! ## The first record that fails -/

theorem serviceRecordError_spec (native : ByteOrder) (a : NetlinkRouteAttr) :
    (∀ e, serviceRecordError native a = some e → ∀ acc, serviceStep native acc a = .error e)
      ∧ (serviceRecordError native a = none → ∀ acc, ∃ acc1, serviceStep native acc a = .ok acc1) := by
  unfold serviceRecordError
  rcases serviceStep_form native a with ⟨e0, he⟩ | ⟨u, hu, -⟩
  · rw [he]
    exact ⟨fun e h acc => (by cases h; exact he acc), fun h => (by cases h)⟩
  · rw [hu]
    exact ⟨fun e h => (by cases h), fun _ acc => ⟨u acc, hu acc⟩⟩

theorem destinationRecordError_spec (native : ByteOrder) (a : NetlinkRouteAttr) :
    (∀ e, destinationRecordError native a = some e →
        ∀ acc, destinationStep native acc a = .error e)
      ∧ (destinationRecordError native a = none →
        ∀ acc, ∃ acc1, destinationStep native acc a = .ok acc1) := by
  unfold destinationRecordError
  rcases destinationStep_form native a with ⟨e0, he⟩ | ⟨u, hu, -⟩
  · rw [he]
    exact ⟨fun e h acc => (by cases h; exact he acc), fun h => (by cases h)⟩
  · rw [hu]
    exact ⟨fun e h => (by cases h), fun _ acc => ⟨u acc, hu acc⟩⟩

/-- A loop whose rounds fail or not whatever the state fails with the error of
the first element whose round fails, and completes when there is none. -/
theorem foldlM_first_error {α β : Type} (step : β → α → Except Err β) (err : α → Option Err)
    (hspec : ∀ a, (∀ e, err a = some e → ∀ acc, step acc a = .error e)
      ∧ (err a = none → ∀ acc, ∃ acc1, step acc a = .ok acc1)) :
    ∀ (l : List α) (acc : β),
      (∀ e, l.findSome? err = some e → l.foldlM step acc = .error e)
        ∧ (l.findSome? err = none → ∃ r, l.foldlM step acc = .ok r) := by
  intro l
  induction l with
  | nil =>
    intro acc
    exact ⟨fun e h => (by cases h), fun _ => ⟨acc, rfl⟩⟩
  | cons a l ih =>
    intro acc
    rw [List.findSome?_cons, List.foldlM_cons]
    cases ha : err a with
    | some e0 =>
      rw [(hspec a).1 e0 ha acc]
      exact ⟨fun e h => (by cases h; rfl), fun h => (by cases h)⟩
    | none =>
      obtain ⟨acc1, h1⟩ := (hspec a).2 ha acc
      rw [h1]
      exact ih acc1

/-! ## Order of the records (C24) -/

/-- C24, counterexample: two lists of two records of different types, and the
same records in the other order, on which the decoders do not return the same
result. On the service records the decoder returns the unsupported-protocol
error in one order and EINVAL in the other; on the destination records it
returns the unsupported-method error in one order and panics in the other. -/
theorem decode_error_depends_on_order :
    ((twoFailingRecords.map (fun a => a.Typ)).Nodup
        ∧ twoFailingRecords.Perm twoFailingRecordsSwapped
        ∧ assembleServiceInterface .LittleEndian twoFailingRecords
          = .error (.notSupportProtocolValue 1)
        ∧ assembleServiceInterface .LittleEndian twoFailingRecordsSwapped = .error .EINVAL)
      ∧ ((twoFailingDestinationRecords.map (fun a => a.Typ)).Nodup
        ∧ twoFailingDestinationRecords.Perm twoFailingDestinationRecordsSwapped
        ∧ assembleDestinationInterface .LittleEndian twoFailingDestinationRecords
          = .error (.notSupportMethod (str ""))
        ∧ assembleDestinationInterface .LittleEndian twoFailingDestinationRecordsSwapped
          = .error .panic) :=
  ⟨⟨by decide, List.Perm.swap _ _ _, by decide, by decide⟩,
    ⟨by decide, List.Perm.swap _ _ _, by decide, by decide⟩⟩

/-- C24, amended: for every list of attribute records whose types are pairwise
distinct and every permutation of that list: when the loop of
`assembleServiceInterface` over the list completes, the decoder returns the
same result on both; so an entry returned on the list is returned on the
permutation; when the decoder fails on the list it fails on the permutation;
when the round of some record of the permutation fails, the decoder returns on
the permutation the error of the first such record in the order of the
permutation; and when the round of no record fails, it returns on the
permutation what it returns on the list. The same holds for
`assembleDestinationInterface`. -/
theorem decoding_is_order_independent (native : ByteOrder) (l l1 : List NetlinkRouteAttr)
    (hperm : l.Perm l1) (hnd : (l.map (fun a => a.Typ)).Nodup) :
    ((∀ acc, l.foldlM (serviceStep native) ({}, ByteSlice.nil) = .ok acc →
          assembleServiceInterface native l1 = assembleServiceInterface native l)
        ∧ (∀ s, assembleServiceInterface native l = .ok s →
          assembleServiceInterface native l1 = .ok s)
        ∧ (∀ e, assembleServiceInterface native l = .error e →
          ∃ e1, assembleServiceInterface native l1 = .error e1)
        ∧ (∀ e1, l1.findSome? (serviceRecordError native) = some e1 →
          assembleServiceInterface native l1 = .error e1)
        ∧ (l1.findSome? (serviceRecordError native) = none →
          assembleServiceInterface native l1 = assembleServiceInterface native l))
      ∧ ((∀ acc, l.foldlM (destinationStep native) ({}, ByteSlice.nil) = .ok acc →
          assembleDestinationInterface native l1 = assembleDestinationInterface native l)
        ∧ (∀ d, assembleDestinationInterface native l = .ok d →
          assembleDestinationInterface native l1 = .ok d)
        ∧ (∀ e, assembleDestinationInterface native l = .error e →
          ∃ e1, assembleDestinationInterface native l1 = .error e1)
        ∧ (∀ e1, l1.findSome? (destinationRecordError native) = some e1 →
          assembleDestinationInterface native l1 = .error e1)
        ∧ (l1.findSome? (destinationRecordError native) = none →
          assembleDestinationInterface native l1
            = assembleDestinationInterface native l)) := by
  have hnd1 : (l1.map (fun a => a.Typ)).Nodup := (hperm.map _).nodup_iff.mp hnd
  have sfold : ∀ (m m1 : List NetlinkRouteAttr), m.Perm m1 → (m.map (fun a => a.Typ)).Nodup →
      ∀ acc, m.foldlM (serviceStep native) ({}, ByteSlice.nil) = .ok acc →
        assembleServiceInterface native m1 = assembleServiceInterface native m := by
    intro m m1 hp hn acc h
    have h1 := foldlM_perm (serviceStep native) (fun a => a.Typ)
      (fun acc acc1 acc2 a b => serviceStep_comm native acc acc1 acc2 a b) m m1 hp hn _ _ h
    unfold assembleServiceInterface
    rw [h, h1]
  have sok : ∀ (m m1 : List NetlinkRouteAttr), m.Perm m1 → (m.map (fun a => a.Typ)).Nodup →
      ∀ s, assembleServiceInterface native m = .ok s →
        assembleServiceInterface native m1 = .ok s := by
    intro m m1 hp hn s hs
    cases hf : m.foldlM (serviceStep native) ({}, ByteSlice.nil) with
    | error e =>
      unfold assembleServiceInterface at hs
      rw [hf] at hs
      cases hs
    | ok acc =>
      rw [sfold m m1 hp hn acc hf]
      exact hs
  have dfold : ∀ (m m1 : List NetlinkRouteAttr), m.Perm m1 → (m.map (fun a => a.Typ)).Nodup →
      ∀ acc, m.foldlM (destinationStep native) ({}, ByteSlice.nil) = .ok acc →
        assembleDestinationInterface native m1 = assembleDestinationInterface native m := by
    intro m m1 hp hn acc h
    have h1 := foldlM_perm (destinationStep native) (fun a => a.Typ)
      (fun acc acc1 acc2 a b => destinationStep_comm native acc acc1 acc2 a b) m m1 hp hn _ _ h
    unfold assembleDestinationInterface
    rw [h, h1]
  have dok : ∀ (m m1 : List NetlinkRouteAttr), m.Perm m1 → (m.map (fun a => a.Typ)).Nodup →
      ∀ d, assembleDestinationInterface native m = .ok d →
        assembleDestinationInterface native m1 = .ok d := by
    intro m m1 hp hn d hd
    cases hf : m.foldlM (destinationStep native) ({}, ByteSlice.nil) with
    | error e =>
      unfold assembleDestinationInterface at hd
      rw [hf] at hd
      cases hd
    | ok acc =>
      rw [dfold m m1 hp hn acc hf]
      exact hd
  have sfirst := foldlM_first_error (serviceStep native) (serviceRecordError native)
    (serviceRecordError_spec native) l1 ({}, ByteSlice.nil)
  have dfirst := foldlM_first_error (destinationStep native) (destinationRecordError native)
    (destinationRecordError_spec native) l1 ({}, ByteSlice.nil)
  refine ⟨⟨sfold l l1 hperm hnd, sok l l1 hperm hnd, ?_, ?_, ?_⟩,
    ⟨dfold l l1 hperm hnd, dok l l1 hperm hnd, ?_, ?_, ?_⟩⟩
  · intro e he
    cases h1 : assembleServiceInterface native l1 with
    | error e1 => exact ⟨e1, rfl⟩
    | ok s =>
      rw [sok l1 l hperm.symm hnd1 s h1] at he
      cases he
  · intro e1 h1
    unfold assembleServiceInterface
    rw [sfirst.1 e1 h1]
    rfl
  · intro h1
    obtain ⟨r, hr⟩ := sfirst.2 h1
    exact (sfold l1 l hperm.symm hnd1 r hr).symm
  · intro e he
    cases h1 : assembleDestinationInterface native l1 with
    | error e1 => exact ⟨e1, rfl⟩
    | ok d =>
      rw [dok l1 l hperm.symm hnd1 d h1] at he
      cases he
  · intro e1 h1
    unfold assembleDestinationInterface
    rw [dfirst.1 e1 h1]
    rfl
  · intro h1
    obtain ⟨r, hr⟩ := dfirst.2 h1
    exact (dfold l1 l hperm.symm hnd1 r hr).symm

/-- Witness of `decoding_is_order_independent`: the records of the service
`10.0.0.2:81` and of the destination `127.2.1.1:8888` in reverse order, where
the address leaf of the service precedes its address-family leaf; and the two
failing service records in the other order, where the stats leaf comes first
and its error is returned. -/
theorem decoding_is_order_independent_witness :
    ((otherServiceRecords.map (fun a => a.Typ)).Nodup
        ∧ (oneDestinationRecords.map (fun a => a.Typ)).Nodup
        ∧ (twoFailingRecords.map (fun a => a.Typ)).Nodup
        ∧ assembleServiceInterface .LittleEndian otherServiceRecords = .ok otherService
        ∧ assembleDestinationInterface .LittleEndian oneDestinationRecords
          = .ok decodedDestination
        ∧ twoFailingRecordsSwapped.findSome? (serviceRecordError .LittleEndian)
          = some Err.EINVAL)
      ∧ assembleServiceInterface .LittleEndian otherServiceRecords.reverse = .ok otherService
      ∧ assembleDestinationInterface .LittleEndian oneDestinationRecords.reverse
        = .ok decodedDestination
      ∧ assembleServiceInterface .LittleEndian twoFailingRecordsSwapped = .error .EINVAL :=
  ⟨⟨by decide, by decide, by decide, by decide, by decide, by decide⟩,
    (decoding_is_order_independent .LittleEndian otherServiceRecords
      otherServiceRecords.reverse (List.reverse_perm _).symm (by decide)).1.2.1 _ (by decide),
    (decoding_is_order_independent .LittleEndian oneDestinationRecords
      oneDestinationRecords.reverse (List.reverse_perm _).symm (by decide)).2.2.1 _ (by decide),
    (decoding_is_order_independent .LittleEndian twoFailingRecords twoFailingRecordsSwapped
      (List.Perm.swap _ _ _) (by decide)).1.2.2.2.1 _ (by decide)⟩

/-! ## Stats (C23) -/

/-- What one round of the loop of `assembleStats` does to each field: a leaf of
the type of the field sets it to the host-order value read from the leaf, and
any other leaf leaves it as it was. -/
theorem statsStep_fields (native : ByteOrder) (s0 s : Stats) (a : NetlinkRouteAttr)
    (h : statsStep native s0 a = .ok s) :
    ((a.Typ = IPVS_STATS_ATTR_CONNS ∧ native.Uint32 a.Value.elems = .ok s.Connections)
        ∨ (a.Typ ≠ IPVS_STATS_ATTR_CONNS ∧ s.Connections = s0.Connections))
      ∧ ((a.Typ = IPVS_STATS_ATTR_INPKTS ∧ native.Uint32 a.Value.elems = .ok s.PacketsIn)
        ∨ (a.Typ ≠ IPVS_STATS_ATTR_INPKTS ∧ s.PacketsIn = s0.PacketsIn))
      ∧ ((a.Typ = IPVS_STATS_ATTR_OUTPKTS ∧ native.Uint32 a.Value.elems = .ok s.PacketsOut)
        ∨ (a.Typ ≠ IPVS_STATS_ATTR_OUTPKTS ∧ s.PacketsOut = s0.PacketsOut))
      ∧ ((a.Typ = IPVS_STATS_ATTR_INBYTES ∧ native.Uint64 a.Value.elems = .ok s.BytesIn)
        ∨ (a.Typ ≠ IPVS_STATS_ATTR_INBYTES ∧ s.BytesIn = s0.BytesIn))
      ∧ ((a.Typ = IPVS_STATS_ATTR_OUTBYTES ∧ native.Uint64 a.Value.elems = .ok s.BytesOut)
        ∨ (a.Typ ≠ IPVS_STATS_ATTR_OUTBYTES ∧ s.BytesOut = s0.BytesOut))
      ∧ ((a.Typ = IPVS_STATS_ATTR_CPS ∧ native.Uint32 a.Value.elems = .ok s.CPS)
        ∨ (a.Typ ≠ IPVS_STATS_ATTR_CPS ∧ s.CPS = s0.CPS))
      ∧ ((a.Typ = IPVS_STATS_ATTR_INPPS ∧ native.Uint32 a.Value.elems = .ok s.PPSIn)
        ∨ (a.Typ ≠ IPVS_STATS_ATTR_INPPS ∧ s.PPSIn = s0.PPSIn))
      ∧ ((a.Typ = IPVS_STATS_ATTR_OUTPPS ∧ native.Uint32 a.Value.elems = .ok s.PPSOut)
        ∨ (a.Typ ≠ IPVS_STATS_ATTR_OUTPPS ∧ s.PPSOut = s0.PPSOut))
      ∧ ((a.Typ = IPVS_STATS_ATTR_INBPS ∧ native.Uint32 a.Value.elems = .ok s.BPSIn)
        ∨ (a.Typ ≠ IPVS_STATS_ATTR_INBPS ∧ s.BPSIn = s0.BPSIn))
      ∧ ((a.Typ = IPVS_STATS_ATTR_OUTBPS ∧ native.Uint32 a.Value.elems = .ok s.BPSOut)
        ∨ (a.Typ ≠ IPVS_STATS_ATTR_OUTBPS ∧ s.BPSOut = s0.BPSOut)) := by
  unfold statsStep at h
  by_cases t0 : a.Typ = IPVS_STATS_ATTR_CONNS
  · rw [if_pos t0] at h
    cases hu : native.Uint32 a.Value.elems with
    | error e =>
      rw [hu] at h
      cases h
    | ok v =>
      rw [hu] at h
      cases h
      exact ⟨Or.inl ⟨t0, rfl⟩,
        Or.inr ⟨by rw [t0]; decide, rfl⟩,
        Or.inr ⟨by rw [t0]; decide, rfl⟩,
        Or.inr ⟨by rw [t0]; decide, rfl⟩,
        Or.inr ⟨by rw [t0]; decide, rfl⟩,
        Or.inr ⟨by rw [t0]; decide, rfl⟩,
        Or.inr ⟨by rw [t0]; decide, rfl⟩,
        Or.inr ⟨by rw [t0]; decide, rfl⟩,
        Or.inr ⟨by rw [t0]; decide, rfl⟩,
        Or.inr ⟨by rw [t0]; decide, rfl⟩⟩
  rw [if_neg t0] at h
  by_cases t1 : a.Typ = IPVS_STATS_ATTR_INPKTS
  · rw [if_pos t1] at h
    cases hu : native.Uint32 a.Value.elems with
    | error e =>
      rw [hu] at h
      cases h
    | ok v =>
      rw [hu] at h
      cases h
      exact ⟨Or.inr ⟨by rw [t1]; decide, rfl⟩,
        Or.inl ⟨t1, rfl⟩,
        Or.inr ⟨by rw [t1]; decide, rfl⟩,
        Or.inr ⟨by rw [t1]; decide, rfl⟩,
        Or.inr ⟨by rw [t1]; decide, rfl⟩,
        Or.inr ⟨by rw [t1]; decide, rfl⟩,
        Or.inr ⟨by rw [t1]; decide, rfl⟩,
        Or.inr ⟨by rw [t1]; decide, rfl⟩,
        Or.inr ⟨by rw [t1]; decide, rfl⟩,
        Or.inr ⟨by rw [t1]; decide, rfl⟩⟩
  rw [if_neg t1] at h
  by_cases t2 : a.Typ = IPVS_STATS_ATTR_OUTPKTS
  · rw [if_pos t2] at h
    cases hu : native.Uint32 a.Value.elems with
    | error e =>
      rw [hu] at h
      cases h
    | ok v =>
      rw [hu] at h
      cases h
      exact ⟨Or.inr ⟨by rw [t2]; decide, rfl⟩,
        Or.inr ⟨by rw [t2]; decide, rfl⟩,
        Or.inl ⟨t2, rfl⟩,
        Or.inr ⟨by rw [t2]; decide, rfl⟩,
        Or.inr ⟨by rw [t2]; decide, rfl⟩,
        Or.inr ⟨by rw [t2]; decide, rfl⟩,
        Or.inr ⟨by rw [t2]; decide, rfl⟩,
        Or.inr ⟨by rw [t2]; decide, rfl⟩,
        Or.inr ⟨by rw [t2]; decide, rfl⟩,
        Or.inr ⟨by rw [t2]; decide, rfl⟩⟩
  rw [if_neg t2] at h
  by_cases t3 : a.Typ = IPVS_STATS_ATTR_INBYTES
  · rw [if_pos t3] at h
    cases hu : native.Uint64 a.Value.elems with
    | error e =>
      rw [hu] at h
      cases h
    | ok v =>
      rw [hu] at h
      cases h
      exact ⟨Or.inr ⟨by rw [t3]; decide, rfl⟩,
        Or.inr ⟨by rw [t3]; decide, rfl⟩,
        Or.inr ⟨by rw [t3]; decide, rfl⟩,
        Or.inl ⟨t3, rfl⟩,
        Or.inr ⟨by rw [t3]; decide, rfl⟩,
        Or.inr ⟨by rw [t3]; decide, rfl⟩,
        Or.inr ⟨by rw [t3]; decide, rfl⟩,
        Or.inr ⟨by rw [t3]; decide, rfl⟩,
        Or.inr ⟨by rw [t3]; decide, rfl⟩,
        Or.inr ⟨by rw [t3]; decide, rfl⟩⟩
  rw [if_neg t3] at h
  by_cases t4 : a.Typ = IPVS_STATS_ATTR_OUTBYTES
  · rw [if_pos t4] at h
    cases hu : native.Uint64 a.Value.elems with
    | error e =>
      rw [hu] at h
      cases h
    | ok v =>
      rw [hu] at h
      cases h
      exact ⟨Or.inr ⟨by rw [t4]; decide, rfl⟩,
        Or.inr ⟨by rw [t4]; decide, rfl⟩,
        Or.inr ⟨by rw [t4]; decide, rfl⟩,
        Or.inr ⟨by rw [t4]; decide, rfl⟩,
        Or.inl ⟨t4, rfl⟩,
        Or.inr ⟨by rw [t4]; decide, rfl⟩,
        Or.inr ⟨by rw [t4]; decide, rfl⟩,
        Or.inr ⟨by rw [t4]; decide, rfl⟩,
        Or.inr ⟨by rw [t4]; decide, rfl⟩,
        Or.inr ⟨by rw [t4]; decide, rfl⟩⟩
  rw [if_neg t4] at h
  by_cases t5 : a.Typ = IPVS_STATS_ATTR_CPS
  · rw [if_pos t5] at h
    cases hu : native.Uint32 a.Value.elems with
    | error e =>
      rw [hu] at h
      cases h
    | ok v =>
      rw [hu] at h
      cases h
      exact ⟨Or.inr ⟨by rw [t5]; decide, rfl⟩,
        Or.inr ⟨by rw [t5]; decide, rfl⟩,
        Or.inr ⟨by rw [t5]; decide, rfl⟩,
        Or.inr ⟨by rw [t5]; decide, rfl⟩,
        Or.inr ⟨by rw [t5]; decide, rfl⟩,
        Or.inl ⟨t5, rfl⟩,
        Or.inr ⟨by rw [t5]; decide, rfl⟩,
        Or.inr ⟨by rw [t5]; decide, rfl⟩,
        Or.inr ⟨by rw [t5]; decide, rfl⟩,
        Or.inr ⟨by rw [t5]; decide, rfl⟩⟩
  rw [if_neg t5] at h
  by_cases t6 : a.Typ = IPVS_STATS_ATTR_INPPS
  · rw [if_pos t6] at h
    cases hu : native.Uint32 a.Value.elems with
    | error e =>
      rw [hu] at h
      cases h
    | ok v =>
      rw [hu] at h
      cases h
      exact ⟨Or.inr ⟨by rw [t6]; decide, rfl⟩,
        Or.inr ⟨by rw [t6]; decide, rfl⟩,
        Or.inr ⟨by rw [t6]; decide, rfl⟩,
        Or.inr ⟨by rw [t6]; decide, rfl⟩,
        Or.inr ⟨by rw [t6]; decide, rfl⟩,
        Or.inr ⟨by rw [t6]; decide, rfl⟩,
        Or.inl ⟨t6, rfl⟩,
        Or.inr ⟨by rw [t6]; decide, rfl⟩,
        Or.inr ⟨by rw [t6]; decide, rfl⟩,
        Or.inr ⟨by rw [t6]; decide, rfl⟩⟩
  rw [if_neg t6] at h
  by_cases t7 : a.Typ = IPVS_STATS_ATTR_OUTPPS
  · rw [if_pos t7] at h
    cases hu : native.Uint32 a.Value.elems with
    | error e =>
      rw [hu] at h
      cases h
    | ok v =>
      rw [hu] at h
      cases h
      exact ⟨Or.inr ⟨by rw [t7]; decide, rfl⟩,
        Or.inr ⟨by rw [t7]; decide, rfl⟩,
        Or.inr ⟨by rw [t7]; decide, rfl⟩,
        Or.inr ⟨by rw [t7]; decide, rfl⟩,
        Or.inr ⟨by rw [t7]; decide, rfl⟩,
        Or.inr ⟨by rw [t7]; decide, rfl⟩,
        Or.inr ⟨by rw [t7]; decide, rfl⟩,
        Or.inl ⟨t7, rfl⟩,
        Or.inr ⟨by rw [t7]; decide, rfl⟩,
        Or.inr ⟨by rw [t7]; decide, rfl⟩⟩
  rw [if_neg t7] at h
  by_cases t8 : a.Typ = IPVS_STATS_ATTR_INBPS
  · rw [if_pos t8] at h
    cases hu : native.Uint32 a.Value.elems with
    | error e =>
      rw [hu] at h
      cases h
    | ok v =>
      rw [hu] at h
      cases h
      exact ⟨Or.inr ⟨by rw [t8]; decide, rfl⟩,
        Or.inr ⟨by rw [t8]; decide, rfl⟩,
        Or.inr ⟨by rw [t8]; decide, rfl⟩,
        Or.inr ⟨by rw [t8]; decide, rfl⟩,
        Or.inr ⟨by rw [t8]; decide, rfl⟩,
        Or.inr ⟨by rw [t8]; decide, rfl⟩,
        Or.inr ⟨by rw [t8]; decide, rfl⟩,
        Or.inr ⟨by rw [t8]; decide, rfl⟩,
        Or.inl ⟨t8, rfl⟩,
        Or.inr ⟨by rw [t8]; decide, rfl⟩⟩
  rw [if_neg t8] at h
  by_cases t9 : a.Typ = IPVS_STATS_ATTR_OUTBPS
  · rw [if_pos t9] at h
    cases hu : native.Uint32 a.Value.elems with
    | error e =>
      rw [hu] at h
      cases h
    | ok v =>
      rw [hu] at h
      cases h
      exact ⟨Or.inr ⟨by rw [t9]; decide, rfl⟩,
        Or.inr ⟨by rw [t9]; decide, rfl⟩,
        Or.inr ⟨by rw [t9]; decide, rfl⟩,
        Or.inr ⟨by rw [t9]; decide, rfl⟩,
        Or.inr ⟨by rw [t9]; decide, rfl⟩,
        Or.inr ⟨by rw [t9]; decide, rfl⟩,
        Or.inr ⟨by rw [t9]; decide, rfl⟩,
        Or.inr ⟨by rw [t9]; decide, rfl⟩,
        Or.inr ⟨by rw [t9]; decide, rfl⟩,
        Or.inl ⟨t9, rfl⟩⟩
  rw [if_neg t9] at h
  cases h
  exact ⟨Or.inr ⟨t0, rfl⟩,
    Or.inr ⟨t1, rfl⟩,
    Or.inr ⟨t2, rfl⟩,
    Or.inr ⟨t3, rfl⟩,
    Or.inr ⟨t4, rfl⟩,
    Or.inr ⟨t5, rfl⟩,
    Or.inr ⟨t6, rfl⟩,
    Or.inr ⟨t7, rfl⟩,
    Or.inr ⟨t8, rfl⟩,
    Or.inr ⟨t9, rfl⟩⟩

theorem lastWith_append_singleton (tag : Nat) (l : List NetlinkRouteAttr)
    (a : NetlinkRouteAttr) :
    lastWith tag (l ++ [a]) = if a.Typ = tag then some a else lastWith tag l := by
  unfold lastWith
  rw [List.filter_append]
  by_cases h : a.Typ = tag
  · rw [if_pos h, List.filter_cons_of_pos (by simpa using h), List.filter_nil,
      List.getLast?_concat]
  · rw [if_neg h, List.filter_cons_of_neg (by simpa using h), List.filter_nil,
      List.append_nil]

/-- In a loop where only the records of type `tag` change the component `proj`
of the state, and set it to what `read` gives on their value, the component
ends as the last record of type `tag` set it. -/
theorem foldlM_last_wins {β : Type} (step : β → NetlinkRouteAttr → Except Err β)
    (proj : β → Nat) (read : List Nat → Except Err Nat) (tag : Nat)
    (hstep : ∀ s0 a s, step s0 a = .ok s →
      (a.Typ = tag ∧ read a.Value.elems = .ok (proj s)) ∨ (a.Typ ≠ tag ∧ proj s = proj s0)) :
    ∀ (leaves : List NetlinkRouteAttr) (s0 s : β), leaves.foldlM step s0 = .ok s →
      (lastWith tag leaves = none → proj s = proj s0)
        ∧ (∀ b, lastWith tag leaves = some b → read b.Value.elems = .ok (proj s)) := by
  intro leaves
  induction leaves using List.reverseRecOn with
  | nil =>
    intro s0 s h
    cases h
    exact ⟨fun _ => rfl, fun b hb => by cases hb⟩
  | append_singleton l a ih =>
    intro s0 s h
    rw [List.foldlM_append] at h
    cases h1 : l.foldlM step s0 with
    | error e =>
      rw [h1] at h
      cases h
    | ok s1 =>
      rw [h1] at h
      have h2 : step s1 a = .ok s := by
        simp only [bind, Except.bind, List.foldlM_cons, List.foldlM_nil] at h
        cases h3 : step s1 a with
        | error e =>
          rw [h3] at h
          cases h
        | ok s2 =>
          rw [h3] at h
          exact h
      obtain ⟨i1, i2⟩ := ih s0 s1 h1
      rw [lastWith_append_singleton]
      rcases hstep s1 a s h2 with ⟨ht, hr⟩ | ⟨ht, hr⟩
      · rw [if_pos ht]
        exact ⟨fun hc => (by cases hc), fun b hb => (by cases hb; exact hr)⟩
      · rw [if_neg ht, hr]
        exact ⟨i1, i2⟩

theorem statsField_of_fold {β : Type} (step : β → NetlinkRouteAttr → Except Err β)
    (proj : β → Nat) (read : List Nat → Except Err Nat) (tag : Nat)
    (hstep : ∀ s0 a s, step s0 a = .ok s →
      (a.Typ = tag ∧ read a.Value.elems = .ok (proj s)) ∨ (a.Typ ≠ tag ∧ proj s = proj s0))
    (leaves : List NetlinkRouteAttr) (s0 s : β) (h0 : proj s0 = 0)
    (h : leaves.foldlM step s0 = .ok s) : statsField read tag leaves = .ok (proj s) := by
  obtain ⟨i1, i2⟩ := foldlM_last_wins step proj read tag hstep leaves s0 s h
  unfold statsField
  cases hl : lastWith tag leaves with
  | none =>
    rw [i1 hl, h0]
  | some b => exact i2 b hl

/-! ## Parsing the wire form of a list of leaves -/

theorem PutUint16_length (o : ByteOrder) (v : Nat) : (o.PutUint16 v).length = 2 := by
  cases o <;> rfl

/-- One round of the loop of `nl.ParseRouteAttr` on the wire form of a leaf
followed by `rest`. -/
theorem parseRouteAttrLoop_round (native : ByteOrder) (c : RtAttrChild) (rest : List Nat)
    (fuel : Nat) (acc : List NetlinkRouteAttr) (ht : c.Typ < 65536) (hl : c.Len < 65536) :
    parseRouteAttrLoop native (fuel + 1) ⟨c.Serialize native ++ rest, []⟩ acc
      = parseRouteAttrLoop native fuel ⟨rest, []⟩
          (acc ++ [⟨c.Typ, ⟨c.Data, List.replicate (rtaAlignOf c.Len - c.Len) 0 ++ rest⟩⟩]) := by
  have hLen : c.Len = 4 + c.Data.length := rfl
  have hge := (rtaAlignOf_ge c.Len).1
  have hser : c.Serialize native ++ rest
      = native.PutUint16 c.Len ++ (native.PutUint16 c.Typ
        ++ (c.Data ++ (List.replicate (rtaAlignOf c.Len - c.Len) 0 ++ rest))) := by
    unfold RtAttrChild.Serialize rtAttrHeader
    rw [Nat.mod_eq_of_lt hl, if_pos (by omega)]
    simp only [List.append_assoc]
  have e1 : native.Uint16 (c.Serialize native ++ rest) = .ok c.Len := by
    rw [hser, Uint16_PutUint16, Nat.mod_eq_of_lt hl]
  have e2 : native.Uint16 ((c.Serialize native ++ rest).drop 2) = .ok c.Typ := by
    rw [hser, List.drop_left' (PutUint16_length native _), Uint16_PutUint16,
      Nat.mod_eq_of_lt ht]
  have e3 : ((c.Serialize native ++ rest).drop 4).take (c.Len - 4) = c.Data := by
    rw [hser, ← List.append_assoc, List.drop_left' (by
      rw [List.length_append, PutUint16_length, PutUint16_length])]
    exact List.take_left' (by omega)
  have e4 : (c.Serialize native ++ rest).drop c.Len
      = List.replicate (rtaAlignOf c.Len - c.Len) 0 ++ rest := by
    rw [hser, ← List.append_assoc, ← List.append_assoc]
    exact List.drop_left' (by
      rw [List.length_append, List.length_append, PutUint16_length, PutUint16_length]
      omega)
  have e5 : (c.Serialize native ++ rest).drop (rtaAlignOf c.Len) = rest :=
    List.drop_left' (childSerialize_length native c)
  have hlen : (c.Serialize native ++ rest).length = rtaAlignOf c.Len + rest.length := by
    rw [List.length_append, childSerialize_length]
  rw [parseRouteAttrLoop]
  simp only [ByteSlice.len, ByteSlice.sliceFrom, SizeofRtAttr, e1, e2, e3, e4, e5, hlen,
    List.append_nil]
  rw [if_pos (by omega), if_neg (by omega), if_pos (by omega)]

/-- The loop of `nl.ParseRouteAttr` reads the wire form of a list of leaves
back: with enough fuel it returns the records of the leaves, in order. -/
theorem parseRouteAttrLoop_serialized (native : ByteOrder) :
    ∀ (cs : List RtAttrChild) (fuel : Nat) (acc : List NetlinkRouteAttr),
      (∀ c ∈ cs, c.Typ < 65536 ∧ c.Len < 65536) →
      (cs.flatMap (RtAttrChild.Serialize native)).length ≤ fuel →
      parseRouteAttrLoop native fuel ⟨cs.flatMap (RtAttrChild.Serialize native), []⟩ acc
        = .ok (acc ++ recordsOf native cs) := by
  intro cs
  induction cs with
  | nil =>
    intro fuel acc _ _
    cases fuel with
    | zero => simp [parseRouteAttrLoop, recordsOf]
    | succ f => simp [parseRouteAttrLoop, recordsOf, ByteSlice.len]
  | cons c cs ih =>
    intro fuel acc hc hf
    have hge := (rtaAlignOf_ge c.Len).1
    have hLen : c.Len = 4 + c.Data.length := rfl
    rw [List.flatMap_cons, List.length_append, childSerialize_length] at hf
    cases fuel with
    | zero => omega
    | succ f =>
      rw [List.flatMap_cons, parseRouteAttrLoop_round native c _ f acc
        (hc c (List.mem_cons_self _ _)).1 (hc c (List.mem_cons_self _ _)).2,
        ih f _ (fun x hx => hc x (List.mem_cons_of_mem _ hx)) (by omega)]
      simp [recordsOf]

/-- The function `nl.ParseRouteAttr` reads a blob made of the wire forms of a list of
leaves, one after the other, back into the records of these leaves. -/
theorem ParseRouteAttr_serialized (native : ByteOrder) (cs : List RtAttrChild)
    (hc : ∀ c ∈ cs, c.Typ < 65536 ∧ c.Len < 65536) :
    ParseRouteAttr native (ByteSlice.ofList (cs.flatMap (RtAttrChild.Serialize native)))
      = .ok (recordsOf native cs) := by
  exact parseRouteAttrLoop_serialized native cs _ [] hc (le_refl _)

/-! ## Decoding a stats blob (C23) -/

theorem statsStep_unknown (native : ByteOrder) (s : Stats) (a : NetlinkRouteAttr)
    (h : a.Typ ∉ statsTags) : statsStep native s a = .ok s := by
  simp only [statsTags, List.mem_cons, List.mem_singleton, List.not_mem_nil, or_false,
    not_or] at h
  obtain ⟨h1, h2, h3, h4, h5, h6, h7, h8, h9, h10⟩ := h
  simp only [statsStep, if_neg h1, if_neg h2, if_neg h3, if_neg h4, if_neg h5, if_neg h6,
    if_neg h7, if_neg h8, if_neg h9, if_neg h10]
  rfl

/-- A loop skips the elements that leave its state unchanged. -/
theorem foldlM_filter {α β : Type} (step : β → α → Except Err β) (p : α → Bool)
    (hskip : ∀ acc a, p a = false → step acc a = .ok acc) :
    ∀ (l : List α) (init : β), l.foldlM step init = (l.filter p).foldlM step init := by
  intro l
  induction l with
  | nil => intro init; rfl
  | cons a l ih =>
    intro init
    cases hp : p a with
    | false =>
      rw [List.filter_cons_of_neg (by simp [hp]), List.foldlM_cons, hskip init a hp]
      exact ih init
    | true =>
      rw [List.filter_cons_of_pos hp, List.foldlM_cons, List.foldlM_cons]
      cases step init a with
      | error e => rfl
      | ok acc => exact ih acc

/-- A component of the state that no round on an element satisfying `ok`
changes is the same after the loop. -/
theorem foldlM_keeps {α β γ : Type} (step : β → α → Except Err β) (proj : β → γ)
    (ok : α → Prop) (hstep : ∀ acc a acc1, ok a → step acc a = .ok acc1 → proj acc1 = proj acc) :
    ∀ (l : List α) (acc acc1 : β), (∀ a ∈ l, ok a) → l.foldlM step acc = .ok acc1 →
      proj acc1 = proj acc := by
  intro l
  induction l with
  | nil =>
    intro acc acc1 _ h
    cases h
    rfl
  | cons a l ih =>
    intro acc acc1 hl h
    rw [List.foldlM_cons] at h
    cases hs : step acc a with
    | error e =>
      rw [hs] at h
      cases h
    | ok acc2 =>
      rw [hs] at h
      rw [ih acc2 acc1 (fun x hx => hl x (List.mem_cons_of_mem _ hx)) h]
      exact hstep acc a acc2 (hl a (List.mem_cons_self _ _)) hs

theorem destinationStep_keeps_stats (native : ByteOrder) (acc acc1 : DestinationEntry × ByteSlice)
    (a : NetlinkRouteAttr) (hne : a.Typ ≠ IPVS_DEST_ATTR_STATS)
    (h : destinationStep native acc a = .ok acc1) : acc1.1.Stats = acc.1.Stats := by
  rcases destinationStep_form native a with ⟨e, he⟩ | ⟨u, hu, f⟩
  · rw [he] at h
    cases h
  rw [hu] at h
  cases h
  rcases f with f | ⟨t, x, f⟩ | ⟨t, x, f⟩ | ⟨t, x, f⟩ | ⟨t, x, f⟩ | ⟨t, x, f⟩ | ⟨t, x, f⟩
    | ⟨t, x, f⟩ | ⟨t, x, f⟩ | ⟨t, x, f⟩ | ⟨t, x, f⟩ | ⟨t, x, f⟩ <;>
    first
    | exact absurd t hne
    | rw [f]

theorem destinationStep_stats (native : ByteOrder) (acc : DestinationEntry × ByteSlice)
    (msg : ByteSlice) (s : Stats) (h : assembleStats native msg = .ok s) :
    destinationStep native acc ⟨IPVS_DEST_ATTR_STATS, msg⟩
      = .ok ({ acc.1 with Stats := s }, acc.2) := by
  unfold destinationStep
  simp only [h]
  rfl

/-- C23: for every stats blob that `nl.ParseRouteAttr` reads as a list of
leaves (as it does a blob made of the wire forms of leaves, by
`ParseRouteAttr_serialized`) in which each leaf of one of the ten stats types
holds at least the documented width (4 bytes, 8 for the two byte counters),
`assembleStats` succeeds; each of the ten fields of the result is the host-order value of the
last leaf of its type (`uint32`, `uint64` for in-bytes and out-bytes) and zero
when no leaf has its type; the result is that of the leaves of the ten types
alone; and a destination record of type IPVS_DEST_ATTR_STATS carrying the blob
sets the Stats of the destination to this result, which
`assembleDestinationInterface` returns when no later record has that type. -/
theorem stats_decoding (native : ByteOrder) (msg : ByteSlice) (leaves : List NetlinkRouteAttr)
    (hparse : ParseRouteAttr native msg = .ok leaves) (hok : ∀ a ∈ leaves, statsLeafOk a) :
    ∃ s, assembleStats native msg = .ok s
      ∧ statsField native.Uint32 IPVS_STATS_ATTR_CONNS leaves = .ok s.Connections
      ∧ statsField native.Uint32 IPVS_STATS_ATTR_INPKTS leaves = .ok s.PacketsIn
      ∧ statsField native.Uint32 IPVS_STATS_ATTR_OUTPKTS leaves = .ok s.PacketsOut
      ∧ statsField native.Uint64 IPVS_STATS_ATTR_INBYTES leaves = .ok s.BytesIn
      ∧ statsField native.Uint64 IPVS_STATS_ATTR_OUTBYTES leaves = .ok s.BytesOut
      ∧ statsField native.Uint32 IPVS_STATS_ATTR_CPS leaves = .ok s.CPS
      ∧ statsField native.Uint32 IPVS_STATS_ATTR_INPPS leaves = .ok s.PPSIn
      ∧ statsField native.Uint32 IPVS_STATS_ATTR_OUTPPS leaves = .ok s.PPSOut
      ∧ statsField native.Uint32 IPVS_STATS_ATTR_INBPS leaves = .ok s.BPSIn
      ∧ statsField native.Uint32 IPVS_STATS_ATTR_OUTBPS leaves = .ok s.BPSOut
      ∧ (leaves.filter (fun a => a.Typ ∈ statsTags)).foldlM (statsStep native) {} = .ok s
      ∧ (∀ acc : DestinationEntry × ByteSlice,
          destinationStep native acc ⟨IPVS_DEST_ATTR_STATS, msg⟩
            = .ok ({ acc.1 with Stats := s }, acc.2))
      ∧ (∀ (pre post : List NetlinkRouteAttr) (d : DestinationEntry),
          (∀ a ∈ post, a.Typ ≠ IPVS_DEST_ATTR_STATS) →
          assembleDestinationInterface native (pre ++ ⟨IPVS_DEST_ATTR_STATS, msg⟩ :: post)
            = .ok d →
          d.Stats = s) := by
  obtain ⟨s, hs⟩ := statsLoop_ok native leaves {} hok
  have hasm : assembleStats native msg = .ok s := by
    unfold assembleStats
    rw [hparse]
    exact hs
  have hf := fun s0 a s1 h => statsStep_fields native s0 s1 a h
  refine ⟨s, hasm, ?_, ?_, ?_, ?_, ?_, ?_, ?_, ?_, ?_, ?_, ?_, ?_, ?_⟩
  · exact statsField_of_fold (statsStep native) (fun x => x.Connections) _ _
      (fun s0 a s1 h => (hf s0 a s1 h).1) leaves {} s rfl hs
  · exact statsField_of_fold (statsStep native) (fun x => x.PacketsIn) _ _
      (fun s0 a s1 h => (hf s0 a s1 h).2.1) leaves {} s rfl hs
  · exact statsField_of_fold (statsStep native) (fun x => x.PacketsOut) _ _
      (fun s0 a s1 h => (hf s0 a s1 h).2.2.1) leaves {} s rfl hs
  · exact statsField_of_fold (statsStep native) (fun x => x.BytesIn) _ _
      (fun s0 a s1 h => (hf s0 a s1 h).2.2.2.1) leaves {} s rfl hs
  · exact statsField_of_fold (statsStep native) (fun x => x.BytesOut) _ _
      (fun s0 a s1 h => (hf s0 a s1 h).2.2.2.2.1) leaves {} s rfl hs
  · exact statsField_of_fold (statsStep native) (fun x => x.CPS) _ _
      (fun s0 a s1 h => (hf s0 a s1 h).2.2.2.2.2.1) leaves {} s rfl hs
  · exact statsField_of_fold (statsStep native) (fun x => x.PPSIn) _ _
      (fun s0 a s1 h => (hf s0 a s1 h).2.2.2.2.2.2.1) leaves {} s rfl hs
  · exact statsField_of_fold (statsStep native) (fun x => x.PPSOut) _ _
      (fun s0 a s1 h => (hf s0 a s1 h).2.2.2.2.2.2.2.1) leaves {} s rfl hs
  · exact statsField_of_fold (statsStep native) (fun x => x.BPSIn) _ _
      (fun s0 a s1 h => (hf s0 a s1 h).2.2.2.2.2.2.2.2.1) leaves {} s rfl hs
  · exact statsField_of_fold (statsStep native) (fun x => x.BPSOut) _ _
      (fun s0 a s1 h => (hf s0 a s1 h).2.2.2.2.2.2.2.2.2) leaves {} s rfl hs
  · rw [← foldlM_filter (statsStep native) (fun a => decide (a.Typ ∈ statsTags))
      (fun acc a hp => statsStep_unknown native acc a (by simpa using hp)) leaves {}]
    exact hs
  · intro acc
    exact destinationStep_stats native acc msg s hasm
  · intro pre post d hpost hd
    unfold assembleDestinationInterface at hd
    cases hfold : (pre ++ ⟨IPVS_DEST_ATTR_STATS, msg⟩ :: post).foldlM (destinationStep native)
        ({}, ByteSlice.nil) with
    | error e =>
      rw [hfold] at hd
      cases hd
    | ok acc =>
      rw [hfold] at hd
      have hacc : acc.1.Stats = s := by
        rw [List.foldlM_append] at hfold
        cases h1 : pre.foldlM (destinationStep native) ({}, ByteSlice.nil) with
        | error e =>
          rw [h1] at hfold
          cases hfold
        | ok acc1 =>
          rw [h1] at hfold
          simp only [bind, Except.bind, List.foldlM_cons,
            destinationStep_stats native acc1 msg s hasm] at hfold
          exact foldlM_keeps (destinationStep native) (fun x => x.1.Stats)
            (fun a => a.Typ ≠ IPVS_DEST_ATTR_STATS)
            (fun x a x1 hne h => destinationStep_keeps_stats native x x1 a hne h)
            post _ acc hpost hfold
      simp only [bind, Except.bind, pure, Except.pure] at hd
      split_ifs at hd with h6
      · cases h16 : acc.2.sliceTo 16 with
        | error e =>
          rw [h16] at hd
          cases hd
        | ok v =>
          rw [h16] at hd
          cases hd
          exact hacc
      · cases h4 : acc.2.sliceTo 4 with
        | error e =>
          rw [h4] at hd
          cases hd
        | ok v =>
          rw [h4] at hd
          cases hd
          exact hacc

/-- Witness of `stats_decoding`: the blob made of four leaves, with two leaves
for the connections and one padding leaf, and the records of a destination
that carry it. -/
theorem stats_decoding_witness :
    (ParseRouteAttr .LittleEndian statsBlob = .ok (recordsOf .LittleEndian statsLeaves)
        ∧ (∀ a ∈ recordsOf .LittleEndian statsLeaves, statsLeafOk a))
      ∧ (∃ s, assembleStats .LittleEndian statsBlob = .ok s
        ∧ statsField ByteOrder.LittleEndian.Uint32 IPVS_STATS_ATTR_CONNS
            (recordsOf .LittleEndian statsLeaves) = .ok s.Connections)
      ∧ assembleStats .LittleEndian statsBlob = .ok decodedStats
      ∧ assembleDestinationInterface .LittleEndian destinationWithStatsRecords
        = .ok decodedDestinationWithStats :=
  ⟨⟨by decide, by decide⟩,
    match stats_decoding .LittleEndian statsBlob (recordsOf .LittleEndian statsLeaves)
      (ParseRouteAttr_serialized .LittleEndian statsLeaves (by decide)) (by decide) with
    | ⟨s, h, hc, _⟩ => ⟨s, h, hc⟩,
    by decide, by decide⟩

end Libipvs
